import Mathlib

/-! # ThirdBrakeLight: input debouncing, effect life cycle and frame resolver

A shallow embedding of `LightingEvents.h`, `LEDStripGFX.h`, `globals.h` and the resolver
`processAndDisplayInputs` of `main.cpp`.

Conventions of the embedding.

* `unsigned long` is 32 bits wide on the ESP32 target: values are natural numbers and every
  subtraction is reduced modulo `2 ^ 32`.  `int` values are integers; the two conversions
  between `int` and `unsigned long` are written out (`toUnsigned`, `toInt`).
* Every call of `millis()`, `xTaskGetTickCount()` and `digitalRead()` is an explicit argument
  of the function that makes the call.  A frame of the resolver and a `Draw()` are taken at
  one clock value and one reading of the pins; where a history of one input is followed,
  the FreeRTOS tick count and `millis()` are the same millisecond clock.
* `float` and `double` values are the rationals they denote and every operation rounds to
  nearest, ties to even (`f32`, `f64`).
* Virtual dispatch of `Begin`, `End` and `Draw` is a `match` on the dynamic class of the
  object (`Kind`).
* The function `CheckForButtonPress` is a poll during which no interrupt runs.  Where a
  history of one input is followed, a poll is the four steps of that function (read of the
  pin, first critical section, test and call, second critical section), and `IRQ()` may
  run between any two of them; `IRQ()` itself is atomic.
* The pixel buffer is the family of cells `_pLEDs[x]`, also for `x` outside the allocation.
* What FastLED and Adafruit_GFX provide, and the two gamma tables that the repository
  declares without defining, are either the parameter `External` or modelled where used.
-/

namespace ThirdBrakeLight

/-! ## Machine arithmetic -/

/-- Number of values of a 32-bit word. -/
def WORD : Nat := 2 ^ 32

/-- Conversion of an `int` to `unsigned long` (reduction modulo `2 ^ 32`). -/
def toUnsigned (x : Int) : Nat := (x % (2 ^ 32 : Int)).toNat

/-- Conversion of an `unsigned long` to `int` (two's complement). -/
def toInt (n : Nat) : Int :=
  if n % WORD < 2 ^ 31 then ((n % WORD : Nat) : Int) else ((n % WORD : Nat) : Int) - 2 ^ 32

/-- Subtraction `a - b` of two `unsigned long` values. -/
def subU32 (a b : Nat) : Nat := (a % WORD + (WORD - b % WORD)) % WORD

/-! ## Constants of `globals.h` and `LightingEvents.h` -/

def MATRIX_WIDTH : Nat := 70
def MATRIX_HEIGHT : Nat := 1
def LEFT_TURN_PIN : Nat := 36
def RIGHT_TURN_PIN : Nat := 37
def BACKUP_PIN : Nat := 38
def EMERGENCY_PIN : Nat := 39
def NUMBER_USED_PIXELS : Nat := MATRIX_WIDTH * MATRIX_HEIGHT

/-- The debounce window in milliseconds, `const int DEBOUNCETIME = 30`. -/
def DEBOUNCETIME : Int := 30

/-! ## The effect object -/

/-- The enumeration `SignalEvent::SIGNAL_STYLE`. -/
inductive SIGNAL_STYLE where
  | INVALID
  | LEFT_TURN
  | RIGHT_TURN
  | HAZARD
  deriving DecidableEq, Repr

/-- Dynamic class of an effect object; it selects the override of `Begin`, `End`, `Draw`. -/
inductive Kind where
  | Backup
  | Braking
  | Signal (style : SIGNAL_STYLE)
  | Police
  deriving DecidableEq, Repr

/-- The fields of `LightingEvent`, together with the dynamic class and the one field that
`SignalEvent` adds (`_bExitatEnd`, unused by the other classes). -/
structure LightingEvent where
  kind : Kind
  _eventStart : Nat
  _active : Bool
  _hasIRQHandlerFiredYet : Bool
  _lastIRQButtonState : Int
  _debounceTimeout : Int
  _buttonPin1 : Nat
  _buttonPin2 : Nat
  _bExitatEnd : Bool
  deriving DecidableEq, Repr

/-- The constructor `LightingEvent(pStrip, buttonPin1, buttonPin2)` with the default member
initialisers of the class. -/
def LightingEvent.new (kind : Kind) (buttonPin1 : Nat) (buttonPin2 : Nat) : LightingEvent :=
  { kind := kind
    _eventStart := 0
    _active := false
    _hasIRQHandlerFiredYet := false
    _lastIRQButtonState := 0
    _debounceTimeout := 0
    _buttonPin1 := buttonPin1
    _buttonPin2 := buttonPin2
    _bExitatEnd := false }

/-- A call of one of the two virtual life-cycle methods, recorded by the polling step. -/
inductive Call where
  | Begin
  | End
  deriving DecidableEq, Repr

/-- `LightingEvent::IRQ`: `level` is what `digitalRead(_buttonPin1)` returns inside the
handler and `tick` what `xTaskGetTickCount()` returns. -/
def LightingEvent.IRQ (e : LightingEvent) (level : Bool) (tick : Nat) : LightingEvent :=
  { e with
    _lastIRQButtonState := if level then 1 else 0
    _debounceTimeout := toInt tick
    _hasIRQHandlerFiredYet := true }

/-- `LightingEvent::GetActive`. -/
def LightingEvent.GetActive (e : LightingEvent) : Bool := e._active

/-- `LightingEvent::SetActive`. -/
def LightingEvent.SetActive (e : LightingEvent) (bActive : Bool) : LightingEvent :=
  { e with _active := bActive }

/-- The base-class `LightingEvent::Begin`, `now` being `millis()`. -/
def LightingEvent.baseBegin (e : LightingEvent) (now : Nat) : LightingEvent :=
  { e with
    _eventStart := if !e._active then now else e._eventStart
    _active := true }

/-- The base-class `LightingEvent::End`, `now` being `millis()`. -/
def LightingEvent.baseEnd (e : LightingEvent) (now : Nat) : LightingEvent :=
  { e with _active := false, _eventStart := now }

/-- `SignalEvent::Begin`. -/
def SignalEvent.Begin (e : LightingEvent) (now : Nat) : LightingEvent :=
  { e with
    _eventStart := if !e._active || e._bExitatEnd then now else e._eventStart
    _active := true
    _bExitatEnd := false }

/-- `SignalEvent::End`. -/
def SignalEvent.End (e : LightingEvent) : LightingEvent :=
  { e with _bExitatEnd := true }

/-- `PoliceLightBar::Begin`. -/
def PoliceLightBar.Begin (e : LightingEvent) (now : Nat) : LightingEvent :=
  if e._active then e.baseEnd now else e.baseBegin now

/-- `PoliceLightBar::End`. -/
def PoliceLightBar.End (e : LightingEvent) : LightingEvent := e

/-- The virtual call `Begin()`. -/
def LightingEvent.Begin (e : LightingEvent) (now : Nat) : LightingEvent :=
  match e.kind with
  | Kind.Signal _ => SignalEvent.Begin e now
  | Kind.Police => PoliceLightBar.Begin e now
  | Kind.Backup => e.baseBegin now
  | Kind.Braking => e.baseBegin now

/-- The virtual call `End()`. -/
def LightingEvent.End (e : LightingEvent) (now : Nat) : LightingEvent :=
  match e.kind with
  | Kind.Signal _ => SignalEvent.End e
  | Kind.Police => PoliceLightBar.End e
  | Kind.Backup => e.baseEnd now
  | Kind.Braking => e.baseEnd now

/-- `LightingEvent::CheckForButtonPress`.  `digitalRead` is the pin level at the time of the
poll, `now` is the `millis()` of the debounce test and `nowAct` the `millis()` read inside
the `Begin()` or `End()` that the poll calls.  The result is the new state with the list of
life-cycle calls that were made. -/
def LightingEvent.CheckForButtonPress (e : LightingEvent) (digitalRead : Nat → Bool)
    (now nowAct : Nat) : LightingEvent × List Call :=
  if e._buttonPin1 = 0 then (e, [])
  else
    let bCurrentState : Bool := digitalRead e._buttonPin1
    let save : Bool := e._hasIRQHandlerFiredYet
    let saveDebounceTimeout : Int := e._debounceTimeout
    let saveLastIRQState : Bool := decide (e._lastIRQButtonState ≠ 0)
    if save ∧ bCurrentState = saveLastIRQState
        ∧ toUnsigned DEBOUNCETIME < subU32 now (toUnsigned saveDebounceTimeout) then
      let r : LightingEvent × List Call :=
        if bCurrentState then
          if e._buttonPin2 = 0 ∨ digitalRead e._buttonPin2 = true then
            (e.Begin nowAct, [Call.Begin])
          else if e.GetActive = true then (e.End nowAct, [Call.End])
          else (e, [])
        else
          if e.GetActive = true then (e.End nowAct, [Call.End])
          else (e, [])
      ({ r.1 with _hasIRQHandlerFiredYet := false }, r.2)
    else (e, [])

/-! ## Floating point

A finite `float` or `double` value is the rational number it denotes.  Every arithmetic
operation of the source is the exact operation followed by rounding to nearest, ties to
even, at 24 significant bits (`f32`) or 53 significant bits (`f64`).  No value of the
program comes near the overflow threshold, so rounding never produces an infinity. -/

/-- Rounding of a rational to the nearest integer, ties to the even one. -/
def roundHalfEven (m : ℚ) : Int :=
  let f : Int := ⌊m⌋
  let r : ℚ := m - f
  if r < 1 / 2 then f else if 1 / 2 < r then f + 1 else if f % 2 = 0 then f else f + 1

/-- Rounding to the binary format with `p` significant bits and least exponent `emin`. -/
def roundBinary (p : Nat) (emin : Int) (q : ℚ) : ℚ :=
  if q = 0 then 0
  else
    let e : Int := max (Int.log 2 |q|) emin
    let ulp : ℚ := (2 : ℚ) ^ (e - ((p : Int) - 1))
    (if q < 0 then -1 else 1) * (roundHalfEven (|q| / ulp) : ℚ) * ulp

/-- Rounding to `float` (IEEE binary32). -/
def f32 (q : ℚ) : ℚ := roundBinary 24 (-126) q

/-- Rounding to `double` (IEEE binary64). -/
def f64 (q : ℚ) : ℚ := roundBinary 53 (-1022) q

/-- Conversion of a floating-point value to an integer type: truncation toward zero. -/
def truncInt (q : ℚ) : Int := if 0 ≤ q then ⌊q⌋ else ⌈q⌉

/-- The C function `fmod`, whose result is exact. -/
def fmod (x y : ℚ) : ℚ := x - (truncInt (x / y) : ℚ) * y

/-- `LightingEvent::TimeElapsedTotal`: `(millis() - _eventStart) / 1000.0f`. -/
def LightingEvent.TimeElapsedTotal (e : LightingEvent) (now : Nat) : ℚ :=
  f32 (f32 (subU32 now e._eventStart : ℚ) / f32 1000)

/-- The macro `NUMBER_TURN_PIXELS`, `(NUMBER_USED_PIXELS / 3.333)`, a `double`. -/
def NUMBER_TURN_PIXELS : ℚ := f64 ((NUMBER_USED_PIXELS : ℚ) / f64 (3333 / 1000))

/-! ## The pixel strip -/

/-- The FastLED pixel type `CRGB`. -/
structure CRGB where
  r : Nat
  g : Nat
  b : Nat
  deriving DecidableEq, Repr

/-- The constructor `CRGB(uint32_t colorcode)` of FastLED. -/
def CRGB.ofCode (code : Nat) : CRGB :=
  { r := (code / 65536) % 256, g := (code / 256) % 256, b := code % 256 }

/-- The FastLED colour codes `CRGB::Black`, `CRGB::White`, `CRGB::Red`, `CRGB::Blue`. -/
def Black : Nat := 0x000000
def White : Nat := 0xFFFFFF
def Red : Nat := 0xFF0000
def Blue : Nat := 0x0000FF

/-- The cells `_pLEDs[x]` of an `LEDStripGFX`; the allocation made by the constructor holds
the cells `0 .. NUMBER_USED_PIXELS - 1`. -/
abbrev Strip := Int → CRGB

/-- `LEDStripGFX::drawPixel(int x, CRGB color)`. -/
def LEDStripGFX.drawPixel (s : Strip) (x : Int) (color : CRGB) : Strip :=
  if 0 ≤ x ∧ x ≤ ((MATRIX_WIDTH * MATRIX_HEIGHT : Nat) : Int) then Function.update s x color
  else s

/-- What the program takes from outside the repository: the palette lookup of FastLED
(applied to the `float` argument of the call, which C++ converts to `uint8_t`), the two
gamma tables of `LEDStripGFX::from16Bit`, and the words found in memory around the
frame table of the police bar. -/
structure External where
  ColorFromPalette : ℚ → CRGB
  gamma5 : Nat → Nat
  gamma6 : Nat → Nat
  outsideTable : Int → Nat → Nat

/-- `LEDStripGFX::from16Bit`. -/
def LEDStripGFX.from16Bit (x : External) (color : Nat) : CRGB :=
  { r := x.gamma5 (color / 2048), g := x.gamma6 ((color / 32) % 64), b := x.gamma5 (color % 32) }

/-- `Adafruit_GFX::fillScreen(color)` on the strip: one call of the 16-bit `drawPixel` for
every `x < MATRIX_WIDTH` in row 0, which stores `from16Bit(color)` into cell `x`. -/
def LEDStripGFX.fillScreen (x : External) (color : Nat) (s : Strip) : Strip :=
  (List.range MATRIX_WIDTH).foldl
    (fun (s : Strip) (i : Nat) => Function.update s (i : Int) (LEDStripGFX.from16Bit x color)) s

/-- A `for (i = start; cond(i); i++) body(i)` loop, run for at most `fuel` iterations. -/
def forLoop {σ : Type} (cond : Nat → Bool) (body : Nat → σ → σ) : Nat → Nat → σ → σ
  | 0, _, s => s
  | fuel + 1, i, s => if cond i then forLoop cond body fuel (i + 1) (body i s) else s

/-! ## BackupEvent -/

/-- `BackupEvent::BLOOM_TIME = 0.25f`. -/
def BackupEvent.BLOOM_TIME : ℚ := f32 (25 / 100)

/-- The local `cLEDs` of `BackupEvent::Draw`. -/
def BackupEvent.cLEDs (e : LightingEvent) (now : Nat) : Int :=
  let fPercentComplete : ℚ := min (f32 (e.TimeElapsedTotal now / BackupEvent.BLOOM_TIME)) (f32 1)
  truncInt (f32 ((NUMBER_USED_PIXELS : ℚ) * fPercentComplete))

/-- The pixel loop of `BackupEvent::Draw`. -/
def BackupEvent.paint (iFirst iLast : Int) (s : Strip) : Strip :=
  (List.range NUMBER_USED_PIXELS).foldl
    (fun (s : Strip) (i : Nat) =>
      if (i : Int) < iFirst ∨ (i : Int) > iLast then
        LEDStripGFX.drawPixel s (i : Int) (CRGB.ofCode Black)
      else LEDStripGFX.drawPixel s (i : Int) (CRGB.ofCode White)) s

/-- `BackupEvent::Draw`. -/
def BackupEvent.Draw (e : LightingEvent) (now : Nat) (s : Strip) : Strip :=
  if e.GetActive = false then s
  else
    let cLEDs : Int := BackupEvent.cLEDs e now
    let iFirst : Int := ((NUMBER_USED_PIXELS / 2 : Nat) : Int) - Int.tdiv cLEDs 2
    let iLast : Int := ((NUMBER_USED_PIXELS / 2 : Nat) : Int) + Int.tdiv cLEDs 2
    BackupEvent.paint iFirst iLast s

/-! ## BrakingEvent -/

def BrakingEvent.BRAKE_STROBE_DURATION : ℚ := f32 (5 / 10)
def BrakingEvent.BLOOM_START_SIZE : ℚ := f32 (f64 (10 / 100))
def BrakingEvent.BLOOM_TIME : ℚ := f32 (f64 (25 / 100))

/-- The local `unusedEachEnd` of `BrakingEvent::Draw`. -/
def BrakingEvent.unusedEachEnd (e : LightingEvent) (now : Nat) : ℚ :=
  let timeElapsed : ℚ := e.TimeElapsedTotal now
  let pctComplete : ℚ :=
    min (f32 1) (f32 (f32 (timeElapsed / BrakingEvent.BLOOM_TIME) + BrakingEvent.BLOOM_START_SIZE))
  f32 (f32 (f32 (f32 1 - pctComplete) * (NUMBER_USED_PIXELS : ℚ)) / 2)

/-- `BrakingEvent::Draw`.  The strobe loop starts at `(uint16_t) unusedEachEnd` and runs
while `i < NUMBER_USED_PIXELS - unusedEachEnd`, which is at most `NUMBER_USED_PIXELS`
iterations. -/
def BrakingEvent.Draw (e : LightingEvent) (now : Nat) (s : Strip) : Strip :=
  if e.GetActive = false then s
  else if e.TimeElapsedTotal now < BrakingEvent.BRAKE_STROBE_DURATION then
    let unusedEachEnd : ℚ := BrakingEvent.unusedEachEnd e now
    let bLit : Bool := decide ((now / 40) % 2 = 1)
    forLoop (fun i => decide ((i : ℚ) < f32 ((NUMBER_USED_PIXELS : ℚ) - unusedEachEnd)))
      (fun (i : Nat) (s : Strip) =>
        LEDStripGFX.drawPixel s (i : Int) (if bLit then CRGB.ofCode Red else ⟨16, 0, 0⟩))
      (NUMBER_USED_PIXELS + 1) ((truncInt unusedEachEnd).toNat % 65536) s
  else
    (List.range' 1 (NUMBER_USED_PIXELS - 1)).foldl
      (fun (s : Strip) (i : Nat) => LEDStripGFX.drawPixel s (i : Int) (CRGB.ofCode Red)) s

/-! ## SignalEvent -/

/-- `SignalEvent::FlashDurationSeconds = 1.0f`. -/
def SignalEvent.FlashDurationSeconds : ℚ := f32 1

/-- `SignalEvent::SetTurnLED`. -/
def SignalEvent.SetTurnLED (style : SIGNAL_STYLE) (i : Int) (color : CRGB) (s : Strip) : Strip :=
  if i < 0 ∨ NUMBER_TURN_PIXELS ≤ (i : ℚ) then s
  else
    let s1 : Strip :=
      if style = SIGNAL_STYLE.RIGHT_TURN ∨ style = SIGNAL_STYLE.HAZARD then
        LEDStripGFX.drawPixel s i color
      else s
    if style = SIGNAL_STYLE.LEFT_TURN ∨ style = SIGNAL_STYLE.HAZARD then
      LEDStripGFX.drawPixel s1 ((NUMBER_USED_PIXELS : Int) - 1 - i) color
    else s1

/-- The value of `fCyclePosition` that `SignalEvent::Draw` tests against `1.0f`:
`TimeElapsedTotal() / FlashDurationSeconds`. -/
def SignalEvent.elapsedCycles (e : LightingEvent) (now : Nat) : ℚ :=
  f32 (e.TimeElapsedTotal now / SignalEvent.FlashDurationSeconds)

/-- The value of `fCyclePosition` with which `SignalEvent::Draw` samples the palette. -/
def SignalEvent.fCyclePosition (e : LightingEvent) (now : Nat) : ℚ :=
  if f32 1 < SignalEvent.elapsedCycles e now then f32 (SignalEvent.elapsedCycles e now - f32 1)
  else SignalEvent.elapsedCycles e now

/-- The local `iPaletteStep`: `(NUMBER_USED_PIXELS/NUMBER_TURN_PIXELS) / 3.75f`. -/
def SignalEvent.iPaletteStep : ℚ :=
  f32 (f64 (f64 ((NUMBER_USED_PIXELS : ℚ) / NUMBER_TURN_PIXELS) / f32 (375 / 100)))

/-- The two pixel loops of `SignalEvent::Draw`; both run while `i < NUMBER_TURN_PIXELS`. -/
def SignalEvent.paint (x : External) (style : SIGNAL_STYLE) (fCyclePosition : ℚ) (s : Strip) :
    Strip :=
  let inTurn : Nat → Bool := fun i => decide ((i : ℚ) < NUMBER_TURN_PIXELS)
  let s1 : Strip :=
    forLoop inTurn
      (fun (i : Nat) (s : Strip) => SignalEvent.SetTurnLED style (i : Int) (CRGB.ofCode Black) s)
      NUMBER_USED_PIXELS 0 s
  forLoop inTurn
    (fun (i : Nat) (s : Strip) =>
      let iPaletteStart : Int := truncInt (f32 (240 * fCyclePosition))
      let color : CRGB :=
        x.ColorFromPalette (f32 ((iPaletteStart : ℚ) + f32 ((i : ℚ) * SignalEvent.iPaletteStep)))
      SignalEvent.SetTurnLED style (i : Int) color s)
    NUMBER_USED_PIXELS 0 s1

/-- `SignalEvent::Draw` of a signal of the given style. -/
def SignalEvent.Draw (x : External) (style : SIGNAL_STYLE) (e : LightingEvent) (now : Nat)
    (s : Strip) : LightingEvent × Strip :=
  if e.GetActive = false then (e, s)
  else if f32 1 < SignalEvent.elapsedCycles e now ∧ e._bExitatEnd = true then
    ({ e with _active := false }, s)
  else (e, SignalEvent.paint x style (SignalEvent.fCyclePosition e now) s)

/-! ## PoliceLightBar -/

/-- The struct `PoliceLightBarState`: eight colour codes and a duration. -/
structure PoliceLightBarState where
  sectionColor : List Nat
  duration : ℚ
  deriving DecidableEq, Repr

/-- `const float longPulse = 0.30`. -/
def longPulse : ℚ := f32 (f64 (30 / 100))

/-- `const float shortPulse = 0.04`. -/
def shortPulse : ℚ := f32 (f64 (4 / 100))

/-- The 25 rows that the initialiser of `PoliceLightBar::_PoliceBarStates1` lists. -/
def PoliceLightBar.listedRows : List PoliceLightBarState :=
  [
    { sectionColor := [Blue, Blue, Red, Red, Blue, Blue, Red, Red], duration := longPulse },
    { sectionColor := [Red, Red, Blue, Blue, Red, Red, Blue, Blue], duration := longPulse },
    { sectionColor := [Blue, Blue, Red, Red, Blue, Blue, Red, Red], duration := longPulse },
    { sectionColor := [Red, Red, Blue, Blue, Red, Red, Blue, Blue], duration := longPulse },
    { sectionColor := [Blue, Blue, Red, Red, Blue, Blue, Red, Red], duration := longPulse },
    { sectionColor := [Red, Red, Blue, Blue, Red, Red, Blue, Blue], duration := longPulse },
    { sectionColor := [Blue, Blue, Red, Red, Blue, Blue, Red, Red], duration := longPulse },
    { sectionColor := [Red, Red, Blue, Blue, Red, Red, Blue, Blue], duration := longPulse },
    { sectionColor := [Blue, Blue, Red, Red, Blue, Blue, Red, Red], duration := longPulse },
    { sectionColor := [Red, Red, Blue, Blue, Red, Red, Blue, Blue], duration := longPulse },
    { sectionColor := [White, Blue, Red, Red, Blue, Blue, Red, Red], duration := shortPulse },
    { sectionColor := [Blue, Blue, Red, Red, Blue, Blue, Red, White], duration := shortPulse },
    { sectionColor := [Blue, White, Red, Red, Blue, Blue, Red, Red], duration := shortPulse },
    { sectionColor := [Blue, Blue, Red, Red, Blue, Blue, White, Red], duration := shortPulse },
    { sectionColor := [Blue, Blue, White, Red, Blue, Blue, Red, Red], duration := shortPulse },
    { sectionColor := [Blue, Blue, Red, Red, Blue, White, Red, Red], duration := shortPulse },
    { sectionColor := [Blue, Blue, Red, White, Blue, Blue, Red, Red], duration := shortPulse },
    { sectionColor := [Blue, Blue, Red, Red, White, Blue, Red, Red], duration := shortPulse },
    { sectionColor := [Blue, Blue, Red, White, Blue, Blue, Red, Red], duration := shortPulse },
    { sectionColor := [Blue, Blue, Red, Red, Blue, White, Red, Red], duration := shortPulse },
    { sectionColor := [Blue, Blue, White, Red, Blue, Blue, Red, Red], duration := shortPulse },
    { sectionColor := [Blue, Blue, Red, Red, Blue, Blue, White, Red], duration := shortPulse },
    { sectionColor := [Blue, White, Red, Red, Blue, Blue, Red, Red], duration := shortPulse },
    { sectionColor := [Blue, Blue, Red, Red, Blue, Blue, Red, White], duration := shortPulse },
    { sectionColor := [White, Blue, Red, Red, Blue, Blue, Red, Red], duration := shortPulse }
  ]

/-- The array `PoliceLightBar::_PoliceBarStates1[32]`: the listed rows, then rows of zeros. -/
def PoliceLightBar._PoliceBarStates1 : List PoliceLightBarState :=
  PoliceLightBar.listedRows
    ++ List.replicate (32 - PoliceLightBar.listedRows.length)
        { sectionColor := List.replicate 8 0, duration := 0 }

/-- `ARRAYSIZE(_PoliceBarStates1)`. -/
def PoliceLightBar.ARRAYSIZE : Nat := 32

/-- The member `duration` of row `row` of the table. -/
def PoliceLightBar.durationAt (row : Nat) : ℚ :=
  (PoliceLightBar._PoliceBarStates1.getD row { sectionColor := [], duration := 0 }).duration

/-- The constructor's loop: `_TotalCycleTime += _PoliceBarStates1[i].duration` over the
whole array, starting from `0.0f`. -/
def PoliceLightBar._TotalCycleTime : ℚ :=
  (List.range PoliceLightBar.ARRAYSIZE).foldl
    (fun (total : ℚ) (i : Nat) => f32 (total + PoliceLightBar.durationAt i)) (f32 0)

/-- The row scan of `PoliceLightBar::Draw`:
`while (sofar < fCyclePosition && row < ARRAYSIZE - 1) { sofar += duration; row++; }`,
run for at most `fuel` iterations; the result is the final `row`. -/
def PoliceLightBar.scan (fCyclePosition : ℚ) : Nat → ℚ → Nat → Nat
  | 0, _, row => row
  | fuel + 1, sofar, row =>
      if sofar < fCyclePosition ∧ row < PoliceLightBar.ARRAYSIZE - 1 then
        PoliceLightBar.scan fCyclePosition fuel (f32 (sofar + PoliceLightBar.durationAt row))
          (row + 1)
      else row

/-- The local `row` of `PoliceLightBar::Draw` after the scan and the `row--` that follows
it, for the cycle position `fCyclePosition`. -/
def PoliceLightBar.row (fCyclePosition : ℚ) : Int :=
  (PoliceLightBar.scan fCyclePosition PoliceLightBar.ARRAYSIZE (f32 0) 0 : Int) - 1

/-- The local `sectionSize` of `PoliceLightBar::Draw`. -/
def PoliceLightBar.sectionSize : Nat := NUMBER_USED_PIXELS / 8

/-- The word `_PoliceBarStates1[row].sectionColor[iSection]`: a colour of the table when
both indices are inside their arrays, otherwise what lies in memory at that place. -/
def PoliceLightBar.colorWord (x : External) (row : Int) (iSection : Nat) : Nat :=
  if 0 ≤ row ∧ row < (PoliceLightBar.ARRAYSIZE : Int) ∧ iSection < 8 then
    ((PoliceLightBar._PoliceBarStates1.getD row.toNat
      { sectionColor := [], duration := 0 }).sectionColor.getD iSection 0)
  else x.outsideTable row iSection

/-- The value of `fCyclePosition` in `PoliceLightBar::Draw`. -/
def PoliceLightBar.fCyclePosition (e : LightingEvent) (now : Nat) : ℚ :=
  fmod (e.TimeElapsedTotal now) PoliceLightBar._TotalCycleTime

/-- `PoliceLightBar::Draw`. -/
def PoliceLightBar.Draw (x : External) (e : LightingEvent) (now : Nat) (s : Strip) : Strip :=
  if e.GetActive = false then s
  else
    let row : Int := PoliceLightBar.row (PoliceLightBar.fCyclePosition e now)
    (List.range NUMBER_USED_PIXELS).foldl
      (fun (s : Strip) (i : Nat) =>
        let iSection : Nat := i / PoliceLightBar.sectionSize
        LEDStripGFX.drawPixel s (i : Int) (CRGB.ofCode (PoliceLightBar.colorWord x row iSection))) s

/-! ## The resolver -/

/-- The virtual call `Draw()`. -/
def LightingEvent.Draw (x : External) (e : LightingEvent) (now : Nat) (s : Strip) :
    LightingEvent × Strip :=
  match e.kind with
  | Kind.Signal style => SignalEvent.Draw x style e now s
  | Kind.Police => (e, PoliceLightBar.Draw x e now s)
  | Kind.Backup => (e, BackupEvent.Draw e now s)
  | Kind.Braking => (e, BrakingEvent.Draw e now s)

/-- The global objects of `main.cpp`. -/
structure Globals where
  g_Strip : Strip
  g_Braking : LightingEvent
  g_Backup : LightingEvent
  g_LeftTurn : LightingEvent
  g_RightTurn : LightingEvent
  g_Emergency : LightingEvent

/-- The global objects as their constructors leave them; the cells of the strip are
zeroed by `calloc`. -/
def Globals.init : Globals :=
  { g_Strip := fun _ => { r := 0, g := 0, b := 0 }
    g_Braking := LightingEvent.new Kind.Braking 0 0
    g_Backup := LightingEvent.new Kind.Backup BACKUP_PIN 0
    g_LeftTurn := LightingEvent.new (Kind.Signal SIGNAL_STYLE.LEFT_TURN) LEFT_TURN_PIN 0
    g_RightTurn := LightingEvent.new (Kind.Signal SIGNAL_STYLE.RIGHT_TURN) RIGHT_TURN_PIN 0
    g_Emergency := LightingEvent.new Kind.Police EMERGENCY_PIN 0 }

/-- The 5:6:5 colour `BLACK16`. -/
def BLACK16 : Nat := 0x0000

/-- The first loop of `processAndDisplayInputs`: `CheckForButtonPress()` on every effect
of `g_pAllEffects`. -/
def pollAll (g : Globals) (digitalRead : Nat → Bool) (now : Nat) : Globals :=
  { g with
    g_Emergency := (g.g_Emergency.CheckForButtonPress digitalRead now now).1
    g_Braking := (g.g_Braking.CheckForButtonPress digitalRead now now).1
    g_LeftTurn := (g.g_LeftTurn.CheckForButtonPress digitalRead now now).1
    g_RightTurn := (g.g_RightTurn.CheckForButtonPress digitalRead now now).1
    g_Backup := (g.g_Backup.CheckForButtonPress digitalRead now now).1 }

/-- The override step of `processAndDisplayInputs`, the `if ... else if ...` between the
two loops.  `tL` and `tR` are the `millis()` of the two `TimeElapsedTotal()` calls and `tB`
the `millis()` inside `g_Braking.Begin()` or `g_Braking.End()`. -/
def overrideStep (g : Globals) (digitalRead : Nat → Bool) (tL tR tB : Nat) : Globals :=
  if g.g_LeftTurn.GetActive = true ∧ g.g_RightTurn.GetActive = true then
    if g.g_LeftTurn.TimeElapsedTotal tL < f64 (5 / 100)
        ∧ g.g_RightTurn.TimeElapsedTotal tR < f64 (5 / 100) then
      { g with
        g_LeftTurn := g.g_LeftTurn.SetActive false
        g_RightTurn := g.g_RightTurn.SetActive false
        g_Braking := g.g_Braking.Begin tB }
    else g
  else if g.g_Braking.GetActive = true ∧ digitalRead LEFT_TURN_PIN = false
      ∧ digitalRead RIGHT_TURN_PIN = false then
    { g with g_Braking := g.g_Braking.End tB }
  else g

/-- The second loop of `processAndDisplayInputs`: `Draw()` on every effect in the order of
`g_pAllEffects`, which is emergency, braking, left turn, right turn, backup. -/
def drawAll (x : External) (g : Globals) (now : Nat) : Globals :=
  let d1 := g.g_Emergency.Draw x now g.g_Strip
  let d2 := g.g_Braking.Draw x now d1.2
  let d3 := g.g_LeftTurn.Draw x now d2.2
  let d4 := g.g_RightTurn.Draw x now d3.2
  let d5 := g.g_Backup.Draw x now d4.2
  { g_Strip := d5.2
    g_Emergency := d1.1
    g_Braking := d2.1
    g_LeftTurn := d3.1
    g_RightTurn := d4.1
    g_Backup := d5.1 }

/-- The first statement of `processAndDisplayInputs`: `g_Strip.fillScreen(BLACK16)`. -/
def clearScreen (x : External) (g : Globals) : Globals :=
  { g with g_Strip := LEDStripGFX.fillScreen x BLACK16 g.g_Strip }

/-- `processAndDisplayInputs`: one frame of the resolver at clock `now`, the pins reading
`digitalRead` throughout the frame. -/
def processAndDisplayInputs (x : External) (g : Globals) (digitalRead : Nat → Bool)
    (now : Nat) : Globals :=
  let polled : Globals := pollAll (clearScreen x g) digitalRead now
  let resolved : Globals := overrideStep polled digitalRead now now now
  drawAll x resolved now

/-! ## Objects and calls used by the statements about the resolver and the signal -/

/-- Every global object has the class that `main.cpp` declares it with. -/
def Globals.typed (g : Globals) : Prop :=
  g.g_Braking.kind = Kind.Braking ∧ g.g_Backup.kind = Kind.Backup
    ∧ g.g_LeftTurn.kind = Kind.Signal SIGNAL_STYLE.LEFT_TURN
    ∧ g.g_RightTurn.kind = Kind.Signal SIGNAL_STYLE.RIGHT_TURN
    ∧ g.g_Emergency.kind = Kind.Police

/-- A call of `Begin()` or of `Draw()` at a clock value. -/
inductive BeginOrDraw where
  | Begin (now : Nat)
  | Draw (now : Nat)
  deriving DecidableEq, Repr

/-- One call of `Begin()` or `Draw()` on an effect that draws on a strip. -/
def BeginOrDraw.apply (x : External) (st : LightingEvent × Strip) :
    BeginOrDraw → LightingEvent × Strip
  | BeginOrDraw.Begin now => (st.1.Begin now, st.2)
  | BeginOrDraw.Draw now => st.1.Draw x now st.2

/-- A strip whose every cell is black. -/
def blackStrip : Strip := fun _ => CRGB.ofCode Black

/-- An `External` whose tables and palette are all zero, for evaluating the model. -/
def External.zero : External :=
  { ColorFromPalette := fun _ => CRGB.ofCode Black
    gamma5 := fun _ => 0
    gamma6 := fun _ => 0
    outsideTable := fun _ _ => 0 }

/-- Both turn inputs rose at tick 100 and their interrupts have run; nothing else has
happened since the constructors. -/
def Globals.bothTurnsPressed : Globals :=
  { Globals.init with
    g_LeftTurn := Globals.init.g_LeftTurn.IRQ true 100
    g_RightTurn := Globals.init.g_RightTurn.IRQ true 100 }

/-- Braking is active and no turn signal is; no interrupt is pending. -/
def Globals.brakingAlone : Globals :=
  { Globals.init with g_Braking := { Globals.init.g_Braking with _active := true } }

/-- The backup effect has been active since clock 0; no interrupt is pending. -/
def Globals.backingUp : Globals :=
  { Globals.init with g_Backup := { Globals.init.g_Backup with _active := true } }

/-- The left-turn signal of `main.cpp` after its input rose at tick 1000 and the poll at
clock 1031 confirmed the press (which calls `Begin()`). -/
def leftTurnHeld : LightingEvent :=
  (((LightingEvent.new (Kind.Signal SIGNAL_STYLE.LEFT_TURN) LEFT_TURN_PIN 0).IRQ true
    1000).CheckForButtonPress (fun _ => true) 1031 1031).1

/-- The same signal after its input fell at tick 2500 and the poll at clock 2531 confirmed
the release (which calls `End()`). -/
def leftTurnReleased : LightingEvent :=
  ((leftTurnHeld.IRQ false 2500).CheckForButtonPress (fun _ => false) 2531 2531).1

/-! ## The effect objects of a frame, without the strip -/

/-- The five effect objects of `main.cpp`. -/
structure Effects where
  braking : LightingEvent
  backup : LightingEvent
  leftTurn : LightingEvent
  rightTurn : LightingEvent
  emergency : LightingEvent
  deriving DecidableEq, Repr

/-- The effect objects among the globals. -/
def Globals.effects (g : Globals) : Effects :=
  { braking := g.g_Braking
    backup := g.g_Backup
    leftTurn := g.g_LeftTurn
    rightTurn := g.g_RightTurn
    emergency := g.g_Emergency }

/-- What a `Draw()` does to the state of an effect object: a signal with a deferred end
pending is deactivated once more than 1000 ms have elapsed, nothing else changes. -/
def LightingEvent.afterDraw (e : LightingEvent) (now : Nat) : LightingEvent :=
  match e.kind with
  | Kind.Signal _ =>
      if e._active = true ∧ e._bExitatEnd = true ∧ 1000 < subU32 now e._eventStart then
        { e with _active := false }
      else e
  | _ => e

/-- The polls of a frame, on the effect objects. -/
def Effects.pollAll (f : Effects) (digitalRead : Nat → Bool) (now : Nat) : Effects :=
  { braking := (f.braking.CheckForButtonPress digitalRead now now).1
    backup := (f.backup.CheckForButtonPress digitalRead now now).1
    leftTurn := (f.leftTurn.CheckForButtonPress digitalRead now now).1
    rightTurn := (f.rightTurn.CheckForButtonPress digitalRead now now).1
    emergency := (f.emergency.CheckForButtonPress digitalRead now now).1 }

/-- The override step of a frame, on the effect objects, with the two tests on
`TimeElapsedTotal()` written in milliseconds. -/
def Effects.override (p : Effects) (digitalRead : Nat → Bool) (now : Nat) : Effects :=
  if p.leftTurn.GetActive = true ∧ p.rightTurn.GetActive = true then
    if subU32 now p.leftTurn._eventStart < 50 ∧ subU32 now p.rightTurn._eventStart < 50 then
      { p with
        leftTurn := p.leftTurn.SetActive false
        rightTurn := p.rightTurn.SetActive false
        braking := p.braking.Begin now }
    else p
  else if p.braking.GetActive = true ∧ digitalRead LEFT_TURN_PIN = false
      ∧ digitalRead RIGHT_TURN_PIN = false then
    { p with braking := p.braking.End now }
  else p

/-- The draws of a frame, on the effect objects. -/
def Effects.afterDraw (r : Effects) (now : Nat) : Effects :=
  { braking := r.braking.afterDraw now
    backup := r.backup.afterDraw now
    leftTurn := r.leftTurn.afterDraw now
    rightTurn := r.rightTurn.afterDraw now
    emergency := r.emergency.afterDraw now }

/-- What a frame of `processAndDisplayInputs` at clock `now` does to the effect objects. -/
def Effects.frame (f : Effects) (digitalRead : Nat → Bool) (now : Nat) : Effects :=
  ((f.pollAll digitalRead now).override digitalRead now).afterDraw now

/-! ## Drives: interrupts and frames in sequence -/

/-- One step of a drive: the `CHANGE` interrupt of an input pin, whose handler reads `level`
at tick `tick`, or one frame of the control loop at clock `now` with the pins reading
`digitalRead`. -/
inductive Step where
  | irq (pin : Nat) (level : Bool) (tick : Nat)
  | frame (digitalRead : Nat → Bool) (now : Nat)

/-- The interrupt vectors of `main.cpp` (`LeftTurnIRQ`, `RightTurnIRQ`, `BackupIRQ`,
`EmergencyIRQ`), attached by `setup()` to their pins. -/
def Globals.irq (g : Globals) (pin : Nat) (level : Bool) (tick : Nat) : Globals :=
  if pin = LEFT_TURN_PIN then { g with g_LeftTurn := g.g_LeftTurn.IRQ level tick }
  else if pin = RIGHT_TURN_PIN then { g with g_RightTurn := g.g_RightTurn.IRQ level tick }
  else if pin = BACKUP_PIN then { g with g_Backup := g.g_Backup.IRQ level tick }
  else if pin = EMERGENCY_PIN then { g with g_Emergency := g.g_Emergency.IRQ level tick }
  else g

/-- A drive applied to the globals, first step first. -/
def Globals.run (x : External) (g : Globals) : List Step → Globals
  | [] => g
  | Step.irq pin level tick :: rest => Globals.run x (g.irq pin level tick) rest
  | Step.frame digitalRead now :: rest =>
      Globals.run x (processAndDisplayInputs x g digitalRead now) rest

/-- The interrupt vectors, on the effect objects. -/
def Effects.irq (f : Effects) (pin : Nat) (level : Bool) (tick : Nat) : Effects :=
  if pin = LEFT_TURN_PIN then { f with leftTurn := f.leftTurn.IRQ level tick }
  else if pin = RIGHT_TURN_PIN then { f with rightTurn := f.rightTurn.IRQ level tick }
  else if pin = BACKUP_PIN then { f with backup := f.backup.IRQ level tick }
  else if pin = EMERGENCY_PIN then { f with emergency := f.emergency.IRQ level tick }
  else f

/-- A drive applied to the effect objects, first step first. -/
def Effects.run (f : Effects) : List Step → Effects
  | [] => f
  | Step.irq pin level tick :: rest => Effects.run (f.irq pin level tick) rest
  | Step.frame digitalRead now :: rest => Effects.run (f.frame digitalRead now) rest

/-- Both turn inputs rise at tick 1000 and the frame at clock 1031 turns the two presses
into a brake event. -/
def hazardPress : List Step :=
  [ Step.irq LEFT_TURN_PIN true 1000, Step.irq RIGHT_TURN_PIN true 1000,
    Step.frame (fun _ => true) 1031 ]

/-- The left input drops at tick 2000 and is HIGH again at tick 2100, which the frame at
clock 2131 confirms. -/
def leftTurnAgain : List Step :=
  [ Step.irq LEFT_TURN_PIN false 2000, Step.irq LEFT_TURN_PIN true 2100,
    Step.frame (fun _ => true) 2131 ]

/-- The right input drops at tick 2200 and is HIGH again at tick 2300, which the frame at
clock 2331 confirms; both inputs fall at tick 2400. -/
def rightTurnAgainThenRelease : List Step :=
  [ Step.irq RIGHT_TURN_PIN false 2200, Step.irq RIGHT_TURN_PIN true 2300,
    Step.frame (fun _ => true) 2331,
    Step.irq LEFT_TURN_PIN false 2400, Step.irq RIGHT_TURN_PIN false 2400 ]

/-- The three drives above, one after the other. -/
def hazardThenBothTurns : List Step :=
  hazardPress ++ (leftTurnAgain ++ rightTurnAgainThenRelease)

/-! ## Predicates used by the statements about polling -/

/-- The four conditions under which `CheckForButtonPress` confirms an event. -/
def confirms (e : LightingEvent) (digitalRead : Nat → Bool) (now : Nat) : Prop :=
  e._buttonPin1 ≠ 0 ∧ e._hasIRQHandlerFiredYet = true
    ∧ digitalRead e._buttonPin1 = decide (e._lastIRQButtonState ≠ 0)
    ∧ 30 < subU32 now (toUnsigned e._debounceTimeout)

instance (e : LightingEvent) (digitalRead : Nat → Bool) (now : Nat) :
    Decidable (confirms e digitalRead now) := by
  unfold confirms
  infer_instance

/-- The fields of the debounce sample and the pin binding. -/
def sameSample (a b : LightingEvent) : Prop :=
  a._lastIRQButtonState = b._lastIRQButtonState ∧ a._debounceTimeout = b._debounceTimeout
    ∧ a._buttonPin1 = b._buttonPin1 ∧ a._buttonPin2 = b._buttonPin2 ∧ a.kind = b.kind

/-! ## Repeated calls -/

/-- `Begin()` called once for every clock value of a list, in order. -/
def LightingEvent.beginMany (e : LightingEvent) (clocks : List Nat) : LightingEvent :=
  clocks.foldl (fun (e : LightingEvent) (now : Nat) => e.Begin now) e

/-! ## Objects and counts used by the statements about the backup effect -/

/-- The backup effect of `main.cpp` after its input rose at tick 1000 and the poll at
clock 1031 confirmed the press (which calls `Begin()`). -/
def backupPressed : LightingEvent :=
  (((LightingEvent.new Kind.Backup BACKUP_PIN 0).IRQ true 1000).CheckForButtonPress
    (fun _ => true) 1031 1031).1

/-- The number of pixels in `[0, NUMBER_USED_PIXELS)` that `BackupEvent::Draw` leaves
white. -/
def BackupEvent.litCount (e : LightingEvent) (now : Nat) : Nat :=
  (List.range NUMBER_USED_PIXELS).countP
    (fun (i : Nat) => decide (BackupEvent.Draw e now blackStrip (i : Int) = CRGB.ofCode White))

/-! ## Partial sums and objects used by the statements about the police bar -/

/-- The value of `sofar` in `PoliceLightBar::Draw` after `k` iterations of the row scan,
which is also the value of `_TotalCycleTime` after `k` iterations of the constructor's
loop. -/
def PoliceLightBar.sofarAt : Nat → ℚ
  | 0 => f32 0
  | k + 1 => f32 (PoliceLightBar.sofarAt k + PoliceLightBar.durationAt k)

/-- The emergency effect of `main.cpp` after its input rose at tick 1000 and the poll at
clock 1031 confirmed the press (which calls `Begin()`). -/
def emergencyPressed : LightingEvent :=
  (((LightingEvent.new Kind.Police EMERGENCY_PIN 0).IRQ true 1000).CheckForButtonPress
    (fun _ => true) 1031 1031).1

/-! ## Objects used by the statements about the brake light -/

/-- The object `g_Braking` of `main.cpp` after the override step of the frame at clock 1031
has called its `Begin()`. -/
def brakingBegun : LightingEvent := (LightingEvent.new Kind.Braking 0 0).Begin 1031

/-! ## Polls in sequence and the qualifier pin -/

/-- The last statement of a confirming poll: `_hasIRQHandlerFiredYet = false`. -/
def LightingEvent.acknowledge (e : LightingEvent) : LightingEvent :=
  { e with _hasIRQHandlerFiredYet := false }

/-- `CheckForButtonPress()` called once for every entry of a list (pin levels and clock of
the poll), in order, with no `IRQ()` in between; the result is the final object with all
the life-cycle calls that were made. -/
def LightingEvent.pollMany (e : LightingEvent) :
    List ((Nat → Bool) × Nat) → LightingEvent × List Call
  | [] => (e, [])
  | p :: rest =>
      let r : LightingEvent × List Call := e.CheckForButtonPress p.1 p.2 p.2
      let r' : LightingEvent × List Call := LightingEvent.pollMany r.1 rest
      (r'.1, r.2 ++ r'.2)

/-- A backup effect constructed with `EMERGENCY_PIN` as its secondary pin and begun at
clock 500. -/
def backupWithQualifier : LightingEvent :=
  (LightingEvent.new Kind.Backup BACKUP_PIN EMERGENCY_PIN).Begin 500

/-- The emergency effect of `main.cpp` after the single rising edge of its input at tick
1000. -/
def emergencyEdge : LightingEvent := (LightingEvent.new Kind.Police EMERGENCY_PIN 0).IRQ true 1000

/-- Polls at the clocks 1010, 1031, 1032, 2000 and 60000 with every pin reading HIGH. -/
def heldHigh : List ((Nat → Bool) × Nat) :=
  [(fun _ => true, 1010), (fun _ => true, 1031), (fun _ => true, 1032), (fun _ => true, 2000),
    (fun _ => true, 60000)]

/-! ## Drives that keep a turn input HIGH -/

/-- A step that fires no interrupt of a turn input and, when it is a frame, reads at least
one of the two turn pins HIGH. -/
def Step.keepsHazard : Step → Bool
  | Step.irq pin _ _ => decide (pin ≠ LEFT_TURN_PIN ∧ pin ≠ RIGHT_TURN_PIN)
  | Step.frame digitalRead _ => digitalRead LEFT_TURN_PIN || digitalRead RIGHT_TURN_PIN

/-- After the override frame: frames with both turn pins HIGH, an interrupt of the
emergency input, then frames with only the left turn pin HIGH. -/
def hazardHeld : List Step :=
  [ Step.frame (fun _ => true) 1040, Step.frame (fun _ => true) 1100,
    Step.irq EMERGENCY_PIN true 1150,
    Step.frame (fun p => decide (p = LEFT_TURN_PIN)) 1200,
    Step.frame (fun p => decide (p = LEFT_TURN_PIN)) 5000 ]

/-! ## Objects used by the statements about the turn pixels -/

/-- The colour that the second loop of `SignalEvent::Draw` passes to `SetTurnLED` for the
index `i`: `ColorFromPalette(SignalColors_pal, iPaletteStart + i * iPaletteStep)`. -/
def SignalEvent.turnColor (x : External) (fCyclePosition : ℚ) (i : Nat) : CRGB :=
  let iPaletteStart : Int := truncInt (f32 (240 * fCyclePosition))
  x.ColorFromPalette (f32 ((iPaletteStart : ℚ) + f32 ((i : ℚ) * SignalEvent.iPaletteStep)))

/-- An `External` whose palette is white everywhere, for evaluating the model. -/
def External.white : External :=
  { ColorFromPalette := fun _ => CRGB.ofCode White
    gamma5 := fun _ => 0
    gamma6 := fun _ => 0
    outsideTable := fun _ _ => 0 }

/-- The right-turn signal of `main.cpp` after its input rose at tick 1000 and the poll at
clock 1031 confirmed the press (which calls `Begin()`). -/
def rightTurnHeld : LightingEvent :=
  (((LightingEvent.new (Kind.Signal SIGNAL_STYLE.RIGHT_TURN) RIGHT_TURN_PIN 0).IRQ true
    1000).CheckForButtonPress (fun _ => true) 1031 1031).1

/-! ## One input observed over time

Between the statements of `CheckForButtonPress` the `CHANGE` interrupt may run `IRQ()`:
the function reads the pin, copies the three fields that `IRQ()` writes inside a first
critical section, tests the copies and calls `Begin()` or `End()`, and clears the flag
inside a second critical section.  A schedule interleaves these four steps with the level
changes of the pin. -/

/-- Where the control loop stands inside `CheckForButtonPress`, with the locals it holds:
outside the function; after `digitalRead(_buttonPin1)`; after the first critical section;
after the `Begin()` or `End()` of a poll whose test passed, before the second critical
section. -/
inductive PollState where
  | idle
  | haveRead (bCurrentState : Bool)
  | haveSnapshot (bCurrentState save : Bool) (saveDebounceTimeout : Int)
      (saveLastIRQState : Bool)
  | mustAcknowledge
  deriving DecidableEq, Repr

/-- One step on one input.  `change t`: the raw level of the primary pin flips at clock `t`
and the `CHANGE` interrupt runs `IRQ()`, which reads the new level.  The other four are the
steps of `CheckForButtonPress()`: the test of `_buttonPin1` with the read of the pin; the
first critical section; the debounce test at `millis() = t` with the call of `Begin()` or
`End()`, whose `millis()` is `nowAct`, every pin other than the primary one reading `q`;
the second critical section. -/
inductive SchedEvent where
  | change (t : Nat)
  | pollRead
  | pollSnapshot
  | pollAct (t : Nat) (q : Bool) (nowAct : Nat)
  | pollAck
  deriving DecidableEq, Repr

/-- An effect object together with the raw level of its primary pin and the place of the
control loop inside `CheckForButtonPress`. -/
structure Monitor where
  raw : Bool
  effect : LightingEvent
  pc : PollState
  deriving DecidableEq, Repr

/-- The constructed object, the pin at level `raw0`, the control loop outside the poll. -/
def Monitor.init (kind : Kind) (pin1 pin2 : Nat) (raw0 : Bool) : Monitor :=
  { raw := raw0, effect := LightingEvent.new kind pin1 pin2, pc := PollState.idle }

/-- The `digitalRead` seen by a poll: the primary pin reads `raw`, any other pin `q`. -/
def pinReader (pin1 : Nat) (raw q : Bool) : Nat → Bool :=
  fun p => if p = pin1 then raw else q

/-- The statements of `CheckForButtonPress` between the debounce test and the second
critical section: `Begin()` on a HIGH level unless the secondary pin refuses it, `End()` of
an active effect otherwise. -/
def LightingEvent.raiseEvent (e : LightingEvent) (bCurrentState : Bool)
    (digitalRead : Nat → Bool) (nowAct : Nat) : LightingEvent × List Call :=
  if bCurrentState then
    if e._buttonPin2 = 0 ∨ digitalRead e._buttonPin2 = true then
      (e.Begin nowAct, [Call.Begin])
    else if e.GetActive = true then (e.End nowAct, [Call.End])
    else (e, [])
  else
    if e.GetActive = true then (e.End nowAct, [Call.End])
    else (e, [])

/-- One step of a schedule, with the life-cycle calls that it makes.  A step of the poll
that comes out of order does nothing. -/
def Monitor.step (w : Monitor) : SchedEvent → Monitor × List Call
  | SchedEvent.change t => ({ w with raw := !w.raw, effect := w.effect.IRQ (!w.raw) t }, [])
  | SchedEvent.pollRead =>
      match w.pc with
      | PollState.idle =>
          if w.effect._buttonPin1 = 0 then (w, [])
          else ({ w with pc := PollState.haveRead w.raw }, [])
      | _ => (w, [])
  | SchedEvent.pollSnapshot =>
      match w.pc with
      | PollState.haveRead bCurrentState =>
          ({ w with
              pc := (PollState.haveSnapshot bCurrentState w.effect._hasIRQHandlerFiredYet
                w.effect._debounceTimeout (decide (w.effect._lastIRQButtonState ≠ 0))) }, [])
      | _ => (w, [])
  | SchedEvent.pollAct t q nowAct =>
      match w.pc with
      | PollState.haveSnapshot bCurrentState save saveDebounceTimeout saveLastIRQState =>
          if save = true ∧ bCurrentState = saveLastIRQState
              ∧ toUnsigned DEBOUNCETIME < subU32 t (toUnsigned saveDebounceTimeout) then
            let r : LightingEvent × List Call :=
              w.effect.raiseEvent bCurrentState (pinReader w.effect._buttonPin1 w.raw q) nowAct
            ({ w with effect := r.1, pc := PollState.mustAcknowledge }, r.2)
          else ({ w with pc := PollState.idle }, [])
      | _ => (w, [])
  | SchedEvent.pollAck =>
      match w.pc with
      | PollState.mustAcknowledge =>
          ({ w with effect := w.effect.acknowledge, pc := PollState.idle }, [])
      | _ => (w, [])

/-- A schedule (most recent step first) applied to a monitor. -/
def Monitor.run (w0 : Monitor) : List SchedEvent → Monitor
  | [] => w0
  | ev :: older => ((Monitor.run w0 older).step ev).1

/-- What happens on one input when no level change falls inside a poll.  `change t`: the
raw level flips at clock `t`.  `poll t q`: the control loop runs `CheckForButtonPress()` at
clock `t`, every pin other than the primary one reading `q`. -/
inductive InputEvent where
  | change (t : Nat)
  | poll (t : Nat) (q : Bool)
  deriving DecidableEq, Repr

/-- Clock value of an event. -/
def InputEvent.time : InputEvent → Nat
  | InputEvent.change t => t
  | InputEvent.poll t _ => t

/-- The schedule of a history (most recent event first) in which every poll runs its four
steps with no level change in between. -/
def uninterrupted : List InputEvent → List SchedEvent
  | [] => []
  | InputEvent.change t :: older => SchedEvent.change t :: uninterrupted older
  | InputEvent.poll t q :: older =>
      SchedEvent.pollAck :: SchedEvent.pollAct t q t :: SchedEvent.pollSnapshot
        :: SchedEvent.pollRead :: uninterrupted older

/-- Raw level of the primary pin after a schedule (most recent step first). -/
def rawLevel (raw0 : Bool) : List SchedEvent → Bool
  | [] => raw0
  | SchedEvent.change _ :: older => !rawLevel raw0 older
  | _ :: older => rawLevel raw0 older

/-- Clock value of the most recent level change of a schedule, if there was one. -/
def lastChange : List SchedEvent → Option Nat
  | [] => none
  | SchedEvent.change t :: _ => some t
  | _ :: older => lastChange older

/-- Clock values of the debounce tests that came after the most recent level change. -/
def pollsSinceChange : List SchedEvent → List Nat
  | [] => []
  | SchedEvent.change _ :: _ => []
  | SchedEvent.pollAct t _ _ :: older => t :: pollsSinceChange older
  | _ :: older => pollsSinceChange older

/-- The raw level is HIGH at clock `t` and has not changed for strictly more than 30 ms:
every level change of the schedule happened at some `c` with `30 < t - c`.  A level that
has been HIGH since the construction of the object is stable. -/
def stableHigh (raw0 : Bool) (sched : List SchedEvent) (t : Nat) : Bool :=
  rawLevel raw0 sched && (match lastChange sched with
    | some c => decide (30 < t - c)
    | none => true)

/-- No debounce test since the last level change came more than 30 ms after it. -/
def unacknowledged (sched : List SchedEvent) : Bool :=
  match lastChange sched with
  | some c => (pollsSinceChange sched).all (fun p => decide (p - c ≤ 30))
  | none => true

/-- The clock never runs backwards along a history and stays below `2 ^ 32`. -/
def chronological : List InputEvent → Bool
  | [] => true
  | ev :: older =>
      decide (ev.time < WORD) && older.all (fun o => decide (o.time ≤ ev.time))
        && chronological older

/-- What the effect object has recorded about a schedule of its input, the control loop
being outside the poll. -/
def tracks (raw0 : Bool) (pin1 pin2 : Nat) (sched : List SchedEvent) (w : Monitor) : Prop :=
  w.raw = rawLevel raw0 sched ∧ w.pc = PollState.idle
    ∧ w.effect._buttonPin1 = pin1 ∧ w.effect._buttonPin2 = pin2
    ∧ (lastChange sched = none → w.effect._hasIRQHandlerFiredYet = false)
    ∧ ∀ c, lastChange sched = some c →
        toUnsigned w.effect._debounceTimeout = c
          ∧ decide (w.effect._lastIRQButtonState ≠ 0) = w.raw
          ∧ w.effect._hasIRQHandlerFiredYet = unacknowledged sched

/-- The level rises at clock 0 and a poll at clock 31 confirms the press. -/
def pressConfirmed : List InputEvent := [InputEvent.poll 31 false, InputEvent.change 0]

/-- The level rises at clock 0 and the poll at clock 31 confirms the press; the level falls
at clock 100; the next poll has read the pin and copied the sample when the level rises
again at clock 140; the poll then passes its test at clock 141, calls `End()` and clears
the flag. -/
def racingRise : List SchedEvent :=
  [ SchedEvent.pollAck, SchedEvent.pollAct 141 false 141, SchedEvent.change 140,
    SchedEvent.pollSnapshot, SchedEvent.pollRead, SchedEvent.change 100 ]
    ++ uninterrupted pressConfirmed

/-- The level rises at clock 0; a poll has read the pin and copied the sample when the level
falls at clock 40. -/
def racingFall : List SchedEvent :=
  [ SchedEvent.change 40, SchedEvent.pollSnapshot, SchedEvent.pollRead, SchedEvent.change 0 ]

/-! ## Facts about rounding -/

theorem roundHalfEven_of_lt_half (m : ℚ) (f : Int) (h1 : (f : ℚ) ≤ m) (h2 : m < f + 1 / 2) :
    roundHalfEven m = f := by
  have hf : ⌊m⌋ = f := by
    rw [Int.floor_eq_iff]
    constructor
    · exact h1
    · linarith
  unfold roundHalfEven
  simp only [hf]
  rw [if_pos (by linarith)]

theorem roundHalfEven_of_gt_half (m : ℚ) (f : Int) (h1 : (f : ℚ) + 1 / 2 < m) (h2 : m < f + 1) :
    roundHalfEven m = f + 1 := by
  have hf : ⌊m⌋ = f := by
    rw [Int.floor_eq_iff]
    constructor
    · linarith
    · exact h2
  unfold roundHalfEven
  simp only [hf]
  rw [if_neg (by linarith), if_pos (by linarith)]

theorem log2_eq_of_bounds (q : ℚ) (e : Int) (h1 : (2 : ℚ) ^ e ≤ q) (h2 : q < (2 : ℚ) ^ (e + 1)) :
    Int.log 2 q = e := by
  have hq : 0 < q := lt_of_lt_of_le (by positivity) h1
  have hle : e ≤ Int.log 2 q := by
    rw [← Int.zpow_le_iff_le_log (by norm_num) hq]
    simpa using h1
  have hlt : Int.log 2 q < e + 1 := by
    rw [← Int.lt_zpow_iff_log_lt (by norm_num) hq]
    simpa using h2
  omega

/-- Evaluation of a rounding: `q` lies in the binade of `2 ^ e` and its significand rounds
to `k`. -/
theorem roundBinary_eq (p : Nat) (emin : Int) (q : ℚ) (e k : Int) (he : emin ≤ e)
    (h1 : (2 : ℚ) ^ e ≤ q) (h2 : q < (2 : ℚ) ^ (e + 1))
    (hk : roundHalfEven (q / (2 : ℚ) ^ (e - ((p : Int) - 1))) = k) :
    roundBinary p emin q = (k : ℚ) * (2 : ℚ) ^ (e - ((p : Int) - 1)) := by
  have hq : 0 < q := lt_of_lt_of_le (by positivity) h1
  unfold roundBinary
  rw [if_neg (ne_of_gt hq)]
  simp only [abs_of_pos hq, log2_eq_of_bounds q e h1 h2, max_eq_left he, hk]
  rw [if_neg (not_lt.mpr (le_of_lt hq))]
  ring

theorem roundBinary_zero (p : Nat) (emin : Int) : roundBinary p emin 0 = 0 := by
  simp [roundBinary]

theorem f32_zero : f32 0 = 0 := roundBinary_zero 24 (-126)

theorem f32_one : f32 1 = 1 := by
  have := roundBinary_eq 24 (-126) 1 0 8388608 (by norm_num) (by norm_num) (by norm_num)
    (roundHalfEven_of_lt_half _ _ (by norm_num) (by norm_num))
  rw [f32, this]
  norm_num

theorem f32_1000 : f32 1000 = 1000 := by
  have := roundBinary_eq 24 (-126) 1000 9 16384000 (by norm_num) (by norm_num) (by norm_num)
    (roundHalfEven_of_lt_half _ _ (by norm_num) (by norm_num))
  rw [f32, this]
  norm_num

theorem f64_twentieth : f64 (5 / 100) = 3602879701896397 / 72057594037927936 := by
  have := roundBinary_eq 53 (-1022) (5 / 100) (-5) 7205759403792794 (by norm_num)
    (by norm_num) (by norm_num)
    (roundHalfEven_of_gt_half _ 7205759403792793 (by norm_num) (by norm_num))
  rw [f64, this]
  norm_num

theorem roundHalfEven_intCast (n : Int) : roundHalfEven (n : ℚ) = n :=
  roundHalfEven_of_lt_half _ _ le_rfl (by linarith)

theorem roundHalfEven_bounds (m : ℚ) : ⌊m⌋ ≤ roundHalfEven m ∧ roundHalfEven m ≤ ⌊m⌋ + 1 := by
  unfold roundHalfEven
  dsimp only
  split_ifs <;> omega

theorem roundHalfEven_mono {m₁ m₂ : ℚ} (h : m₁ ≤ m₂) : roundHalfEven m₁ ≤ roundHalfEven m₂ := by
  have hfl : ⌊m₁⌋ ≤ ⌊m₂⌋ := Int.floor_mono h
  rcases lt_or_eq_of_le hfl with hlt | heq
  · have := (roundHalfEven_bounds m₁).2
    have := (roundHalfEven_bounds m₂).1
    omega
  · unfold roundHalfEven
    dsimp only
    rw [heq]
    have hr : m₁ - (⌊m₂⌋ : ℚ) ≤ m₂ - (⌊m₂⌋ : ℚ) := by linarith
    split_ifs <;> first | omega | (exfalso; linarith)

theorem roundBinary_nonneg (p : Nat) (emin : Int) (q : ℚ) (hq : 0 ≤ q) :
    0 ≤ roundBinary p emin q := by
  unfold roundBinary
  split_ifs with h0 hneg
  · exact le_rfl
  · exact absurd hneg (not_lt.mpr hq)
  · have hfl : (0 : Int) ≤ roundHalfEven (|q| / (2 : ℚ) ^ (max (Int.log 2 |q|) emin - ((p : Int) - 1))) := by
      have h1 := (roundHalfEven_bounds (|q| / (2 : ℚ) ^ (max (Int.log 2 |q|) emin - ((p : Int) - 1)))).1
      have h2 : (0 : Int) ≤ ⌊|q| / (2 : ℚ) ^ (max (Int.log 2 |q|) emin - ((p : Int) - 1))⌋ :=
        Int.floor_nonneg.mpr (by positivity)
      omega
    have : (0 : ℚ) ≤ (roundHalfEven (|q| / (2 : ℚ) ^ (max (Int.log 2 |q|) emin - ((p : Int) - 1))) : ℚ) := by
      exact_mod_cast hfl
    positivity

/-- The value of a rounding of a positive number, with the exponent made explicit. -/
theorem roundBinary_of_pos (p : Nat) (emin : Int) (q : ℚ) (hq : 0 < q) :
    roundBinary p emin q
      = (roundHalfEven (q / (2 : ℚ) ^ (max (Int.log 2 q) emin - ((p : Int) - 1))) : ℚ)
          * (2 : ℚ) ^ (max (Int.log 2 q) emin - ((p : Int) - 1)) := by
  unfold roundBinary
  rw [if_neg (ne_of_gt hq)]
  simp only [abs_of_pos hq]
  rw [if_neg (not_lt.mpr (le_of_lt hq))]
  ring

theorem two_zpow_log_le (q : ℚ) (hq : 0 < q) : (2 : ℚ) ^ Int.log 2 q ≤ q := by
  simpa using Int.zpow_log_le_self (b := 2) (by norm_num) hq

theorem lt_two_zpow_log_succ (q : ℚ) : q < (2 : ℚ) ^ (Int.log 2 q + 1) := by
  simpa using Int.lt_zpow_succ_log_self (b := 2) (by norm_num) q

/-- Rounding is monotone on the non-negative rationals. -/
theorem roundBinary_mono (p : Nat) (emin : Int) (hp : 1 ≤ p) {q₁ q₂ : ℚ} (h0 : 0 ≤ q₁)
    (h : q₁ ≤ q₂) : roundBinary p emin q₁ ≤ roundBinary p emin q₂ := by
  rcases eq_or_lt_of_le h0 with hz | hpos
  · rw [← hz]
    simpa [roundBinary] using roundBinary_nonneg p emin q₂ (le_trans h0 h)
  · have hpos2 : 0 < q₂ := lt_of_lt_of_le hpos h
    rw [roundBinary_of_pos p emin q₁ hpos, roundBinary_of_pos p emin q₂ hpos2]
    have hlog : Int.log 2 q₁ ≤ Int.log 2 q₂ := Int.log_mono_right hpos h
    set e₁ := max (Int.log 2 q₁) emin with he₁
    set e₂ := max (Int.log 2 q₂) emin with he₂
    have he : e₁ ≤ e₂ := max_le_max hlog le_rfl
    rcases eq_or_lt_of_le he with heq | hlt
    · rw [heq]
      have hu : (0 : ℚ) < (2 : ℚ) ^ (e₂ - ((p : Int) - 1)) := by positivity
      have hm : q₁ / (2 : ℚ) ^ (e₂ - ((p : Int) - 1)) ≤ q₂ / (2 : ℚ) ^ (e₂ - ((p : Int) - 1)) :=
        div_le_div_of_nonneg_right h (le_of_lt hu)
      have := roundHalfEven_mono hm
      have hc : (roundHalfEven (q₁ / (2 : ℚ) ^ (e₂ - ((p : Int) - 1))) : ℚ)
          ≤ (roundHalfEven (q₂ / (2 : ℚ) ^ (e₂ - ((p : Int) - 1))) : ℚ) := by exact_mod_cast this
      exact mul_le_mul_of_nonneg_right hc (le_of_lt hu)
    · -- different binades: `2 ^ (e₁ + 1)` separates the two roundings
      have hlog2 : e₂ = Int.log 2 q₂ := by
        rw [he₂]
        apply max_eq_left
        have : emin ≤ e₁ := le_max_right _ _
        by_contra hcon
        push_neg at hcon
        have : e₂ = emin := max_eq_right (le_of_lt hcon)
        omega
      have hu₁ : (0 : ℚ) < (2 : ℚ) ^ (e₁ - ((p : Int) - 1)) := by positivity
      have hu₂ : (0 : ℚ) < (2 : ℚ) ^ (e₂ - ((p : Int) - 1)) := by positivity
      -- upper bound for the first
      have hq₁ : q₁ < (2 : ℚ) ^ (e₁ + 1) := by
        refine lt_of_lt_of_le (lt_two_zpow_log_succ q₁) ?_
        apply zpow_le_zpow_right₀ (by norm_num)
        have : Int.log 2 q₁ ≤ e₁ := le_max_left _ _
        omega
      have hm₁ : q₁ / (2 : ℚ) ^ (e₁ - ((p : Int) - 1)) ≤ (((2 : Int) ^ p : Int) : ℚ) := by
        rw [div_le_iff₀ hu₁]
        have : (((2 : Int) ^ p : Int) : ℚ) * (2 : ℚ) ^ (e₁ - ((p : Int) - 1)) = (2 : ℚ) ^ (e₁ + 1) := by
          push_cast
          rw [← zpow_natCast, ← zpow_add₀ (by norm_num)]
          congr 1
          omega
        rw [this]
        exact le_of_lt hq₁
      have hr₁ : roundHalfEven (q₁ / (2 : ℚ) ^ (e₁ - ((p : Int) - 1))) ≤ (2 : Int) ^ p := by
        have := roundHalfEven_mono hm₁
        rwa [roundHalfEven_intCast] at this
      have hb₁ : (roundHalfEven (q₁ / (2 : ℚ) ^ (e₁ - ((p : Int) - 1))) : ℚ)
          * (2 : ℚ) ^ (e₁ - ((p : Int) - 1)) ≤ (2 : ℚ) ^ (e₁ + 1) := by
        have hc : (roundHalfEven (q₁ / (2 : ℚ) ^ (e₁ - ((p : Int) - 1))) : ℚ)
            ≤ (((2 : Int) ^ p : Int) : ℚ) := by exact_mod_cast hr₁
        calc _ ≤ (((2 : Int) ^ p : Int) : ℚ) * (2 : ℚ) ^ (e₁ - ((p : Int) - 1)) :=
              mul_le_mul_of_nonneg_right hc (le_of_lt hu₁)
          _ = (2 : ℚ) ^ (e₁ + 1) := by
              push_cast
              rw [← zpow_natCast, ← zpow_add₀ (by norm_num)]
              congr 1
              omega
      -- lower bound for the second
      have hq₂ : (2 : ℚ) ^ e₂ ≤ q₂ := by
        rw [hlog2]
        exact two_zpow_log_le q₂ hpos2
      have hm₂ : (((2 : Int) ^ (p - 1) : Int) : ℚ) ≤ q₂ / (2 : ℚ) ^ (e₂ - ((p : Int) - 1)) := by
        rw [le_div_iff₀ hu₂]
        have : (((2 : Int) ^ (p - 1) : Int) : ℚ) * (2 : ℚ) ^ (e₂ - ((p : Int) - 1)) = (2 : ℚ) ^ e₂ := by
          push_cast
          rw [← zpow_natCast, ← zpow_add₀ (by norm_num)]
          congr 1
          have : ((p - 1 : Nat) : Int) = (p : Int) - 1 := by omega
          omega
        rw [this]
        exact hq₂
      have hr₂ : (2 : Int) ^ (p - 1) ≤ roundHalfEven (q₂ / (2 : ℚ) ^ (e₂ - ((p : Int) - 1))) := by
        have := roundHalfEven_mono hm₂
        rwa [roundHalfEven_intCast] at this
      have hb₂ : (2 : ℚ) ^ e₂ ≤ (roundHalfEven (q₂ / (2 : ℚ) ^ (e₂ - ((p : Int) - 1))) : ℚ)
          * (2 : ℚ) ^ (e₂ - ((p : Int) - 1)) := by
        have hc : (((2 : Int) ^ (p - 1) : Int) : ℚ)
            ≤ (roundHalfEven (q₂ / (2 : ℚ) ^ (e₂ - ((p : Int) - 1))) : ℚ) := by exact_mod_cast hr₂
        calc (2 : ℚ) ^ e₂ = (((2 : Int) ^ (p - 1) : Int) : ℚ) * (2 : ℚ) ^ (e₂ - ((p : Int) - 1)) := by
              push_cast
              rw [← zpow_natCast, ← zpow_add₀ (by norm_num)]
              congr 1
              have : ((p - 1 : Nat) : Int) = (p : Int) - 1 := by omega
              omega
          _ ≤ _ := mul_le_mul_of_nonneg_right hc (le_of_lt hu₂)
      have hsep : (2 : ℚ) ^ (e₁ + 1) ≤ (2 : ℚ) ^ e₂ :=
        zpow_le_zpow_right₀ (by norm_num) (by omega)
      exact le_trans hb₁ (le_trans hsep hb₂)

/-- A number with at most `p` significant bits and exponent in range rounds to itself. -/
theorem roundBinary_of_representable (p : Nat) (emin : Int) (k : Nat) (j : Int) (hk0 : 0 < k)
    (hk : k < 2 ^ p) (hj : emin ≤ j + ((p : Int) - 1)) :
    roundBinary p emin ((k : ℚ) * (2 : ℚ) ^ j) = (k : ℚ) * (2 : ℚ) ^ j := by
  have hkq : (0 : ℚ) < (k : ℚ) := by exact_mod_cast hk0
  have hq : (0 : ℚ) < (k : ℚ) * (2 : ℚ) ^ j := by positivity
  rw [roundBinary_of_pos p emin _ hq]
  set e := max (Int.log 2 ((k : ℚ) * (2 : ℚ) ^ j)) emin with he
  have hlt : (k : ℚ) * (2 : ℚ) ^ j < (2 : ℚ) ^ (j + (p : Int)) := by
    rw [zpow_add₀ (by norm_num), mul_comm]
    have : (k : ℚ) < (2 : ℚ) ^ (p : Int) := by
      rw [zpow_natCast]
      exact_mod_cast hk
    exact mul_lt_mul_of_pos_left this (by positivity)
  have hlog : Int.log 2 ((k : ℚ) * (2 : ℚ) ^ j) < j + (p : Int) := by
    rw [← Int.lt_zpow_iff_log_lt (by norm_num) hq]
    simpa using hlt
  have hle : e ≤ j + ((p : Int) - 1) := max_le (by omega) hj
  obtain ⟨d, hd⟩ : ∃ d : Nat, (d : Int) = j - (e - ((p : Int) - 1)) :=
    ⟨(j - (e - ((p : Int) - 1))).toNat, Int.toNat_of_nonneg (by omega)⟩
  have hdiv : (k : ℚ) * (2 : ℚ) ^ j / (2 : ℚ) ^ (e - ((p : Int) - 1))
      = (((k * 2 ^ d : Nat) : Int) : ℚ) := by
    rw [mul_div_assoc, ← zpow_sub₀ (by norm_num), ← hd, zpow_natCast]
    push_cast
    ring
  rw [hdiv, roundHalfEven_intCast]
  push_cast
  rw [mul_assoc, ← zpow_natCast, hd, ← zpow_add₀ (by norm_num)]
  congr 2
  omega

/-- A natural number below `2 ^ 24` is a `float`. -/
theorem f32_natCast (n : Nat) (hn : n < 2 ^ 24) : f32 (n : ℚ) = n := by
  rcases Nat.eq_zero_or_pos n with h0 | hpos
  · subst h0
    simpa using f32_zero
  · have := roundBinary_of_representable 24 (-126) n 0 hpos hn (by norm_num)
    simpa [f32] using this

theorem f32_mono {q₁ q₂ : ℚ} (h0 : 0 ≤ q₁) (h : q₁ ≤ q₂) : f32 q₁ ≤ f32 q₂ :=
  roundBinary_mono 24 (-126) (by norm_num) h0 h

theorem f32_nonneg {q : ℚ} (h0 : 0 ≤ q) : 0 ≤ f32 q := roundBinary_nonneg 24 (-126) q h0

theorem f32_twentieth : f32 (50 / 1000) = 13421773 / 268435456 := by
  have := roundBinary_eq 24 (-126) (50 / 1000) (-5) 13421773 (by norm_num) (by norm_num)
    (by norm_num) (roundHalfEven_of_gt_half _ 13421772 (by norm_num) (by norm_num))
  rw [f32, this]
  norm_num

theorem f32_49_thousandths : f32 (49 / 1000) = 13153337 / 268435456 := by
  have := roundBinary_eq 24 (-126) (49 / 1000) (-5) 13153337 (by norm_num) (by norm_num)
    (by norm_num) (roundHalfEven_of_lt_half _ 13153337 (by norm_num) (by norm_num))
  rw [f32, this]
  norm_num

/-- The test `TimeElapsedTotal() < 0.05` of the resolver holds exactly when fewer than
50 ms have elapsed since `_eventStart`. -/
theorem TimeElapsedTotal_lt_twentieth_iff (e : LightingEvent) (now : Nat) :
    e.TimeElapsedTotal now < f64 (5 / 100) ↔ subU32 now e._eventStart < 50 := by
  unfold LightingEvent.TimeElapsedTotal
  rw [f32_1000, f64_twentieth]
  constructor
  · intro h
    by_contra hge
    have hge' : (50 : ℚ) ≤ ((subU32 now e._eventStart : Nat) : ℚ) := by
      exact_mod_cast not_lt.mp hge
    have h1 : (50 : ℚ) ≤ f32 ((subU32 now e._eventStart : Nat) : ℚ) := by
      have := f32_mono (by norm_num) hge'
      rwa [show f32 (50 : ℚ) = 50 by exact_mod_cast f32_natCast 50 (by norm_num)] at this
    have h2 : (50 : ℚ) / 1000 ≤ f32 ((subU32 now e._eventStart : Nat) : ℚ) / 1000 :=
      div_le_div_of_nonneg_right h1 (by norm_num)
    have h3 := f32_mono (by norm_num) h2
    rw [f32_twentieth] at h3
    have : (3602879701896397 : ℚ) / 72057594037927936 < 13421773 / 268435456 := by norm_num
    linarith
  · intro h
    have hle : ((subU32 now e._eventStart : Nat) : ℚ) ≤ 49 := by
      exact_mod_cast Nat.lt_succ_iff.mp h
    have h1 : f32 ((subU32 now e._eventStart : Nat) : ℚ) ≤ 49 := by
      rw [f32_natCast _ (by omega)]
      exact hle
    have h2 : f32 ((subU32 now e._eventStart : Nat) : ℚ) / 1000 ≤ 49 / 1000 :=
      div_le_div_of_nonneg_right h1 (by norm_num)
    have h3 := f32_mono (div_nonneg (f32_nonneg (Nat.cast_nonneg _)) (by norm_num)) h2
    rw [f32_49_thousandths] at h3
    have : (13153337 : ℚ) / 268435456 < 3602879701896397 / 72057594037927936 := by norm_num
    linarith

/-! ## Facts about the machine arithmetic -/

theorem toUnsigned_DEBOUNCETIME : toUnsigned DEBOUNCETIME = 30 := by
  decide

theorem toUnsigned_toInt (n : Nat) : toUnsigned (toInt n) = n % WORD := by
  have hW : WORD = 4294967296 := by norm_num [WORD]
  have hlt : n % WORD < 4294967296 := by
    have := Nat.mod_lt n (show 0 < WORD by norm_num [WORD])
    omega
  unfold toUnsigned toInt
  split
  · omega
  · omega

theorem subU32_of_le (a b : Nat) (hab : b ≤ a) (ha : a < WORD) : subU32 a b = a - b := by
  have hW : WORD = 4294967296 := by norm_num [WORD]
  unfold subU32
  rw [Nat.mod_eq_of_lt ha, Nat.mod_eq_of_lt (lt_of_le_of_lt hab ha)]
  rw [hW] at ha ⊢
  omega

theorem subU32_add_left (t d : Nat) : subU32 (t + d) (t % WORD) = d % WORD := by
  have hW : WORD = 4294967296 := by norm_num [WORD]
  unfold subU32
  rw [Nat.mod_mod, hW]
  omega

/-! ## The debounced poll -/

/-- A poll that does not confirm returns the object unchanged and makes no call. -/
theorem CheckForButtonPress_of_not_confirms (e : LightingEvent) (digitalRead : Nat → Bool)
    (now nowAct : Nat) (h : ¬ confirms e digitalRead now) :
    e.CheckForButtonPress digitalRead now nowAct = (e, []) := by
  unfold LightingEvent.CheckForButtonPress
  by_cases hp : e._buttonPin1 = 0
  · simp [hp]
  · simp only [hp, if_false]
    rw [if_neg]
    intro hc
    apply h
    refine ⟨hp, hc.1, hc.2.1, ?_⟩
    have := hc.2.2
    rwa [toUnsigned_DEBOUNCETIME] at this

/-- C1. Unless the primary pin is configured, the interrupt flag is set, the level read by
the poll equals the level captured by the last interrupt and the 32-bit difference
`now - captured_at` is strictly above 30 ms, `CheckForButtonPress` calls neither `Begin()`
nor `End()` and returns the object, with `_active`, `_eventStart` and the debounce sample,
unchanged.  A poll exactly 30 ms after an interrupt (`now = tick + 30`) is such a poll. -/
theorem CheckForButtonPress_unconfirmed (e : LightingEvent) (digitalRead : Nat → Bool)
    (now nowAct : Nat) :
    (¬ (e._buttonPin1 ≠ 0 ∧ e._hasIRQHandlerFiredYet = true
          ∧ digitalRead e._buttonPin1 = decide (e._lastIRQButtonState ≠ 0)
          ∧ 30 < subU32 now (toUnsigned e._debounceTimeout)) →
        e.CheckForButtonPress digitalRead now nowAct = (e, []))
    ∧ ∀ (level : Bool) (tick : Nat),
        (e.IRQ level tick).CheckForButtonPress digitalRead (tick + 30) nowAct
          = (e.IRQ level tick, []) := by
  refine ⟨CheckForButtonPress_of_not_confirms e digitalRead now nowAct, ?_⟩
  intro level tick
  apply CheckForButtonPress_of_not_confirms
  intro hc
  have h30 := hc.2.2.2
  have : (e.IRQ level tick)._debounceTimeout = toInt tick := rfl
  rw [this, toUnsigned_toInt, subU32_add_left] at h30
  norm_num [WORD] at h30

theorem CheckForButtonPress_unconfirmed_witness :
    ((LightingEvent.new Kind.Backup BACKUP_PIN 0).IRQ true 100).CheckForButtonPress
        (fun _ => true) 130 130
      = ((LightingEvent.new Kind.Backup BACKUP_PIN 0).IRQ true 100, [])
    ∧ ((LightingEvent.new Kind.Backup BACKUP_PIN 0).IRQ true 100).CheckForButtonPress
        (fun _ => false) 500 500
      = ((LightingEvent.new Kind.Backup BACKUP_PIN 0).IRQ true 100, [])
    ∧ (LightingEvent.new Kind.Backup BACKUP_PIN 0).CheckForButtonPress (fun _ => true) 500 500
      = (LightingEvent.new Kind.Backup BACKUP_PIN 0, []) :=
  ⟨(CheckForButtonPress_unconfirmed ((LightingEvent.new Kind.Backup BACKUP_PIN 0).IRQ true 100)
      (fun _ => true) 130 130).1 (by decide),
    (CheckForButtonPress_unconfirmed ((LightingEvent.new Kind.Backup BACKUP_PIN 0).IRQ true 100)
      (fun _ => false) 500 500).1 (by decide),
    (CheckForButtonPress_unconfirmed (LightingEvent.new Kind.Backup BACKUP_PIN 0)
      (fun _ => true) 500 500).1 (by decide)⟩

theorem Begin_sameSample (e : LightingEvent) (now : Nat) : sameSample (e.Begin now) e := by
  unfold LightingEvent.Begin
  split <;>
    simp [sameSample, SignalEvent.Begin, PoliceLightBar.Begin, LightingEvent.baseBegin,
      LightingEvent.baseEnd]
  split <;> simp

theorem End_sameSample (e : LightingEvent) (now : Nat) : sameSample (e.End now) e := by
  unfold LightingEvent.End
  split <;>
    simp [sameSample, SignalEvent.End, PoliceLightBar.End, LightingEvent.baseEnd]

/-- A confirming poll acknowledges the interrupt and keeps the captured sample. -/
theorem CheckForButtonPress_confirmed (e : LightingEvent) (digitalRead : Nat → Bool)
    (now nowAct : Nat) (h : confirms e digitalRead now) :
    (e.CheckForButtonPress digitalRead now nowAct).1._hasIRQHandlerFiredYet = false
    ∧ sameSample (e.CheckForButtonPress digitalRead now nowAct).1 e
    ∧ (Call.Begin ∈ (e.CheckForButtonPress digitalRead now nowAct).2 ↔
        (digitalRead e._buttonPin1 = true
          ∧ (e._buttonPin2 = 0 ∨ digitalRead e._buttonPin2 = true))) := by
  obtain ⟨hp, hf, hl, ht⟩ := h
  have hcond : e._hasIRQHandlerFiredYet = true
      ∧ digitalRead e._buttonPin1 = decide (e._lastIRQButtonState ≠ 0)
      ∧ toUnsigned DEBOUNCETIME < subU32 now (toUnsigned e._debounceTimeout) := by
    rw [toUnsigned_DEBOUNCETIME]
    exact ⟨hf, hl, ht⟩
  unfold LightingEvent.CheckForButtonPress
  simp only [hp, if_false]
  rw [if_pos hcond]
  have hB := Begin_sameSample e nowAct
  have hE := End_sameSample e nowAct
  by_cases hc : digitalRead e._buttonPin1 = true
  · by_cases h2 : e._buttonPin2 = 0 ∨ digitalRead e._buttonPin2 = true
    · rw [if_pos hc, if_pos h2]
      exact ⟨rfl, hB, by simp [hc, h2]⟩
    · by_cases ha : e.GetActive = true
      · rw [if_pos hc, if_neg h2, if_pos ha]
        exact ⟨rfl, hE, by simp [hc, h2]⟩
      · rw [if_pos hc, if_neg h2, if_neg ha]
        exact ⟨rfl, ⟨rfl, rfl, rfl, rfl, rfl⟩, by simp [hc, h2]⟩
  · by_cases ha : e.GetActive = true
    · rw [if_neg hc, if_pos ha]
      exact ⟨rfl, hE, by simp [hc]⟩
    · rw [if_neg hc, if_neg ha]
      exact ⟨rfl, ⟨rfl, rfl, rfl, rfl, rfl⟩, by simp [hc]⟩

/-! ## Life cycle of a signal effect -/

/-- C9. After `SignalEvent::Begin` the effect is active and the deferred-end flag is clear;
`_eventStart` is `now` when the effect was inactive or a deferred end was pending and is
unchanged otherwise; no other field changes, and the virtual `Begin()` of a signal object
is this method. -/
theorem SignalEvent_Begin_post (e : LightingEvent) (now : Nat) :
    (SignalEvent.Begin e now)._active = true
    ∧ (SignalEvent.Begin e now)._bExitatEnd = false
    ∧ ((e._active = false ∨ e._bExitatEnd = true) →
        (SignalEvent.Begin e now)._eventStart = now)
    ∧ ((e._active = true ∧ e._bExitatEnd = false) →
        (SignalEvent.Begin e now)._eventStart = e._eventStart)
    ∧ (∀ st, e.kind = Kind.Signal st → e.Begin now = SignalEvent.Begin e now) := by
  refine ⟨rfl, rfl, ?_, ?_, ?_⟩
  · intro h
    rcases h with h | h <;> simp [SignalEvent.Begin, h]
  · intro h
    simp [SignalEvent.Begin, h.1, h.2]
  · intro st hk
    simp [LightingEvent.Begin, hk]

/-- C10. `SignalEvent::End` only sets the deferred-end flag: `_active`, `_eventStart` and
every other field keep their values, so `GetActive()` returns the same value right after
the call as before it; the virtual `End()` of a signal object is this method. -/
theorem SignalEvent_End_defers (e : LightingEvent) (now : Nat) :
    SignalEvent.End e = { e with _bExitatEnd := true }
    ∧ (SignalEvent.End e)._active = e._active
    ∧ (SignalEvent.End e)._eventStart = e._eventStart
    ∧ (SignalEvent.End e)._bExitatEnd = true
    ∧ (SignalEvent.End e).GetActive = e.GetActive
    ∧ (∀ st, e.kind = Kind.Signal st → e.End now = SignalEvent.End e) := by
  refine ⟨rfl, rfl, rfl, rfl, rfl, ?_⟩
  intro st hk
  simp [LightingEvent.End, hk]

/-! ## Evaluations of `float` expressions -/

theorem f32_five_halves : f32 (5 / 2) = 5 / 2 := by
  have := roundBinary_eq 24 (-126) (5 / 2) 1 10485760 (by norm_num) (by norm_num) (by norm_num)
    (roundHalfEven_of_lt_half _ _ (by norm_num) (by norm_num))
  rw [f32, this]
  norm_num

theorem f32_three_halves : f32 (3 / 2) = 3 / 2 := by
  have := roundBinary_eq 24 (-126) (3 / 2) 0 12582912 (by norm_num) (by norm_num) (by norm_num)
    (roundHalfEven_of_lt_half _ _ (by norm_num) (by norm_num))
  rw [f32, this]
  norm_num

theorem f32_half : f32 (1 / 2) = 1 / 2 := by
  have := roundBinary_eq 24 (-126) (1 / 2) (-1) 8388608 (by norm_num) (by norm_num)
    (by norm_num) (roundHalfEven_of_lt_half _ _ (by norm_num) (by norm_num))
  rw [f32, this]
  norm_num

theorem subU32_zero_right (n : Nat) (h : n < WORD) : subU32 n 0 = n := by
  simpa using subU32_of_le n 0 (Nat.zero_le n) h

theorem f32_1001_thousandths : f32 (1001 / 1000) = 8396997 / 8388608 := by
  have := roundBinary_eq 24 (-126) (1001 / 1000) 0 8396997 (by norm_num) (by norm_num)
    (by norm_num) (roundHalfEven_of_gt_half _ 8396996 (by norm_num) (by norm_num))
  rw [f32, this]
  norm_num

theorem f32_1001_thousandths_rounded : f32 (8396997 / 8388608) = 8396997 / 8388608 := by
  have := roundBinary_of_representable 24 (-126) 8396997 (-23) (by norm_num) (by norm_num)
    (by norm_num)
  have h : ((8396997 : Nat) : ℚ) * (2 : ℚ) ^ (-23 : Int) = 8396997 / 8388608 := by norm_num
  rw [h] at this
  exact this

/-- The test `fCyclePosition > 1.0f` of `SignalEvent::Draw` holds exactly when more than
1000 ms have elapsed since `_eventStart`. -/
theorem one_lt_elapsedCycles_iff (e : LightingEvent) (now : Nat) :
    f32 1 < SignalEvent.elapsedCycles e now ↔ 1000 < subU32 now e._eventStart := by
  unfold SignalEvent.elapsedCycles LightingEvent.TimeElapsedTotal
    SignalEvent.FlashDurationSeconds
  rw [f32_1000, f32_one, div_one]
  constructor
  · intro h
    by_contra hle
    have hle' : ((subU32 now e._eventStart : Nat) : ℚ) ≤ 1000 := by
      exact_mod_cast not_lt.mp hle
    have h1 : f32 ((subU32 now e._eventStart : Nat) : ℚ) ≤ 1000 := by
      rw [f32_natCast _ (by omega)]
      exact hle'
    have h2 : f32 ((subU32 now e._eventStart : Nat) : ℚ) / 1000 ≤ 1 := by
      rw [div_le_one (by norm_num)]
      exact h1
    have h3 := f32_mono (div_nonneg (f32_nonneg (Nat.cast_nonneg _)) (by norm_num)) h2
    rw [f32_one] at h3
    have h4 := f32_mono (f32_nonneg (div_nonneg (f32_nonneg (Nat.cast_nonneg _))
      (by norm_num))) h3
    rw [f32_one] at h4
    linarith
  · intro h
    have hge : (1001 : ℚ) ≤ ((subU32 now e._eventStart : Nat) : ℚ) := by
      exact_mod_cast h
    have h1 : (1001 : ℚ) ≤ f32 ((subU32 now e._eventStart : Nat) : ℚ) := by
      have := f32_mono (by norm_num) hge
      rwa [show f32 (1001 : ℚ) = 1001 by exact_mod_cast f32_natCast 1001 (by norm_num)] at this
    have h2 : (1001 : ℚ) / 1000 ≤ f32 ((subU32 now e._eventStart : Nat) : ℚ) / 1000 :=
      div_le_div_of_nonneg_right h1 (by norm_num)
    have h3 := f32_mono (by norm_num) h2
    rw [f32_1001_thousandths] at h3
    have h4 := f32_mono (by norm_num) h3
    rw [f32_1001_thousandths_rounded] at h4
    have : (1 : ℚ) < 8396997 / 8388608 := by norm_num
    linarith

/-- `SignalEvent::Draw` deactivates an active signal exactly when a deferred end is
pending and more than 1000 ms have elapsed since `_eventStart`; it changes no other
field. -/
theorem SignalEvent_Draw_state (x : External) (st : SIGNAL_STYLE) (e : LightingEvent)
    (now : Nat) (s : Strip) (ha : e._active = true) :
    (SignalEvent.Draw x st e now s).1
      = if e._bExitatEnd = true ∧ 1000 < subU32 now e._eventStart then
          { e with _active := false }
        else e := by
  unfold SignalEvent.Draw
  rw [if_neg (by simp [LightingEvent.GetActive, ha])]
  have hiff := one_lt_elapsedCycles_iff e now
  by_cases hc : 1000 < subU32 now e._eventStart ∧ e._bExitatEnd = true
  · rw [if_pos ⟨hiff.mpr hc.1, hc.2⟩, if_pos ⟨hc.2, hc.1⟩]
  · rw [if_neg (fun h => hc ⟨hiff.mp h.1, h.2⟩), if_neg (fun h => hc ⟨h.2, h.1⟩)]

/-! ## The signal effect over time -/

theorem Begin_of_signal (e : LightingEvent) (now : Nat) (st : SIGNAL_STYLE)
    (hk : e.kind = Kind.Signal st) :
    (e.Begin now).kind = Kind.Signal st ∧ (e.Begin now)._active = true
      ∧ (e.Begin now)._bExitatEnd = false := by
  simp [LightingEvent.Begin, hk, SignalEvent.Begin]

theorem Draw_of_running_signal (x : External) (e : LightingEvent) (now : Nat) (s : Strip)
    (st : SIGNAL_STYLE) (hk : e.kind = Kind.Signal st) (ha : e._active = true)
    (hx : e._bExitatEnd = false) : (e.Draw x now s).1 = e := by
  simp [LightingEvent.Draw, hk, SignalEvent.Draw, LightingEvent.GetActive, ha, hx]

/-- C7. A signal effect that is active with no deferred end pending is still active after
any finite sequence of `Begin()` and `Draw()` calls, whatever the clock values of the calls
(in particular for non-decreasing ones, across any number of cycle wraps). -/
theorem signal_stays_active (x : External) (st : SIGNAL_STYLE) (ops : List BeginOrDraw)
    (e : LightingEvent) (s : Strip) (hk : e.kind = Kind.Signal st) (ha : e._active = true)
    (hx : e._bExitatEnd = false) :
    (ops.foldl (BeginOrDraw.apply x) (e, s)).1._active = true
    ∧ (ops.foldl (BeginOrDraw.apply x) (e, s)).1._bExitatEnd = false := by
  induction ops generalizing e s with
  | nil => exact ⟨ha, hx⟩
  | cons op rest ih =>
    rw [List.foldl_cons]
    cases op with
    | Begin now =>
      obtain ⟨h1, h2, h3⟩ := Begin_of_signal e now st hk
      exact ih (e.Begin now) s h1 h2 h3
    | Draw now =>
      have hd := Draw_of_running_signal x e now s st hk ha hx
      have : BeginOrDraw.apply x (e, s) (BeginOrDraw.Draw now)
          = ((e.Draw x now s).1, (e.Draw x now s).2) := rfl
      rw [this, hd]
      exact ih e _ hk ha hx

theorem signal_stays_active_witness :
    (([BeginOrDraw.Draw 500, BeginOrDraw.Draw 1500, BeginOrDraw.Begin 1600,
        BeginOrDraw.Draw 2500, BeginOrDraw.Draw 3500]).foldl (BeginOrDraw.apply External.zero)
      ((LightingEvent.new (Kind.Signal SIGNAL_STYLE.LEFT_TURN) LEFT_TURN_PIN 0).Begin 0,
        blackStrip)).1._active = true
    ∧ (([BeginOrDraw.Draw 500, BeginOrDraw.Draw 1500, BeginOrDraw.Begin 1600,
        BeginOrDraw.Draw 2500, BeginOrDraw.Draw 3500]).foldl (BeginOrDraw.apply External.zero)
      ((LightingEvent.new (Kind.Signal SIGNAL_STYLE.LEFT_TURN) LEFT_TURN_PIN 0).Begin 0,
        blackStrip)).1._bExitatEnd = false :=
  signal_stays_active External.zero SIGNAL_STYLE.LEFT_TURN _ _ blackStrip rfl rfl rfl

/-- C6, the code at a failing input.  The left-turn input is held HIGH from tick 1000 to
tick 2500: `Begin()` is called at clock 1031 and `End()` at clock 2531, 1.5 s into the
animation and so inside its second cycle.  The signal is still active after `End()`, but
the `Draw()` at clock 2600, 1569 ms after `_eventStart` and 431 ms before the next cycle
boundary, deactivates it. -/
theorem signal_deactivates_mid_cycle (x : External) (s : Strip) :
    leftTurnReleased._active = true
    ∧ leftTurnReleased._bExitatEnd = true
    ∧ subU32 2531 leftTurnReleased._eventStart = 1500
    ∧ subU32 2600 leftTurnReleased._eventStart = 1569
    ∧ (leftTurnReleased.Draw x 2600 s).1._active = false := by
  refine ⟨by decide, by decide, by decide, by decide, ?_⟩
  have hk : leftTurnReleased.kind = Kind.Signal SIGNAL_STYLE.LEFT_TURN := by decide
  unfold LightingEvent.Draw
  rw [hk]
  show (SignalEvent.Draw x SIGNAL_STYLE.LEFT_TURN leftTurnReleased 2600 s).1._active = false
  rw [SignalEvent_Draw_state x _ _ _ _ (by decide), if_pos (by decide)]

/-- C8, the code at a failing input.  The left-turn input is held HIGH from tick 1000 and
`Begin()` is called at clock 1031; no `End()` follows.  The `Draw()` at clock 3531,
2500 ms after `_eventStart`, samples the palette at cycle position 3/2, which lies outside
`[0, 1]` and differs from the position 1/2 used one second earlier, at clock 2531.
`Draw()` leaves the object, `_eventStart` included, unchanged. -/
theorem signal_cycle_position_exceeds_one (x : External) (s : Strip) :
    subU32 3531 leftTurnHeld._eventStart = 2500
    ∧ SignalEvent.fCyclePosition leftTurnHeld 3531 = 3 / 2
    ∧ SignalEvent.fCyclePosition leftTurnHeld 2531 = 1 / 2
    ∧ leftTurnHeld.Draw x 3531 s
        = (leftTurnHeld, SignalEvent.paint x SIGNAL_STYLE.LEFT_TURN (3 / 2) s) := by
  have hn : subU32 3531 leftTurnHeld._eventStart = 2500 := by decide
  have hn' : subU32 2531 leftTurnHeld._eventStart = 1500 := by decide
  have hE : SignalEvent.elapsedCycles leftTurnHeld 3531 = 5 / 2 := by
    unfold SignalEvent.elapsedCycles LightingEvent.TimeElapsedTotal
      SignalEvent.FlashDurationSeconds
    rw [hn, f32_natCast 2500 (by norm_num), f32_1000, f32_one]
    have h2 : ((2500 : Nat) : ℚ) / 1000 = 5 / 2 := by norm_num
    rw [h2, f32_five_halves, div_one, f32_five_halves]
  have hE' : SignalEvent.elapsedCycles leftTurnHeld 2531 = 3 / 2 := by
    unfold SignalEvent.elapsedCycles LightingEvent.TimeElapsedTotal
      SignalEvent.FlashDurationSeconds
    rw [hn', f32_natCast 1500 (by norm_num), f32_1000, f32_one]
    have h2 : ((1500 : Nat) : ℚ) / 1000 = 3 / 2 := by norm_num
    rw [h2, f32_three_halves, div_one, f32_three_halves]
  have hP : SignalEvent.fCyclePosition leftTurnHeld 3531 = 3 / 2 := by
    unfold SignalEvent.fCyclePosition
    rw [hE, f32_one, if_pos (by norm_num)]
    have h2 : (5 : ℚ) / 2 - 1 = 3 / 2 := by norm_num
    rw [h2, f32_three_halves]
  refine ⟨hn, hP, ?_, ?_⟩
  · unfold SignalEvent.fCyclePosition
    rw [hE', f32_one, if_pos (by norm_num)]
    have h2 : (3 : ℚ) / 2 - 1 = 1 / 2 := by norm_num
    rw [h2, f32_half]
  · have hk : leftTurnHeld.kind = Kind.Signal SIGNAL_STYLE.LEFT_TURN := by decide
    have ha : leftTurnHeld.GetActive = true := by decide
    have hx : leftTurnHeld._bExitatEnd = false := by decide
    unfold LightingEvent.Draw
    rw [hk]
    simp only [SignalEvent.Draw, ha, hx, hP]
    simp

/-! ## The resolver -/

theorem CheckForButtonPress_kind (e : LightingEvent) (digitalRead : Nat → Bool)
    (now nowAct : Nat) : (e.CheckForButtonPress digitalRead now nowAct).1.kind = e.kind := by
  by_cases hc : confirms e digitalRead now
  · exact (CheckForButtonPress_confirmed e digitalRead now nowAct hc).2.1.2.2.2.2
  · rw [CheckForButtonPress_of_not_confirms e digitalRead now nowAct hc]

theorem pollAll_typed (g : Globals) (digitalRead : Nat → Bool) (now : Nat) (h : g.typed) :
    (pollAll g digitalRead now).typed := by
  obtain ⟨h1, h2, h3, h4, h5⟩ := h
  refine ⟨?_, ?_, ?_, ?_, ?_⟩
  · exact (CheckForButtonPress_kind _ _ _ _).trans h1
  · exact (CheckForButtonPress_kind _ _ _ _).trans h2
  · exact (CheckForButtonPress_kind _ _ _ _).trans h3
  · exact (CheckForButtonPress_kind _ _ _ _).trans h4
  · exact (CheckForButtonPress_kind _ _ _ _).trans h5

theorem Draw_of_inactive (x : External) (e : LightingEvent) (now : Nat) (s : Strip)
    (h : e._active = false) : e.Draw x now s = (e, s) := by
  unfold LightingEvent.Draw
  split <;>
    simp [SignalEvent.Draw, PoliceLightBar.Draw, BackupEvent.Draw, BrakingEvent.Draw,
      LightingEvent.GetActive, h]

theorem Draw_of_not_signal (x : External) (e : LightingEvent) (now : Nat) (s : Strip)
    (h : ∀ st, e.kind ≠ Kind.Signal st) : (e.Draw x now s).1 = e := by
  unfold LightingEvent.Draw
  split
  · next st hk => exact absurd hk (h st)
  · rfl
  · rfl
  · rfl

/-- Drawing leaves an effect object of class `BrakingEvent` as it is. -/
theorem drawAll_braking (x : External) (r : Globals) (now : Nat)
    (hk : r.g_Braking.kind = Kind.Braking) : (drawAll x r now).g_Braking = r.g_Braking := by
  show (r.g_Braking.Draw x now _).1 = r.g_Braking
  exact Draw_of_not_signal _ _ _ _ (by intro st; rw [hk]; simp)

/-- Drawing leaves an inactive left-turn signal as it is. -/
theorem drawAll_left_inactive (x : External) (r : Globals) (now : Nat)
    (h : r.g_LeftTurn._active = false) : (drawAll x r now).g_LeftTurn = r.g_LeftTurn := by
  show (r.g_LeftTurn.Draw x now _).1 = r.g_LeftTurn
  rw [Draw_of_inactive _ _ _ _ h]

/-- Drawing leaves an inactive right-turn signal as it is. -/
theorem drawAll_right_inactive (x : External) (r : Globals) (now : Nat)
    (h : r.g_RightTurn._active = false) : (drawAll x r now).g_RightTurn = r.g_RightTurn := by
  show (r.g_RightTurn.Draw x now _).1 = r.g_RightTurn
  rw [Draw_of_inactive _ _ _ _ h]

/-- The override step when both signals are active and both are younger than 50 ms. -/
theorem overrideStep_of_hazard (p : Globals) (digitalRead : Nat → Bool) (tL tR tB : Nat)
    (hL : p.g_LeftTurn.GetActive = true) (hR : p.g_RightTurn.GetActive = true)
    (hLt : p.g_LeftTurn.TimeElapsedTotal tL < f64 (5 / 100))
    (hRt : p.g_RightTurn.TimeElapsedTotal tR < f64 (5 / 100)) :
    overrideStep p digitalRead tL tR tB
      = { p with
          g_LeftTurn := p.g_LeftTurn.SetActive false
          g_RightTurn := p.g_RightTurn.SetActive false
          g_Braking := p.g_Braking.Begin tB } := by
  unfold overrideStep
  rw [if_pos ⟨hL, hR⟩, if_pos ⟨hLt, hRt⟩]

theorem Begin_of_braking (e : LightingEvent) (now : Nat) (hk : e.kind = Kind.Braking) :
    (e.Begin now)._active = true ∧ (e.Begin now).kind = Kind.Braking
      ∧ (e._active = true → e.Begin now = e) := by
  refine ⟨?_, ?_, ?_⟩
  · simp [LightingEvent.Begin, hk, LightingEvent.baseBegin]
  · exact (Begin_sameSample _ _).2.2.2.2.trans hk
  · intro ha
    simp [LightingEvent.Begin, hk, LightingEvent.baseBegin, ha]
    cases e
    simp_all

/-- C3. In a frame in which, after the polls, both turn signals are active and both report
`TimeElapsedTotal() < 0.05`, the override step leaves the left and the right signal
inactive and Braking active, and so they are at the end of that frame. -/
theorem hazard_override_same_frame (x : External) (g : Globals) (digitalRead : Nat → Bool)
    (now : Nat) (hty : g.typed)
    (hL : (pollAll g digitalRead now).g_LeftTurn.GetActive = true)
    (hR : (pollAll g digitalRead now).g_RightTurn.GetActive = true)
    (hLt : (pollAll g digitalRead now).g_LeftTurn.TimeElapsedTotal now < f64 (5 / 100))
    (hRt : (pollAll g digitalRead now).g_RightTurn.TimeElapsedTotal now < f64 (5 / 100)) :
    ((overrideStep (pollAll g digitalRead now) digitalRead now now now).g_LeftTurn.GetActive
        = false
      ∧ (overrideStep (pollAll g digitalRead now) digitalRead now now now).g_RightTurn.GetActive
        = false
      ∧ (overrideStep (pollAll g digitalRead now) digitalRead now now now).g_Braking.GetActive
        = true)
    ∧ ((processAndDisplayInputs x g digitalRead now).g_LeftTurn.GetActive = false
      ∧ (processAndDisplayInputs x g digitalRead now).g_RightTurn.GetActive = false
      ∧ (processAndDisplayInputs x g digitalRead now).g_Braking.GetActive = true) := by
  obtain ⟨hkB, -, -, -, -⟩ := pollAll_typed g digitalRead now hty
  obtain ⟨hB, hBk, -⟩ := Begin_of_braking (pollAll g digitalRead now).g_Braking now hkB
  constructor
  · rw [overrideStep_of_hazard _ digitalRead now now now hL hR hLt hRt]
    exact ⟨rfl, rfl, hB⟩
  · have hframe : processAndDisplayInputs x g digitalRead now
        = drawAll x (overrideStep (pollAll (clearScreen x g) digitalRead now)
            digitalRead now now now) now := rfl
    have hr := overrideStep_of_hazard (pollAll (clearScreen x g) digitalRead now)
      digitalRead now now now hL hR hLt hRt
    have hrL : (overrideStep (pollAll (clearScreen x g) digitalRead now)
        digitalRead now now now).g_LeftTurn._active = false := by rw [hr]; rfl
    have hrR : (overrideStep (pollAll (clearScreen x g) digitalRead now)
        digitalRead now now now).g_RightTurn._active = false := by rw [hr]; rfl
    have hrB : (overrideStep (pollAll (clearScreen x g) digitalRead now)
        digitalRead now now now).g_Braking
          = (pollAll g digitalRead now).g_Braking.Begin now := by rw [hr]; rfl
    rw [hframe, drawAll_left_inactive _ _ _ hrL, drawAll_right_inactive _ _ _ hrR,
      drawAll_braking _ _ _ (by rw [hrB]; exact hBk), hrB]
    exact ⟨hrL, hrR, hB⟩

theorem hazard_override_same_frame_witness :
    ((overrideStep (pollAll Globals.bothTurnsPressed (fun _ => true) 131) (fun _ => true)
          131 131 131).g_LeftTurn.GetActive = false
      ∧ (overrideStep (pollAll Globals.bothTurnsPressed (fun _ => true) 131) (fun _ => true)
          131 131 131).g_RightTurn.GetActive = false
      ∧ (overrideStep (pollAll Globals.bothTurnsPressed (fun _ => true) 131) (fun _ => true)
          131 131 131).g_Braking.GetActive = true)
    ∧ ((processAndDisplayInputs External.zero Globals.bothTurnsPressed (fun _ => true)
          131).g_LeftTurn.GetActive = false
      ∧ (processAndDisplayInputs External.zero Globals.bothTurnsPressed (fun _ => true)
          131).g_RightTurn.GetActive = false
      ∧ (processAndDisplayInputs External.zero Globals.bothTurnsPressed (fun _ => true)
          131).g_Braking.GetActive = true) := by
  have hsL : (pollAll Globals.bothTurnsPressed (fun _ => true) 131).g_LeftTurn._eventStart
      = 131 := by decide
  have hsR : (pollAll Globals.bothTurnsPressed (fun _ => true) 131).g_RightTurn._eventStart
      = 131 := by decide
  have hz : subU32 131 131 = 0 := by decide
  have hpos : (0 : ℚ) < f64 (5 / 100) := by rw [f64_twentieth]; norm_num
  have hL : (pollAll Globals.bothTurnsPressed (fun _ => true) 131).g_LeftTurn.TimeElapsedTotal
      131 < f64 (5 / 100) := by
    unfold LightingEvent.TimeElapsedTotal
    rw [hsL, hz, Nat.cast_zero, f32_zero, zero_div, f32_zero]
    exact hpos
  have hR : (pollAll Globals.bothTurnsPressed (fun _ => true) 131).g_RightTurn.TimeElapsedTotal
      131 < f64 (5 / 100) := by
    unfold LightingEvent.TimeElapsedTotal
    rw [hsR, hz, Nat.cast_zero, f32_zero, zero_div, f32_zero]
    exact hpos
  exact hazard_override_same_frame External.zero Globals.bothTurnsPressed (fun _ => true) 131
    ⟨rfl, rfl, rfl, rfl, rfl⟩ (by decide) (by decide) hL hR

theorem End_of_braking (e : LightingEvent) (now : Nat) (hk : e.kind = Kind.Braking) :
    (e.End now)._active = false ∧ (e.End now).kind = Kind.Braking := by
  refine ⟨?_, (End_sameSample _ _).2.2.2.2.trans hk⟩
  simp [LightingEvent.End, hk, LightingEvent.baseEnd]

/-- With both turn signals active the override step leaves an active Braking as it is. -/
theorem overrideStep_braking_of_both_active (p : Globals) (digitalRead : Nat → Bool)
    (tL tR tB : Nat) (hk : p.g_Braking.kind = Kind.Braking) (hB : p.g_Braking._active = true)
    (hL : p.g_LeftTurn.GetActive = true) (hR : p.g_RightTurn.GetActive = true) :
    (overrideStep p digitalRead tL tR tB).g_Braking = p.g_Braking := by
  unfold overrideStep
  rw [if_pos ⟨hL, hR⟩]
  split
  · exact (Begin_of_braking _ tB hk).2.2 hB
  · rfl

/-- With a turn signal inactive, Braking active and both turn pins LOW the override step
ends Braking. -/
theorem overrideStep_braking_of_release (p : Globals) (digitalRead : Nat → Bool)
    (tL tR tB : Nat) (hB : p.g_Braking.GetActive = true)
    (hl : digitalRead LEFT_TURN_PIN = false) (hr : digitalRead RIGHT_TURN_PIN = false)
    (hnot : ¬ (p.g_LeftTurn.GetActive = true ∧ p.g_RightTurn.GetActive = true)) :
    (overrideStep p digitalRead tL tR tB).g_Braking = p.g_Braking.End tB := by
  unfold overrideStep
  rw [if_neg hnot, if_pos ⟨hB, hl, hr⟩]

/-- C4, as the code has it.  In a frame in which, after the polls, Braking is active, both
turn pins read LOW and the two turn signals are not both active, Braking is inactive after
the override step and at the end of the frame. -/
theorem brake_release_unless_both_turns_active (x : External) (g : Globals)
    (digitalRead : Nat → Bool) (now : Nat) (hty : g.typed)
    (hB : (pollAll g digitalRead now).g_Braking.GetActive = true)
    (hl : digitalRead LEFT_TURN_PIN = false) (hr : digitalRead RIGHT_TURN_PIN = false)
    (hnot : ¬ ((pollAll g digitalRead now).g_LeftTurn.GetActive = true
      ∧ (pollAll g digitalRead now).g_RightTurn.GetActive = true)) :
    (overrideStep (pollAll g digitalRead now) digitalRead now now now).g_Braking.GetActive
      = false
    ∧ (processAndDisplayInputs x g digitalRead now).g_Braking.GetActive = false := by
  obtain ⟨hkB, -, -, -, -⟩ := pollAll_typed g digitalRead now hty
  have hframe : processAndDisplayInputs x g digitalRead now
      = drawAll x (overrideStep (pollAll (clearScreen x g) digitalRead now)
          digitalRead now now now) now := rfl
  obtain ⟨hE, hEk⟩ := End_of_braking (pollAll g digitalRead now).g_Braking now hkB
  have h1 := overrideStep_braking_of_release (pollAll g digitalRead now) digitalRead
    now now now hB hl hr hnot
  have h2 : (overrideStep (pollAll (clearScreen x g) digitalRead now)
      digitalRead now now now).g_Braking = (pollAll g digitalRead now).g_Braking.End now :=
    overrideStep_braking_of_release (pollAll (clearScreen x g) digitalRead now) digitalRead
      now now now hB hl hr hnot
  refine ⟨by rw [h1]; exact hE, ?_⟩
  rw [hframe, drawAll_braking _ _ _ (by rw [h2]; exact hEk), h2]
  exact hE

theorem brake_release_unless_both_turns_active_witness :
    (overrideStep (pollAll Globals.brakingAlone (fun _ => false) 500) (fun _ => false)
      500 500 500).g_Braking.GetActive = false
    ∧ (processAndDisplayInputs External.zero Globals.brakingAlone (fun _ => false)
        500).g_Braking.GetActive = false :=
  brake_release_unless_both_turns_active External.zero Globals.brakingAlone (fun _ => false)
    500 ⟨rfl, rfl, rfl, rfl, rfl⟩ (by decide) rfl rfl (by decide)

/-! ## A frame acts on the effect objects through millisecond arithmetic only -/

theorem Draw_state (x : External) (e : LightingEvent) (now : Nat) (s : Strip) :
    (e.Draw x now s).1 = e.afterDraw now := by
  unfold LightingEvent.Draw LightingEvent.afterDraw
  cases hk : e.kind with
  | Signal st =>
    dsimp only
    by_cases ha : e._active = true
    · rw [SignalEvent_Draw_state x st e now s ha]
      simp only [ha, true_and, hk]
    · have ha' : e._active = false := by simpa using ha
      simp [SignalEvent.Draw, LightingEvent.GetActive, ha']
  | Police => rfl
  | Backup => rfl
  | Braking => rfl

theorem pollAll_effects (g : Globals) (digitalRead : Nat → Bool) (now : Nat) :
    (pollAll g digitalRead now).effects = g.effects.pollAll digitalRead now := rfl

theorem overrideStep_effects (p : Globals) (digitalRead : Nat → Bool) (now : Nat) :
    (overrideStep p digitalRead now now now).effects = p.effects.override digitalRead now := by
  unfold overrideStep Effects.override
  simp only [TimeElapsedTotal_lt_twentieth_iff, Globals.effects]
  split_ifs <;> rfl

theorem drawAll_effects (x : External) (r : Globals) (now : Nat) :
    (drawAll x r now).effects = r.effects.afterDraw now := by
  simp only [drawAll, Globals.effects, Effects.afterDraw, Draw_state]

/-- The effect objects after a frame are those that `Effects.frame` computes. -/
theorem processAndDisplayInputs_effects (x : External) (g : Globals)
    (digitalRead : Nat → Bool) (now : Nat) :
    (processAndDisplayInputs x g digitalRead now).effects
      = g.effects.frame digitalRead now := by
  have hframe : processAndDisplayInputs x g digitalRead now
      = drawAll x (overrideStep (pollAll (clearScreen x g) digitalRead now)
          digitalRead now now now) now := rfl
  rw [hframe, drawAll_effects, overrideStep_effects, pollAll_effects]
  rfl

theorem irq_effects (g : Globals) (pin : Nat) (level : Bool) (tick : Nat) :
    (g.irq pin level tick).effects = g.effects.irq pin level tick := by
  unfold Globals.irq Effects.irq
  split_ifs <;> rfl

/-- A drive acts on the effect objects as `Effects.run` computes. -/
theorem run_effects (x : External) (steps : List Step) (g : Globals) :
    (Globals.run x g steps).effects = Effects.run g.effects steps := by
  induction steps generalizing g with
  | nil => rfl
  | cons st rest ih =>
    cases st with
    | irq pin level tick =>
      show (Globals.run x (g.irq pin level tick) rest).effects = _
      rw [ih, irq_effects]
      rfl
    | frame digitalRead now =>
      show (Globals.run x (processAndDisplayInputs x g digitalRead now) rest).effects = _
      rw [ih, processAndDisplayInputs_effects]
      rfl

theorem Effects_run_append (a b : List Step) (f : Effects) :
    Effects.run f (a ++ b) = Effects.run (Effects.run f a) b := by
  induction a generalizing f with
  | nil => rfl
  | cons st rest ih =>
    cases st with
    | irq pin level tick => exact ih _
    | frame digitalRead now => exact ih _

/-- The effect objects after the drive `hazardPress`: both signals are inactive again and
Braking has been active since clock 1031. -/
theorem hazardPress_state :
    Effects.run Globals.init.effects hazardPress
      = { braking := { LightingEvent.new Kind.Braking 0 0 with
            _eventStart := 1031, _active := true }
          backup := LightingEvent.new Kind.Backup BACKUP_PIN 0
          leftTurn := { LightingEvent.new (Kind.Signal SIGNAL_STYLE.LEFT_TURN) LEFT_TURN_PIN 0 with
            _eventStart := 1031, _lastIRQButtonState := 1, _debounceTimeout := 1000 }
          rightTurn :=
            { LightingEvent.new (Kind.Signal SIGNAL_STYLE.RIGHT_TURN) RIGHT_TURN_PIN 0 with
              _eventStart := 1031, _lastIRQButtonState := 1, _debounceTimeout := 1000 }
          emergency := LightingEvent.new Kind.Police EMERGENCY_PIN 0 } := by
  decide

/-- The effect objects after `leftTurnAgain` has followed: the left signal has been active
since clock 2131. -/
theorem leftTurnAgain_state :
    Effects.run
        { braking := { LightingEvent.new Kind.Braking 0 0 with
            _eventStart := 1031, _active := true }
          backup := LightingEvent.new Kind.Backup BACKUP_PIN 0
          leftTurn := { LightingEvent.new (Kind.Signal SIGNAL_STYLE.LEFT_TURN) LEFT_TURN_PIN 0 with
            _eventStart := 1031, _lastIRQButtonState := 1, _debounceTimeout := 1000 }
          rightTurn :=
            { LightingEvent.new (Kind.Signal SIGNAL_STYLE.RIGHT_TURN) RIGHT_TURN_PIN 0 with
              _eventStart := 1031, _lastIRQButtonState := 1, _debounceTimeout := 1000 }
          emergency := LightingEvent.new Kind.Police EMERGENCY_PIN 0 } leftTurnAgain
      = { braking := { LightingEvent.new Kind.Braking 0 0 with
            _eventStart := 1031, _active := true }
          backup := LightingEvent.new Kind.Backup BACKUP_PIN 0
          leftTurn := { LightingEvent.new (Kind.Signal SIGNAL_STYLE.LEFT_TURN) LEFT_TURN_PIN 0 with
            _eventStart := 2131, _active := true, _lastIRQButtonState := 1,
            _debounceTimeout := 2100 }
          rightTurn :=
            { LightingEvent.new (Kind.Signal SIGNAL_STYLE.RIGHT_TURN) RIGHT_TURN_PIN 0 with
              _eventStart := 1031, _lastIRQButtonState := 1, _debounceTimeout := 1000 }
          emergency := LightingEvent.new Kind.Police EMERGENCY_PIN 0 } := by
  decide

/-- The effect objects after `rightTurnAgainThenRelease` has followed: Braking has been
active since clock 1031, the left signal since 2131 and the right one since 2331, and the
interrupts of tick 2400 are pending on both turn inputs. -/
theorem rightTurnAgainThenRelease_state :
    Effects.run
        { braking := { LightingEvent.new Kind.Braking 0 0 with
            _eventStart := 1031, _active := true }
          backup := LightingEvent.new Kind.Backup BACKUP_PIN 0
          leftTurn := { LightingEvent.new (Kind.Signal SIGNAL_STYLE.LEFT_TURN) LEFT_TURN_PIN 0 with
            _eventStart := 2131, _active := true, _lastIRQButtonState := 1,
            _debounceTimeout := 2100 }
          rightTurn :=
            { LightingEvent.new (Kind.Signal SIGNAL_STYLE.RIGHT_TURN) RIGHT_TURN_PIN 0 with
              _eventStart := 1031, _lastIRQButtonState := 1, _debounceTimeout := 1000 }
          emergency := LightingEvent.new Kind.Police EMERGENCY_PIN 0 }
        rightTurnAgainThenRelease
      = { braking := { LightingEvent.new Kind.Braking 0 0 with
            _eventStart := 1031, _active := true }
          backup := LightingEvent.new Kind.Backup BACKUP_PIN 0
          leftTurn := { LightingEvent.new (Kind.Signal SIGNAL_STYLE.LEFT_TURN) LEFT_TURN_PIN 0 with
            _eventStart := 2131, _active := true, _hasIRQHandlerFiredYet := true,
            _lastIRQButtonState := 0, _debounceTimeout := 2400 }
          rightTurn :=
            { LightingEvent.new (Kind.Signal SIGNAL_STYLE.RIGHT_TURN) RIGHT_TURN_PIN 0 with
              _eventStart := 2331, _active := true, _hasIRQHandlerFiredYet := true,
              _lastIRQButtonState := 0, _debounceTimeout := 2400 }
          emergency := LightingEvent.new Kind.Police EMERGENCY_PIN 0 } := by
  decide

/-- The effect objects after the whole drive `hazardThenBothTurns`. -/
theorem hazardThenBothTurns_state :
    Effects.run Globals.init.effects hazardThenBothTurns
      = { braking := { LightingEvent.new Kind.Braking 0 0 with
            _eventStart := 1031, _active := true }
          backup := LightingEvent.new Kind.Backup BACKUP_PIN 0
          leftTurn := { LightingEvent.new (Kind.Signal SIGNAL_STYLE.LEFT_TURN) LEFT_TURN_PIN 0 with
            _eventStart := 2131, _active := true, _hasIRQHandlerFiredYet := true,
            _lastIRQButtonState := 0, _debounceTimeout := 2400 }
          rightTurn :=
            { LightingEvent.new (Kind.Signal SIGNAL_STYLE.RIGHT_TURN) RIGHT_TURN_PIN 0 with
              _eventStart := 2331, _active := true, _hasIRQHandlerFiredYet := true,
              _lastIRQButtonState := 0, _debounceTimeout := 2400 }
          emergency := LightingEvent.new Kind.Police EMERGENCY_PIN 0 } := by
  unfold hazardThenBothTurns
  rw [Effects_run_append, Effects_run_append, hazardPress_state, leftTurnAgain_state,
    rightTurnAgainThenRelease_state]

/-- C4 as stated fails when both turn signals are active.  After the drive
`hazardThenBothTurns` the polls of the frame at clock 2431 find Braking active and both
turn pins LOW; both signals are still active (their `End()` is deferred), so the override
step takes its first branch and leaves Braking active. -/
theorem braking_survives_release_when_both_turns_active :
    (pollAll (Globals.run External.zero Globals.init hazardThenBothTurns) (fun _ => false)
        2431).g_Braking.GetActive = true
    ∧ (fun _ => false : Nat → Bool) LEFT_TURN_PIN = false
    ∧ (fun _ => false : Nat → Bool) RIGHT_TURN_PIN = false
    ∧ (pollAll (Globals.run External.zero Globals.init hazardThenBothTurns) (fun _ => false)
        2431).g_LeftTurn.GetActive = true
    ∧ (pollAll (Globals.run External.zero Globals.init hazardThenBothTurns) (fun _ => false)
        2431).g_RightTurn.GetActive = true
    ∧ (overrideStep
        (pollAll (Globals.run External.zero Globals.init hazardThenBothTurns) (fun _ => false)
          2431) (fun _ => false) 2431 2431 2431).g_Braking.GetActive = true := by
  have hp : (pollAll (Globals.run External.zero Globals.init hazardThenBothTurns)
      (fun _ => false) 2431).effects
        = Effects.pollAll
            { braking := { LightingEvent.new Kind.Braking 0 0 with
                _eventStart := 1031, _active := true }
              backup := LightingEvent.new Kind.Backup BACKUP_PIN 0
              leftTurn :=
                { LightingEvent.new (Kind.Signal SIGNAL_STYLE.LEFT_TURN) LEFT_TURN_PIN 0 with
                  _eventStart := 2131, _active := true, _hasIRQHandlerFiredYet := true,
                  _lastIRQButtonState := 0, _debounceTimeout := 2400 }
              rightTurn :=
                { LightingEvent.new (Kind.Signal SIGNAL_STYLE.RIGHT_TURN) RIGHT_TURN_PIN 0 with
                  _eventStart := 2331, _active := true, _hasIRQHandlerFiredYet := true,
                  _lastIRQButtonState := 0, _debounceTimeout := 2400 }
              emergency := LightingEvent.new Kind.Police EMERGENCY_PIN 0 }
            (fun _ => false) 2431 := by
    rw [pollAll_effects, run_effects, hazardThenBothTurns_state]
  have ho : (overrideStep
      (pollAll (Globals.run External.zero Globals.init hazardThenBothTurns) (fun _ => false)
        2431) (fun _ => false) 2431 2431 2431).effects
        = Effects.override
            ((pollAll (Globals.run External.zero Globals.init hazardThenBothTurns)
              (fun _ => false) 2431).effects) (fun _ => false) 2431 :=
    overrideStep_effects _ _ _
  have hB : ∀ g : Globals, g.g_Braking = g.effects.braking := fun _ => rfl
  have hL : ∀ g : Globals, g.g_LeftTurn = g.effects.leftTurn := fun _ => rfl
  have hR : ∀ g : Globals, g.g_RightTurn = g.effects.rightTurn := fun _ => rfl
  refine ⟨?_, rfl, rfl, ?_, ?_, ?_⟩
  · rw [hB, hp]
    decide
  · rw [hL, hp]
    decide
  · rw [hR, hp]
    decide
  · rw [hB, ho, hp]
    decide

/-! ## Painting the strip -/

theorem drawPixel_apply (s : Strip) (i : Nat) (c : CRGB) (j : Int)
    (hi : i ≤ MATRIX_WIDTH * MATRIX_HEIGHT) :
    LEDStripGFX.drawPixel s (i : Int) c j = if j = (i : Int) then c else s j := by
  unfold LEDStripGFX.drawPixel
  rw [if_pos ⟨Int.natCast_nonneg i, by exact_mod_cast hi⟩]
  by_cases hj : j = (i : Int)
  · subst hj
    simp
  · rw [Function.update_noteq hj, if_neg hj]

/-- A loop over `i < n` whose body stores `f i` into pixel `i` leaves `f j` in every cell
`j < n` and the other cells as they were. -/
theorem foldl_range_paint (body : Strip → Nat → Strip) (f : Nat → CRGB)
    (hbody : ∀ s i, i ≤ MATRIX_WIDTH * MATRIX_HEIGHT →
      body s i = LEDStripGFX.drawPixel s (i : Int) (f i)) (n : Nat)
    (hn : n ≤ MATRIX_WIDTH * MATRIX_HEIGHT + 1) (s : Strip) (j : Int) :
    ((List.range n).foldl body s) j = if 0 ≤ j ∧ j < (n : Int) then f j.toNat else s j := by
  induction n with
  | zero =>
    have : ¬ (0 ≤ j ∧ j < ((0 : Nat) : Int)) := by omega
    rw [if_neg this]
    rfl
  | succ n ih =>
    rw [List.range_succ, List.foldl_append, List.foldl_cons, List.foldl_nil,
      hbody _ _ (by omega),
      drawPixel_apply _ _ _ _ (by omega), ih (by omega)]
    by_cases hj : j = (n : Int)
    · subst hj
      rw [if_pos rfl, if_pos ⟨Int.natCast_nonneg n, by omega⟩]
      simp
    · rw [if_neg hj]
      by_cases h1 : 0 ≤ j ∧ j < (n : Int)
      · rw [if_pos h1, if_pos ⟨h1.1, by omega⟩]
      · rw [if_neg h1, if_neg (by omega)]

/-- What `BackupEvent::Draw` of an active effect leaves in a cell of the strip. -/
theorem BackupEvent_Draw_apply (e : LightingEvent) (now : Nat) (s : Strip) (j : Int)
    (ha : e.GetActive = true) (h0 : 0 ≤ j) (h1 : j < (NUMBER_USED_PIXELS : Int)) :
    BackupEvent.Draw e now s j
      = if j < ((NUMBER_USED_PIXELS / 2 : Nat) : Int) - Int.tdiv (BackupEvent.cLEDs e now) 2
            ∨ j > ((NUMBER_USED_PIXELS / 2 : Nat) : Int) + Int.tdiv (BackupEvent.cLEDs e now) 2
        then CRGB.ofCode Black else CRGB.ofCode White := by
  unfold BackupEvent.Draw
  rw [if_neg (by simp [ha])]
  unfold BackupEvent.paint
  rw [foldl_range_paint _
    (fun i => if (i : Int) < ((NUMBER_USED_PIXELS / 2 : Nat) : Int)
          - Int.tdiv (BackupEvent.cLEDs e now) 2
        ∨ (i : Int) > ((NUMBER_USED_PIXELS / 2 : Nat) : Int)
          + Int.tdiv (BackupEvent.cLEDs e now) 2
      then CRGB.ofCode Black else CRGB.ofCode White)
    (by intro s i _; dsimp only; split_ifs <;> rfl) NUMBER_USED_PIXELS (by decide) s j]
  rw [if_pos ⟨h0, h1⟩]
  have : ((j.toNat : Nat) : Int) = j := Int.toNat_of_nonneg h0
  simp only [this]

theorem overrideStep_backup (p : Globals) (digitalRead : Nat → Bool) (tL tR tB : Nat) :
    (overrideStep p digitalRead tL tR tB).g_Backup = p.g_Backup := by
  unfold overrideStep
  split
  · split <;> rfl
  · split <;> rfl

/-- C5. A frame draws onto the strip cleared by `fillScreen(BLACK16)` (whose cells are
black when the gamma tables map 0 to 0) in the order emergency, braking, left turn, right
turn, backup, each effect drawing over what the earlier ones left.  Whenever the Backup
effect is active when it is drawn, every pixel in `[0, NUMBER_USED_PIXELS)` ends the frame
with what `BackupEvent::Draw` alone produces on a black strip, whatever the other four
effects did. -/
theorem backup_dominates (x : External) (g : Globals) (digitalRead : Nat → Bool) (now : Nat)
    (hty : g.typed) (hA : (pollAll g digitalRead now).g_Backup.GetActive = true) :
    (∀ i : Int, 0 ≤ i → i < (NUMBER_USED_PIXELS : Int) →
        (processAndDisplayInputs x g digitalRead now).g_Strip i
          = BackupEvent.Draw (pollAll g digitalRead now).g_Backup now blackStrip i)
    ∧ (∀ r : Globals, (drawAll x r now).g_Strip
        = (r.g_Backup.Draw x now
            (r.g_RightTurn.Draw x now
              (r.g_LeftTurn.Draw x now
                (r.g_Braking.Draw x now
                  (r.g_Emergency.Draw x now r.g_Strip).2).2).2).2).2)
    ∧ (x.gamma5 0 = 0 → x.gamma6 0 = 0 → ∀ i : Int, 0 ≤ i → i < (NUMBER_USED_PIXELS : Int) →
        (clearScreen x g).g_Strip i = CRGB.ofCode Black) := by
  refine ⟨?_, fun _ => rfl, ?_⟩
  · intro i h0 h1
    obtain ⟨-, hkK, -, -, -⟩ := pollAll_typed g digitalRead now hty
    have hframe : (processAndDisplayInputs x g digitalRead now).g_Strip
        = ((overrideStep (pollAll (clearScreen x g) digitalRead now)
              digitalRead now now now).g_Backup.Draw x now
            ((overrideStep (pollAll (clearScreen x g) digitalRead now)
              digitalRead now now now).g_RightTurn.Draw x now
              ((overrideStep (pollAll (clearScreen x g) digitalRead now)
                digitalRead now now now).g_LeftTurn.Draw x now
                ((overrideStep (pollAll (clearScreen x g) digitalRead now)
                  digitalRead now now now).g_Braking.Draw x now
                  ((overrideStep (pollAll (clearScreen x g) digitalRead now)
                    digitalRead now now now).g_Emergency.Draw x now
                    (overrideStep (pollAll (clearScreen x g) digitalRead now)
                      digitalRead now now now).g_Strip).2).2).2).2).2 := rfl
    have hb : (overrideStep (pollAll (clearScreen x g) digitalRead now)
        digitalRead now now now).g_Backup = (pollAll g digitalRead now).g_Backup :=
      overrideStep_backup _ _ _ _ _
    rw [hframe, hb]
    generalize ((overrideStep (pollAll (clearScreen x g) digitalRead now)
      digitalRead now now now).g_RightTurn.Draw x now _).2 = below
    have hd : ((pollAll g digitalRead now).g_Backup.Draw x now below).2
        = BackupEvent.Draw (pollAll g digitalRead now).g_Backup now below := by
      unfold LightingEvent.Draw
      rw [hkK]
    rw [hd, BackupEvent_Draw_apply _ _ _ _ hA h0 h1, BackupEvent_Draw_apply _ _ _ _ hA h0 h1]
  · intro h5 h6 i h0 h1
    show (LEDStripGFX.fillScreen x BLACK16 g.g_Strip) i = CRGB.ofCode Black
    unfold LEDStripGFX.fillScreen
    rw [foldl_range_paint _ (fun _ => LEDStripGFX.from16Bit x BLACK16) ?_ MATRIX_WIDTH
      (by decide) g.g_Strip i]
    · rw [if_pos ⟨h0, h1⟩]
      simp [LEDStripGFX.from16Bit, BLACK16, h5, h6, CRGB.ofCode, Black]
    · intro s i hi
      unfold LEDStripGFX.drawPixel
      rw [if_pos ⟨Int.natCast_nonneg i, by exact_mod_cast hi⟩]

theorem backup_dominates_witness :
    (∀ i : Int, 0 ≤ i → i < (NUMBER_USED_PIXELS : Int) →
        (processAndDisplayInputs External.zero Globals.backingUp (fun _ => true) 100).g_Strip i
          = BackupEvent.Draw (pollAll Globals.backingUp (fun _ => true) 100).g_Backup 100
              blackStrip i)
    ∧ (∀ r : Globals, (drawAll External.zero r 100).g_Strip
        = (r.g_Backup.Draw External.zero 100
            (r.g_RightTurn.Draw External.zero 100
              (r.g_LeftTurn.Draw External.zero 100
                (r.g_Braking.Draw External.zero 100
                  (r.g_Emergency.Draw External.zero 100 r.g_Strip).2).2).2).2).2)
    ∧ (External.zero.gamma5 0 = 0 → External.zero.gamma6 0 = 0 →
        ∀ i : Int, 0 ≤ i → i < (NUMBER_USED_PIXELS : Int) →
          (clearScreen External.zero Globals.backingUp).g_Strip i = CRGB.ofCode Black) :=
  backup_dominates External.zero Globals.backingUp (fun _ => true) 100
    ⟨rfl, rfl, rfl, rfl, rfl⟩ (by decide)

/-! ## Life cycle: idempotence, the `_eventStart` edge, the toggle -/

/-- `Begin()` on an active effect that is no police bar and has no deferred end pending
changes nothing. -/
theorem Begin_of_active (e : LightingEvent) (now : Nat) (hk : e.kind ≠ Kind.Police)
    (ha : e._active = true) (hx : e._bExitatEnd = false ∨ ∀ st, e.kind ≠ Kind.Signal st) :
    e.Begin now = e := by
  cases e with
  | mk kind start active fired last timeout pin1 pin2 exit =>
    simp only at hk ha hx
    subst ha
    cases kind with
    | Police => exact absurd rfl hk
    | Backup => simp [LightingEvent.Begin, LightingEvent.baseBegin]
    | Braking => simp [LightingEvent.Begin, LightingEvent.baseBegin]
    | Signal st =>
      rcases hx with hx | hx
      · subst hx
        simp [LightingEvent.Begin, SignalEvent.Begin]
      · exact absurd rfl (hx st)

/-- C11, as the code has it.  For an effect of class Backup, Braking or Signal that is
active and, when it is a signal, has no deferred end pending, any number of `Begin()`
calls at any clock values leave the object as it is: `_eventStart` is unchanged and the
effect is active. -/
theorem beginMany_of_active (e : LightingEvent) (clocks : List Nat)
    (hk : e.kind ≠ Kind.Police) (ha : e._active = true)
    (hx : e._bExitatEnd = false ∨ ∀ st, e.kind ≠ Kind.Signal st) :
    (e.beginMany clocks)._eventStart = e._eventStart
    ∧ (e.beginMany clocks)._active = true
    ∧ e.beginMany clocks = e := by
  have key : e.beginMany clocks = e := by
    unfold LightingEvent.beginMany
    induction clocks with
    | nil => rfl
    | cons now rest ih =>
      rw [List.foldl_cons, Begin_of_active e now hk ha hx]
      exact ih
  rw [key]
  exact ⟨rfl, ha, rfl⟩

theorem beginMany_of_active_witness :
    (leftTurnHeld.beginMany [1500, 2000, 2500, 4000])._eventStart = leftTurnHeld._eventStart
    ∧ (leftTurnHeld.beginMany [1500, 2000, 2500, 4000])._active = true
    ∧ leftTurnHeld.beginMany [1500, 2000, 2500, 4000] = leftTurnHeld :=
  beginMany_of_active leftTurnHeld [1500, 2000, 2500, 4000] (by decide) (by decide)
    (Or.inl (by decide))

/-- C11 as stated fails for a signal with a deferred end pending.  The left-turn signal
released at clock 2531 is still active with `_eventStart = 1031`; a `Begin()` at clock
2600 sets `_eventStart` to 2600. -/
theorem Begin_restarts_signal_after_deferred_end :
    leftTurnReleased.kind = Kind.Signal SIGNAL_STYLE.LEFT_TURN
    ∧ leftTurnReleased._active = true
    ∧ leftTurnReleased._eventStart = 1031
    ∧ (leftTurnReleased.Begin 2600)._eventStart = 2600
    ∧ (leftTurnReleased.beginMany [2600])._eventStart ≠ leftTurnReleased._eventStart := by
  decide

/-- C12, as the code has it.  For an effect of class Backup or Braking: `Begin()` changes
`_eventStart` only when it takes the effect from inactive to active; `Draw()` changes
nothing; `End()` always stores the clock in `_eventStart` and leaves the effect inactive;
and a poll changes `_eventStart` only through a `Begin()` on an inactive effect or through
an `End()`. -/
theorem eventStart_changes (x : External) (e : LightingEvent) (digitalRead : Nat → Bool)
    (now nowAct : Nat) (s : Strip) (hk : e.kind = Kind.Backup ∨ e.kind = Kind.Braking) :
    ((e.Begin now)._eventStart ≠ e._eventStart →
        e._active = false ∧ (e.Begin now)._active = true)
    ∧ (e.Draw x now s).1 = e
    ∧ ((e.End now)._eventStart = now ∧ (e.End now)._active = false)
    ∧ ((e.CheckForButtonPress digitalRead now nowAct).1._eventStart ≠ e._eventStart →
        (Call.Begin ∈ (e.CheckForButtonPress digitalRead now nowAct).2 ∧ e._active = false
          ∧ (e.CheckForButtonPress digitalRead now nowAct).1._active = true)
        ∨ (Call.End ∈ (e.CheckForButtonPress digitalRead now nowAct).2
          ∧ (e.CheckForButtonPress digitalRead now nowAct).1._eventStart = nowAct
          ∧ (e.CheckForButtonPress digitalRead now nowAct).1._active = false)) := by
  have hB : ∀ t, e.Begin t = e.baseBegin t := by
    intro t
    rcases hk with hk | hk <;> simp [LightingEvent.Begin, hk]
  have hE : ∀ t, e.End t = e.baseEnd t := by
    intro t
    rcases hk with hk | hk <;> simp [LightingEvent.End, hk]
  have hbegin : ∀ t, (e.Begin t)._eventStart ≠ e._eventStart →
      e._active = false ∧ (e.Begin t)._active = true := by
    intro t h
    rw [hB] at h ⊢
    cases ha : e._active with
    | true => simp [LightingEvent.baseBegin, ha] at h
    | false => exact ⟨rfl, rfl⟩
  refine ⟨hbegin now, ?_, ?_, ?_⟩
  · exact Draw_of_not_signal x e now s (by rcases hk with hk | hk <;> simp [hk])
  · rw [hE]
    exact ⟨rfl, rfl⟩
  · intro h
    unfold LightingEvent.CheckForButtonPress at h ⊢
    by_cases hp : e._buttonPin1 = 0
    · simp [hp] at h
    · simp only [hp, if_false] at h ⊢
      split_ifs at h ⊢
      · left
        have h' : (e.Begin nowAct)._eventStart ≠ e._eventStart := h
        exact ⟨by simp, (hbegin nowAct h').1, (hbegin nowAct h').2⟩
      · right
        refine ⟨by simp, ?_, ?_⟩
        · show (e.End nowAct)._eventStart = nowAct
          rw [hE]
          rfl
        · show (e.End nowAct)._active = false
          rw [hE]
          rfl
      · exact absurd rfl h
      · right
        refine ⟨by simp, ?_, ?_⟩
        · show (e.End nowAct)._eventStart = nowAct
          rw [hE]
          rfl
        · show (e.End nowAct)._active = false
          rw [hE]
          rfl
      · exact absurd rfl h
      · exact absurd rfl h

theorem eventStart_changes_witness :
    ((Globals.backingUp.g_Backup.Begin 500)._eventStart ≠ Globals.backingUp.g_Backup._eventStart →
        Globals.backingUp.g_Backup._active = false
          ∧ (Globals.backingUp.g_Backup.Begin 500)._active = true)
    ∧ (Globals.backingUp.g_Backup.Draw External.zero 500 blackStrip).1
        = Globals.backingUp.g_Backup
    ∧ ((Globals.backingUp.g_Backup.End 500)._eventStart = 500
        ∧ (Globals.backingUp.g_Backup.End 500)._active = false)
    ∧ ((Globals.backingUp.g_Backup.CheckForButtonPress (fun _ => false) 500 500).1._eventStart
          ≠ Globals.backingUp.g_Backup._eventStart →
        (Call.Begin ∈ (Globals.backingUp.g_Backup.CheckForButtonPress (fun _ => false) 500 500).2
          ∧ Globals.backingUp.g_Backup._active = false
          ∧ (Globals.backingUp.g_Backup.CheckForButtonPress (fun _ => false) 500 500).1._active
            = true)
        ∨ (Call.End ∈ (Globals.backingUp.g_Backup.CheckForButtonPress (fun _ => false) 500 500).2
          ∧ (Globals.backingUp.g_Backup.CheckForButtonPress (fun _ => false) 500
            500).1._eventStart = 500
          ∧ (Globals.backingUp.g_Backup.CheckForButtonPress (fun _ => false) 500 500).1._active
            = false)) :=
  eventStart_changes External.zero Globals.backingUp.g_Backup (fun _ => false) 500 500
    blackStrip (Or.inl rfl)

/-- C12 as stated fails for `End()`.  The backup effect has been active since clock 0;
`End()` at clock 500 is applied to an active effect, takes it to inactive and changes
`_eventStart` from 0 to 500. -/
theorem End_changes_eventStart_of_active :
    Globals.backingUp.g_Backup.kind = Kind.Backup
    ∧ Globals.backingUp.g_Backup._active = true
    ∧ Globals.backingUp.g_Backup._eventStart = 0
    ∧ (Globals.backingUp.g_Backup.End 500)._eventStart = 500
    ∧ (Globals.backingUp.g_Backup.End 500)._active = false := by
  decide

/-- C13. `PoliceLightBar::Begin` flips `_active`, so two consecutive calls restore its
value; `PoliceLightBar::End` changes nothing, and neither does `Draw()`; the virtual
`Begin()` and `End()` of a police bar are these methods. -/
theorem PoliceLightBar_toggle (x : External) (e : LightingEvent) (now later : Nat)
    (s : Strip) :
    (PoliceLightBar.Begin e now)._active = !e._active
    ∧ (PoliceLightBar.Begin (PoliceLightBar.Begin e now) later)._active = e._active
    ∧ PoliceLightBar.End e = e
    ∧ (e.kind = Kind.Police →
        e.Begin now = PoliceLightBar.Begin e now ∧ e.End now = PoliceLightBar.End e
          ∧ (e.Begin now).kind = Kind.Police ∧ (e.Draw x now s).1 = e) := by
  refine ⟨?_, ?_, rfl, ?_⟩
  · cases ha : e._active <;> simp [PoliceLightBar.Begin, ha, LightingEvent.baseBegin,
      LightingEvent.baseEnd]
  · cases ha : e._active <;> simp [PoliceLightBar.Begin, ha, LightingEvent.baseBegin,
      LightingEvent.baseEnd]
  · intro hk
    refine ⟨by simp [LightingEvent.Begin, hk], by simp [LightingEvent.End, hk],
      (Begin_sameSample e now).2.2.2.2.trans hk, ?_⟩
    exact Draw_of_not_signal x e now s (by simp [hk])

/-! ## The backup bloom -/

theorem f32_quarter : f32 (25 / 100) = 1 / 4 := by
  have := roundBinary_of_representable 24 (-126) 1 (-2) (by norm_num) (by norm_num)
    (by norm_num)
  have h : ((1 : Nat) : ℚ) * (2 : ℚ) ^ (-2 : Int) = 25 / 100 := by norm_num
  rw [h] at this
  rw [f32, this]
  norm_num

theorem f32_70 : f32 70 = 70 := by
  exact_mod_cast f32_natCast 70 (by norm_num)

theorem truncInt_of_nonneg (q : ℚ) (h : 0 ≤ q) : truncInt q = ⌊q⌋ := by
  unfold truncInt
  rw [if_pos h]

theorem truncInt_mono {a b : ℚ} (h0 : 0 ≤ a) (h : a ≤ b) : truncInt a ≤ truncInt b := by
  rw [truncInt_of_nonneg a h0, truncInt_of_nonneg b (le_trans h0 h)]
  exact Int.floor_mono h

theorem truncInt_natCast (n : Nat) : truncInt (n : ℚ) = n := by
  rw [truncInt_of_nonneg _ (Nat.cast_nonneg n)]
  exact Int.floor_natCast n

theorem TimeElapsedTotal_nonneg (e : LightingEvent) (now : Nat) :
    0 ≤ e.TimeElapsedTotal now := by
  unfold LightingEvent.TimeElapsedTotal
  rw [f32_1000]
  exact f32_nonneg (div_nonneg (f32_nonneg (Nat.cast_nonneg _)) (by norm_num))

/-- `TimeElapsedTotal()` does not decrease when the elapsed milliseconds grow. -/
theorem TimeElapsedTotal_mono (e : LightingEvent) (now₁ now₂ : Nat)
    (h : subU32 now₁ e._eventStart ≤ subU32 now₂ e._eventStart) :
    e.TimeElapsedTotal now₁ ≤ e.TimeElapsedTotal now₂ := by
  unfold LightingEvent.TimeElapsedTotal
  rw [f32_1000]
  have h1 : ((subU32 now₁ e._eventStart : Nat) : ℚ) ≤ ((subU32 now₂ e._eventStart : Nat) : ℚ) := by
    exact_mod_cast h
  have h2 := f32_mono (Nat.cast_nonneg _) h1
  exact f32_mono (div_nonneg (f32_nonneg (Nat.cast_nonneg _)) (by norm_num))
    (div_le_div_of_nonneg_right h2 (by norm_num))

theorem TimeElapsedTotal_of_zero (e : LightingEvent) (now : Nat)
    (h : subU32 now e._eventStart = 0) : e.TimeElapsedTotal now = 0 := by
  unfold LightingEvent.TimeElapsedTotal
  rw [h, Nat.cast_zero, f32_zero, zero_div, f32_zero]

/-- The value of `fPercentComplete` in `BackupEvent::Draw` is between 0 and 1. -/
theorem BackupEvent_percent_bounds (e : LightingEvent) (now : Nat) :
    0 ≤ min (f32 (e.TimeElapsedTotal now / BackupEvent.BLOOM_TIME)) (f32 1)
    ∧ min (f32 (e.TimeElapsedTotal now / BackupEvent.BLOOM_TIME)) (f32 1) ≤ 1 := by
  have hT := TimeElapsedTotal_nonneg e now
  have hB : BackupEvent.BLOOM_TIME = 1 / 4 := f32_quarter
  rw [hB, f32_one]
  constructor
  · exact le_min (f32_nonneg (div_nonneg hT (by norm_num))) (by norm_num)
  · exact min_le_right _ _

theorem BackupEvent_cLEDs_nonneg (e : LightingEvent) (now : Nat) :
    0 ≤ BackupEvent.cLEDs e now := by
  unfold BackupEvent.cLEDs
  have h := (BackupEvent_percent_bounds e now).1
  have h70 : (0 : ℚ) ≤ ((NUMBER_USED_PIXELS : Nat) : ℚ) := Nat.cast_nonneg _
  rw [truncInt_of_nonneg _ (f32_nonneg (mul_nonneg h70 h))]
  exact Int.floor_nonneg.mpr (f32_nonneg (mul_nonneg h70 h))

/-- The count `cLEDs` of `BackupEvent::Draw` does not decrease when the elapsed
milliseconds grow. -/
theorem BackupEvent_cLEDs_mono (e : LightingEvent) (now₁ now₂ : Nat)
    (h : subU32 now₁ e._eventStart ≤ subU32 now₂ e._eventStart) :
    BackupEvent.cLEDs e now₁ ≤ BackupEvent.cLEDs e now₂ := by
  unfold BackupEvent.cLEDs
  have hT := TimeElapsedTotal_mono e now₁ now₂ h
  have hT0 := TimeElapsedTotal_nonneg e now₁
  have hB : BackupEvent.BLOOM_TIME = 1 / 4 := f32_quarter
  have h1 : f32 (e.TimeElapsedTotal now₁ / BackupEvent.BLOOM_TIME)
      ≤ f32 (e.TimeElapsedTotal now₂ / BackupEvent.BLOOM_TIME) := by
    rw [hB]
    exact f32_mono (div_nonneg hT0 (by norm_num)) (div_le_div_of_nonneg_right hT (by norm_num))
  have h2 : min (f32 (e.TimeElapsedTotal now₁ / BackupEvent.BLOOM_TIME)) (f32 1)
      ≤ min (f32 (e.TimeElapsedTotal now₂ / BackupEvent.BLOOM_TIME)) (f32 1) :=
    min_le_min h1 le_rfl
  have h70 : (0 : ℚ) ≤ ((NUMBER_USED_PIXELS : Nat) : ℚ) := Nat.cast_nonneg _
  have h3 := mul_le_mul_of_nonneg_left h2 h70
  have h0 := mul_nonneg h70 (BackupEvent_percent_bounds e now₁).1
  exact truncInt_mono (f32_nonneg h0) (f32_mono h0 h3)

theorem BackupEvent_cLEDs_of_zero (e : LightingEvent) (now : Nat)
    (h : subU32 now e._eventStart = 0) : BackupEvent.cLEDs e now = 0 := by
  unfold BackupEvent.cLEDs
  rw [TimeElapsedTotal_of_zero e now h, zero_div, f32_zero, f32_one]
  have : min (0 : ℚ) 1 = 0 := by norm_num
  rw [this]
  simp only [mul_zero, f32_zero]
  simp [truncInt]

theorem BackupEvent_cLEDs_of_bloomed (e : LightingEvent) (now : Nat)
    (h : 250 ≤ subU32 now e._eventStart) : BackupEvent.cLEDs e now = 70 := by
  have hT : (1 : ℚ) / 4 ≤ e.TimeElapsedTotal now := by
    unfold LightingEvent.TimeElapsedTotal
    rw [f32_1000]
    have h1 : (250 : ℚ) ≤ ((subU32 now e._eventStart : Nat) : ℚ) := by exact_mod_cast h
    have h2 : (250 : ℚ) ≤ f32 ((subU32 now e._eventStart : Nat) : ℚ) := by
      have := f32_mono (by norm_num) h1
      rwa [show f32 (250 : ℚ) = 250 by exact_mod_cast f32_natCast 250 (by norm_num)] at this
    have h3 : (25 : ℚ) / 100 ≤ f32 ((subU32 now e._eventStart : Nat) : ℚ) / 1000 := by
      rw [le_div_iff₀ (by norm_num)]
      linarith
    have h4 := f32_mono (by norm_num) h3
    rwa [f32_quarter] at h4
  have hB : BackupEvent.BLOOM_TIME = 1 / 4 := f32_quarter
  have h5 : (1 : ℚ) ≤ f32 (e.TimeElapsedTotal now / BackupEvent.BLOOM_TIME) := by
    rw [hB]
    have : (1 : ℚ) ≤ e.TimeElapsedTotal now / (1 / 4) := by
      rw [le_div_iff₀ (by norm_num)]
      linarith
    have h6 := f32_mono (by norm_num) this
    rwa [f32_one] at h6
  unfold BackupEvent.cLEDs
  rw [f32_one, min_eq_right h5]
  simp only [mul_one]
  have h70 : ((NUMBER_USED_PIXELS : Nat) : ℚ) = 70 := by norm_num [NUMBER_USED_PIXELS,
    MATRIX_WIDTH, MATRIX_HEIGHT]
  rw [h70, f32_70]
  exact_mod_cast truncInt_natCast 70

/-- Pixel `j` is white after `BackupEvent::Draw` exactly when it lies within
`cLEDs / 2` of the centre pixel. -/
theorem BackupEvent_Draw_white_iff (e : LightingEvent) (now : Nat) (s : Strip) (j : Int)
    (ha : e.GetActive = true) (h0 : 0 ≤ j) (h1 : j < (NUMBER_USED_PIXELS : Int)) :
    BackupEvent.Draw e now s j = CRGB.ofCode White
      ↔ (35 - BackupEvent.cLEDs e now / 2 ≤ j ∧ j ≤ 35 + BackupEvent.cLEDs e now / 2) := by
  rw [BackupEvent_Draw_apply e now s j ha h0 h1,
    Int.tdiv_eq_ediv (BackupEvent_cLEDs_nonneg e now) (by norm_num)]
  have h35 : ((NUMBER_USED_PIXELS / 2 : Nat) : Int) = 35 := by decide
  rw [h35]
  have hne : CRGB.ofCode Black ≠ CRGB.ofCode White := by decide
  constructor
  · intro h
    by_contra hc
    rw [if_pos (by omega)] at h
    exact hne h
  · intro h
    rw [if_neg (by omega)]

/-- C18, the code at a failing input.  The backup input rises at tick 1000 and the poll at
clock 1031 calls `Begin()`; the `Draw()` at the same clock value has elapsed time 0 and
computes `cLEDs = 0`, yet it writes white to the centre pixel 35 (and black to the other
69), because the lit range `iFirst .. iLast` includes both of its ends. -/
theorem backup_lights_centre_at_zero (x : External) (s : Strip) :
    backupPressed.GetActive = true
    ∧ subU32 1031 backupPressed._eventStart = 0
    ∧ BackupEvent.cLEDs backupPressed 1031 = 0
    ∧ (backupPressed.Draw x 1031 s).2 35 = CRGB.ofCode White
    ∧ (∀ j : Int, 0 ≤ j → j < (NUMBER_USED_PIXELS : Int) → j ≠ 35 →
        (backupPressed.Draw x 1031 s).2 j = CRGB.ofCode Black)
    ∧ BackupEvent.litCount backupPressed 1031 = 1 := by
  have ha : backupPressed.GetActive = true := by decide
  have h0 : subU32 1031 backupPressed._eventStart = 0 := by decide
  have hc : BackupEvent.cLEDs backupPressed 1031 = 0 := BackupEvent_cLEDs_of_zero _ _ h0
  have hd : ∀ t : Strip, (backupPressed.Draw x 1031 t).2 = BackupEvent.Draw backupPressed 1031 t := by
    intro t
    have hk : backupPressed.kind = Kind.Backup := by decide
    unfold LightingEvent.Draw
    rw [hk]
  have hw : ∀ (t : Strip) (j : Int), 0 ≤ j → j < (NUMBER_USED_PIXELS : Int) →
      (BackupEvent.Draw backupPressed 1031 t j = CRGB.ofCode White ↔ j = 35) := by
    intro t j hj0 hj1
    rw [BackupEvent_Draw_white_iff _ _ _ _ ha hj0 hj1, hc]
    omega
  refine ⟨ha, h0, hc, ?_, ?_, ?_⟩
  · rw [hd]
    exact (hw s 35 (by norm_num) (by decide)).mpr rfl
  · intro j hj0 hj1 hne
    rw [hd, BackupEvent_Draw_apply _ _ _ _ ha hj0 hj1]
    have hnw := mt (hw s j hj0 hj1).mp hne
    rw [BackupEvent_Draw_apply _ _ _ _ ha hj0 hj1] at hnw
    split_ifs at hnw ⊢
    · rfl
    · exact absurd rfl hnw
  · unfold BackupEvent.litCount
    have hcongr : (List.range NUMBER_USED_PIXELS).countP
        (fun (i : Nat) =>
          decide (BackupEvent.Draw backupPressed 1031 blackStrip (i : Int) = CRGB.ofCode White))
        = (List.range NUMBER_USED_PIXELS).countP (fun (i : Nat) => decide (i = 35)) := by
      apply List.countP_congr
      intro i hi
      have hi' : i < NUMBER_USED_PIXELS := List.mem_range.mp hi
      have := hw blackStrip (i : Int) (Int.natCast_nonneg i) (by exact_mod_cast hi')
      simp only [decide_eq_true_eq]
      rw [this]
      exact_mod_cast Iff.rfl
    rw [hcongr]
    decide

/-- C19. Once 250 ms or more have elapsed since `_eventStart`, `BackupEvent::Draw` of an
active effect leaves full white, and so not black, in every pixel of
`[0, NUMBER_USED_PIXELS)`; all `NUMBER_USED_PIXELS` pixels are lit. -/
theorem backup_fully_bloomed (e : LightingEvent) (now : Nat) (s : Strip)
    (ha : e.GetActive = true) (h : 250 ≤ subU32 now e._eventStart) :
    (∀ j : Int, 0 ≤ j → j < (NUMBER_USED_PIXELS : Int) →
        BackupEvent.Draw e now s j = CRGB.ofCode White
          ∧ BackupEvent.Draw e now s j ≠ CRGB.ofCode Black)
    ∧ BackupEvent.litCount e now = NUMBER_USED_PIXELS := by
  have hc := BackupEvent_cLEDs_of_bloomed e now h
  have hw : ∀ (t : Strip) (j : Int), 0 ≤ j → j < (NUMBER_USED_PIXELS : Int) →
      BackupEvent.Draw e now t j = CRGB.ofCode White := by
    intro t j hj0 hj1
    rw [BackupEvent_Draw_white_iff _ _ _ _ ha hj0 hj1, hc]
    have : (NUMBER_USED_PIXELS : Int) = 70 := by decide
    omega
  constructor
  · intro j hj0 hj1
    refine ⟨hw s j hj0 hj1, ?_⟩
    rw [hw s j hj0 hj1]
    decide
  · unfold BackupEvent.litCount
    have hall : ∀ i ∈ List.range NUMBER_USED_PIXELS,
        (fun (i : Nat) =>
          decide (BackupEvent.Draw e now blackStrip (i : Int) = CRGB.ofCode White)) i = true := by
      intro i hi
      have hi' : i < NUMBER_USED_PIXELS := List.mem_range.mp hi
      simp only [decide_eq_true_eq]
      exact hw blackStrip (i : Int) (Int.natCast_nonneg i) (by exact_mod_cast hi')
    rw [List.countP_eq_length.mpr hall, List.length_range]

theorem backup_fully_bloomed_witness :
    (∀ j : Int, 0 ≤ j → j < (NUMBER_USED_PIXELS : Int) →
        BackupEvent.Draw backupPressed 1281 blackStrip j = CRGB.ofCode White
          ∧ BackupEvent.Draw backupPressed 1281 blackStrip j ≠ CRGB.ofCode Black)
    ∧ BackupEvent.litCount backupPressed 1281 = NUMBER_USED_PIXELS :=
  backup_fully_bloomed backupPressed 1281 blackStrip (by decide) (by decide)

/-- C20. For an active backup effect and two clock values of which the second has at least
as many elapsed milliseconds as the first, every pixel of `[0, NUMBER_USED_PIXELS)` that
`BackupEvent::Draw` leaves white at the first is left white at the second, and the number
of white pixels does not decrease. -/
theorem backup_bloom_monotone (e : LightingEvent) (now₁ now₂ : Nat) (s₁ s₂ : Strip)
    (ha : e.GetActive = true)
    (h : subU32 now₁ e._eventStart ≤ subU32 now₂ e._eventStart) :
    (∀ j : Int, 0 ≤ j → j < (NUMBER_USED_PIXELS : Int) →
        BackupEvent.Draw e now₁ s₁ j = CRGB.ofCode White →
        BackupEvent.Draw e now₂ s₂ j = CRGB.ofCode White)
    ∧ BackupEvent.litCount e now₁ ≤ BackupEvent.litCount e now₂ := by
  have hm := BackupEvent_cLEDs_mono e now₁ now₂ h
  have h0 := BackupEvent_cLEDs_nonneg e now₁
  have key : ∀ (t₁ t₂ : Strip) (j : Int), 0 ≤ j → j < (NUMBER_USED_PIXELS : Int) →
      BackupEvent.Draw e now₁ t₁ j = CRGB.ofCode White →
      BackupEvent.Draw e now₂ t₂ j = CRGB.ofCode White := by
    intro t₁ t₂ j hj0 hj1 hw
    rw [BackupEvent_Draw_white_iff _ _ _ _ ha hj0 hj1] at hw ⊢
    omega
  refine ⟨key s₁ s₂, ?_⟩
  unfold BackupEvent.litCount
  apply List.countP_mono_left
  intro i hi hp
  have hi' : i < NUMBER_USED_PIXELS := List.mem_range.mp hi
  simp only [decide_eq_true_eq] at hp ⊢
  exact key blackStrip blackStrip (i : Int) (Int.natCast_nonneg i) (by exact_mod_cast hi') hp

theorem backup_bloom_monotone_witness :
    (∀ j : Int, 0 ≤ j → j < (NUMBER_USED_PIXELS : Int) →
        BackupEvent.Draw backupPressed 1100 blackStrip j = CRGB.ofCode White →
        BackupEvent.Draw backupPressed 1200 blackStrip j = CRGB.ofCode White)
    ∧ BackupEvent.litCount backupPressed 1100 ≤ BackupEvent.litCount backupPressed 1200 :=
  backup_bloom_monotone backupPressed 1100 1200 blackStrip blackStrip (by decide) (by decide)

/-! ## The durations and partial sums of the police frame table -/

theorem roundHalfEven_of_half_even (m : ℚ) (f : Int) (h : m = f + 1 / 2) (hev : f % 2 = 0) :
    roundHalfEven m = f := by
  have hf : ⌊m⌋ = f := by
    rw [Int.floor_eq_iff]
    constructor
    · linarith
    · linarith
  unfold roundHalfEven
  simp only [hf]
  rw [if_neg (by linarith), if_neg (by linarith), if_pos hev]

theorem f64_three_tenths : f64 (30 / 100) = 5404319552844595 / 18014398509481984 := by
  have := roundBinary_eq 53 (-1022) (30 / 100) (-2) 5404319552844595 (by norm_num) (by norm_num)
    (by norm_num) (roundHalfEven_of_lt_half _ 5404319552844595 (by norm_num) (by norm_num))
  rw [f64, this]
  norm_num

theorem f64_four_hundredths : f64 (4 / 100) = 5764607523034235 / 144115188075855872 := by
  have := roundBinary_eq 53 (-1022) (4 / 100) (-5) 5764607523034235 (by norm_num) (by norm_num)
    (by norm_num) (roundHalfEven_of_gt_half _ 5764607523034234 (by norm_num) (by norm_num))
  rw [f64, this]
  norm_num

theorem longPulse_val : longPulse = 5033165 / 16777216 := by
  unfold longPulse
  rw [f64_three_tenths]
  have := roundBinary_eq 24 (-126) (5404319552844595 / 18014398509481984) (-2) 10066330 (by norm_num) (by norm_num)
    (by norm_num) (roundHalfEven_of_gt_half _ 10066329 (by norm_num) (by norm_num))
  rw [f32, this]
  norm_num

theorem shortPulse_val : shortPulse = 5368709 / 134217728 := by
  unfold shortPulse
  rw [f64_four_hundredths]
  have := roundBinary_eq 24 (-126) (5764607523034235 / 144115188075855872) (-5) 10737418 (by norm_num) (by norm_num)
    (by norm_num) (roundHalfEven_of_lt_half _ 10737418 (by norm_num) (by norm_num))
  rw [f32, this]
  norm_num

/-- The durations of the table: ten long pulses, fifteen short pulses, then zeros. -/
theorem durationAt_val (k : Nat) :
    PoliceLightBar.durationAt k
      = if k < 10 then longPulse else if k < 25 then shortPulse else 0 := by
  by_cases h : k < 32
  · interval_cases k <;> rfl
  · have hlen : PoliceLightBar._PoliceBarStates1.length = 32 := by decide
    unfold PoliceLightBar.durationAt
    rw [List.getD_eq_default _ _ (by omega)]
    rw [if_neg (by omega), if_neg (by omega)]

theorem sofarAt_0 : PoliceLightBar.sofarAt 0 = 0 := f32_zero

theorem sofarAt_1 : PoliceLightBar.sofarAt 1 = 5033165 / 16777216 := by
  show f32 (PoliceLightBar.sofarAt 0 + PoliceLightBar.durationAt 0) = _
  rw [sofarAt_0, durationAt_val, if_pos (by norm_num), longPulse_val]
  have := roundBinary_eq 24 (-126) (0 + 5033165 / 16777216) (-2) 10066330 (by norm_num) (by norm_num)
    (by norm_num) (roundHalfEven_of_lt_half _ 10066330 (by norm_num) (by norm_num))
  rw [f32, this]
  norm_num

theorem sofarAt_2 : PoliceLightBar.sofarAt 2 = 5033165 / 8388608 := by
  show f32 (PoliceLightBar.sofarAt 1 + PoliceLightBar.durationAt 1) = _
  rw [sofarAt_1, durationAt_val, if_pos (by norm_num), longPulse_val]
  have := roundBinary_eq 24 (-126) (5033165 / 16777216 + 5033165 / 16777216) (-1) 10066330 (by norm_num) (by norm_num)
    (by norm_num) (roundHalfEven_of_lt_half _ 10066330 (by norm_num) (by norm_num))
  rw [f32, this]
  norm_num

theorem sofarAt_3 : PoliceLightBar.sofarAt 3 = 15099495 / 16777216 := by
  show f32 (PoliceLightBar.sofarAt 2 + PoliceLightBar.durationAt 2) = _
  rw [sofarAt_2, durationAt_val, if_pos (by norm_num), longPulse_val]
  have := roundBinary_eq 24 (-126) (5033165 / 8388608 + 5033165 / 16777216) (-1) 15099495 (by norm_num) (by norm_num)
    (by norm_num) (roundHalfEven_of_lt_half _ 15099495 (by norm_num) (by norm_num))
  rw [f32, this]
  norm_num

theorem sofarAt_4 : PoliceLightBar.sofarAt 4 = 5033165 / 4194304 := by
  show f32 (PoliceLightBar.sofarAt 3 + PoliceLightBar.durationAt 3) = _
  rw [sofarAt_3, durationAt_val, if_pos (by norm_num), longPulse_val]
  have := roundBinary_eq 24 (-126) (15099495 / 16777216 + 5033165 / 16777216) 0 10066330 (by norm_num) (by norm_num)
    (by norm_num) (roundHalfEven_of_lt_half _ 10066330 (by norm_num) (by norm_num))
  rw [f32, this]
  norm_num

theorem sofarAt_5 : PoliceLightBar.sofarAt 5 = 3 / 2 := by
  show f32 (PoliceLightBar.sofarAt 4 + PoliceLightBar.durationAt 4) = _
  rw [sofarAt_4, durationAt_val, if_pos (by norm_num), longPulse_val]
  have := roundBinary_eq 24 (-126) (5033165 / 4194304 + 5033165 / 16777216) 0 12582912 (by norm_num) (by norm_num)
    (by norm_num) (roundHalfEven_of_half_even _ 12582912 (by norm_num) (by norm_num))
  rw [f32, this]
  norm_num

theorem sofarAt_6 : PoliceLightBar.sofarAt 6 = 7549747 / 4194304 := by
  show f32 (PoliceLightBar.sofarAt 5 + PoliceLightBar.durationAt 5) = _
  rw [sofarAt_5, durationAt_val, if_pos (by norm_num), longPulse_val]
  have := roundBinary_eq 24 (-126) (3 / 2 + 5033165 / 16777216) 0 15099494 (by norm_num) (by norm_num)
    (by norm_num) (roundHalfEven_of_half_even _ 15099494 (by norm_num) (by norm_num))
  rw [f32, this]
  norm_num

theorem sofarAt_7 : PoliceLightBar.sofarAt 7 = 4404019 / 2097152 := by
  show f32 (PoliceLightBar.sofarAt 6 + PoliceLightBar.durationAt 6) = _
  rw [sofarAt_6, durationAt_val, if_pos (by norm_num), longPulse_val]
  have := roundBinary_eq 24 (-126) (7549747 / 4194304 + 5033165 / 16777216) 1 8808038 (by norm_num) (by norm_num)
    (by norm_num) (roundHalfEven_of_lt_half _ 8808038 (by norm_num) (by norm_num))
  rw [f32, this]
  norm_num

theorem sofarAt_8 : PoliceLightBar.sofarAt 8 = 10066329 / 4194304 := by
  show f32 (PoliceLightBar.sofarAt 7 + PoliceLightBar.durationAt 7) = _
  rw [sofarAt_7, durationAt_val, if_pos (by norm_num), longPulse_val]
  have := roundBinary_eq 24 (-126) (4404019 / 2097152 + 5033165 / 16777216) 1 10066329 (by norm_num) (by norm_num)
    (by norm_num) (roundHalfEven_of_lt_half _ 10066329 (by norm_num) (by norm_num))
  rw [f32, this]
  norm_num

theorem sofarAt_9 : PoliceLightBar.sofarAt 9 = 2831155 / 1048576 := by
  show f32 (PoliceLightBar.sofarAt 8 + PoliceLightBar.durationAt 8) = _
  rw [sofarAt_8, durationAt_val, if_pos (by norm_num), longPulse_val]
  have := roundBinary_eq 24 (-126) (10066329 / 4194304 + 5033165 / 16777216) 1 11324620 (by norm_num) (by norm_num)
    (by norm_num) (roundHalfEven_of_lt_half _ 11324620 (by norm_num) (by norm_num))
  rw [f32, this]
  norm_num

theorem sofarAt_10 : PoliceLightBar.sofarAt 10 = 12582911 / 4194304 := by
  show f32 (PoliceLightBar.sofarAt 9 + PoliceLightBar.durationAt 9) = _
  rw [sofarAt_9, durationAt_val, if_pos (by norm_num), longPulse_val]
  have := roundBinary_eq 24 (-126) (2831155 / 1048576 + 5033165 / 16777216) 1 12582911 (by norm_num) (by norm_num)
    (by norm_num) (roundHalfEven_of_lt_half _ 12582911 (by norm_num) (by norm_num))
  rw [f32, this]
  norm_num

theorem sofarAt_11 : PoliceLightBar.sofarAt 11 = 12750683 / 4194304 := by
  show f32 (PoliceLightBar.sofarAt 10 + PoliceLightBar.durationAt 10) = _
  rw [sofarAt_10, durationAt_val, if_neg (by norm_num), if_pos (by norm_num), shortPulse_val]
  have := roundBinary_eq 24 (-126) (12582911 / 4194304 + 5368709 / 134217728) 1 12750683 (by norm_num) (by norm_num)
    (by norm_num) (roundHalfEven_of_lt_half _ 12750683 (by norm_num) (by norm_num))
  rw [f32, this]
  norm_num

theorem sofarAt_12 : PoliceLightBar.sofarAt 12 = 12918455 / 4194304 := by
  show f32 (PoliceLightBar.sofarAt 11 + PoliceLightBar.durationAt 11) = _
  rw [sofarAt_11, durationAt_val, if_neg (by norm_num), if_pos (by norm_num), shortPulse_val]
  have := roundBinary_eq 24 (-126) (12750683 / 4194304 + 5368709 / 134217728) 1 12918455 (by norm_num) (by norm_num)
    (by norm_num) (roundHalfEven_of_lt_half _ 12918455 (by norm_num) (by norm_num))
  rw [f32, this]
  norm_num

theorem sofarAt_13 : PoliceLightBar.sofarAt 13 = 13086227 / 4194304 := by
  show f32 (PoliceLightBar.sofarAt 12 + PoliceLightBar.durationAt 12) = _
  rw [sofarAt_12, durationAt_val, if_neg (by norm_num), if_pos (by norm_num), shortPulse_val]
  have := roundBinary_eq 24 (-126) (12918455 / 4194304 + 5368709 / 134217728) 1 13086227 (by norm_num) (by norm_num)
    (by norm_num) (roundHalfEven_of_lt_half _ 13086227 (by norm_num) (by norm_num))
  rw [f32, this]
  norm_num

theorem sofarAt_14 : PoliceLightBar.sofarAt 14 = 13253999 / 4194304 := by
  show f32 (PoliceLightBar.sofarAt 13 + PoliceLightBar.durationAt 13) = _
  rw [sofarAt_13, durationAt_val, if_neg (by norm_num), if_pos (by norm_num), shortPulse_val]
  have := roundBinary_eq 24 (-126) (13086227 / 4194304 + 5368709 / 134217728) 1 13253999 (by norm_num) (by norm_num)
    (by norm_num) (roundHalfEven_of_lt_half _ 13253999 (by norm_num) (by norm_num))
  rw [f32, this]
  norm_num

theorem sofarAt_15 : PoliceLightBar.sofarAt 15 = 13421771 / 4194304 := by
  show f32 (PoliceLightBar.sofarAt 14 + PoliceLightBar.durationAt 14) = _
  rw [sofarAt_14, durationAt_val, if_neg (by norm_num), if_pos (by norm_num), shortPulse_val]
  have := roundBinary_eq 24 (-126) (13253999 / 4194304 + 5368709 / 134217728) 1 13421771 (by norm_num) (by norm_num)
    (by norm_num) (roundHalfEven_of_lt_half _ 13421771 (by norm_num) (by norm_num))
  rw [f32, this]
  norm_num

theorem sofarAt_16 : PoliceLightBar.sofarAt 16 = 13589543 / 4194304 := by
  show f32 (PoliceLightBar.sofarAt 15 + PoliceLightBar.durationAt 15) = _
  rw [sofarAt_15, durationAt_val, if_neg (by norm_num), if_pos (by norm_num), shortPulse_val]
  have := roundBinary_eq 24 (-126) (13421771 / 4194304 + 5368709 / 134217728) 1 13589543 (by norm_num) (by norm_num)
    (by norm_num) (roundHalfEven_of_lt_half _ 13589543 (by norm_num) (by norm_num))
  rw [f32, this]
  norm_num

theorem sofarAt_17 : PoliceLightBar.sofarAt 17 = 13757315 / 4194304 := by
  show f32 (PoliceLightBar.sofarAt 16 + PoliceLightBar.durationAt 16) = _
  rw [sofarAt_16, durationAt_val, if_neg (by norm_num), if_pos (by norm_num), shortPulse_val]
  have := roundBinary_eq 24 (-126) (13589543 / 4194304 + 5368709 / 134217728) 1 13757315 (by norm_num) (by norm_num)
    (by norm_num) (roundHalfEven_of_lt_half _ 13757315 (by norm_num) (by norm_num))
  rw [f32, this]
  norm_num

theorem sofarAt_18 : PoliceLightBar.sofarAt 18 = 13925087 / 4194304 := by
  show f32 (PoliceLightBar.sofarAt 17 + PoliceLightBar.durationAt 17) = _
  rw [sofarAt_17, durationAt_val, if_neg (by norm_num), if_pos (by norm_num), shortPulse_val]
  have := roundBinary_eq 24 (-126) (13757315 / 4194304 + 5368709 / 134217728) 1 13925087 (by norm_num) (by norm_num)
    (by norm_num) (roundHalfEven_of_lt_half _ 13925087 (by norm_num) (by norm_num))
  rw [f32, this]
  norm_num

theorem sofarAt_19 : PoliceLightBar.sofarAt 19 = 14092859 / 4194304 := by
  show f32 (PoliceLightBar.sofarAt 18 + PoliceLightBar.durationAt 18) = _
  rw [sofarAt_18, durationAt_val, if_neg (by norm_num), if_pos (by norm_num), shortPulse_val]
  have := roundBinary_eq 24 (-126) (13925087 / 4194304 + 5368709 / 134217728) 1 14092859 (by norm_num) (by norm_num)
    (by norm_num) (roundHalfEven_of_lt_half _ 14092859 (by norm_num) (by norm_num))
  rw [f32, this]
  norm_num

theorem sofarAt_20 : PoliceLightBar.sofarAt 20 = 14260631 / 4194304 := by
  show f32 (PoliceLightBar.sofarAt 19 + PoliceLightBar.durationAt 19) = _
  rw [sofarAt_19, durationAt_val, if_neg (by norm_num), if_pos (by norm_num), shortPulse_val]
  have := roundBinary_eq 24 (-126) (14092859 / 4194304 + 5368709 / 134217728) 1 14260631 (by norm_num) (by norm_num)
    (by norm_num) (roundHalfEven_of_lt_half _ 14260631 (by norm_num) (by norm_num))
  rw [f32, this]
  norm_num

theorem sofarAt_21 : PoliceLightBar.sofarAt 21 = 14428403 / 4194304 := by
  show f32 (PoliceLightBar.sofarAt 20 + PoliceLightBar.durationAt 20) = _
  rw [sofarAt_20, durationAt_val, if_neg (by norm_num), if_pos (by norm_num), shortPulse_val]
  have := roundBinary_eq 24 (-126) (14260631 / 4194304 + 5368709 / 134217728) 1 14428403 (by norm_num) (by norm_num)
    (by norm_num) (roundHalfEven_of_lt_half _ 14428403 (by norm_num) (by norm_num))
  rw [f32, this]
  norm_num

theorem sofarAt_22 : PoliceLightBar.sofarAt 22 = 14596175 / 4194304 := by
  show f32 (PoliceLightBar.sofarAt 21 + PoliceLightBar.durationAt 21) = _
  rw [sofarAt_21, durationAt_val, if_neg (by norm_num), if_pos (by norm_num), shortPulse_val]
  have := roundBinary_eq 24 (-126) (14428403 / 4194304 + 5368709 / 134217728) 1 14596175 (by norm_num) (by norm_num)
    (by norm_num) (roundHalfEven_of_lt_half _ 14596175 (by norm_num) (by norm_num))
  rw [f32, this]
  norm_num

theorem sofarAt_23 : PoliceLightBar.sofarAt 23 = 14763947 / 4194304 := by
  show f32 (PoliceLightBar.sofarAt 22 + PoliceLightBar.durationAt 22) = _
  rw [sofarAt_22, durationAt_val, if_neg (by norm_num), if_pos (by norm_num), shortPulse_val]
  have := roundBinary_eq 24 (-126) (14596175 / 4194304 + 5368709 / 134217728) 1 14763947 (by norm_num) (by norm_num)
    (by norm_num) (roundHalfEven_of_lt_half _ 14763947 (by norm_num) (by norm_num))
  rw [f32, this]
  norm_num

theorem sofarAt_24 : PoliceLightBar.sofarAt 24 = 14931719 / 4194304 := by
  show f32 (PoliceLightBar.sofarAt 23 + PoliceLightBar.durationAt 23) = _
  rw [sofarAt_23, durationAt_val, if_neg (by norm_num), if_pos (by norm_num), shortPulse_val]
  have := roundBinary_eq 24 (-126) (14763947 / 4194304 + 5368709 / 134217728) 1 14931719 (by norm_num) (by norm_num)
    (by norm_num) (roundHalfEven_of_lt_half _ 14931719 (by norm_num) (by norm_num))
  rw [f32, this]
  norm_num

theorem sofarAt_25 : PoliceLightBar.sofarAt 25 = 15099491 / 4194304 := by
  show f32 (PoliceLightBar.sofarAt 24 + PoliceLightBar.durationAt 24) = _
  rw [sofarAt_24, durationAt_val, if_neg (by norm_num), if_pos (by norm_num), shortPulse_val]
  have := roundBinary_eq 24 (-126) (14931719 / 4194304 + 5368709 / 134217728) 1 15099491 (by norm_num) (by norm_num)
    (by norm_num) (roundHalfEven_of_lt_half _ 15099491 (by norm_num) (by norm_num))
  rw [f32, this]
  norm_num

theorem sofarAt_26 : PoliceLightBar.sofarAt 26 = 15099491 / 4194304 := by
  show f32 (PoliceLightBar.sofarAt 25 + PoliceLightBar.durationAt 25) = _
  rw [sofarAt_25, durationAt_val, if_neg (by norm_num), if_neg (by norm_num)]
  have := roundBinary_eq 24 (-126) (15099491 / 4194304 + 0) 1 15099491 (by norm_num) (by norm_num)
    (by norm_num) (roundHalfEven_of_lt_half _ 15099491 (by norm_num) (by norm_num))
  rw [f32, this]
  norm_num

theorem sofarAt_27 : PoliceLightBar.sofarAt 27 = 15099491 / 4194304 := by
  show f32 (PoliceLightBar.sofarAt 26 + PoliceLightBar.durationAt 26) = _
  rw [sofarAt_26, durationAt_val, if_neg (by norm_num), if_neg (by norm_num)]
  have := roundBinary_eq 24 (-126) (15099491 / 4194304 + 0) 1 15099491 (by norm_num) (by norm_num)
    (by norm_num) (roundHalfEven_of_lt_half _ 15099491 (by norm_num) (by norm_num))
  rw [f32, this]
  norm_num

theorem sofarAt_28 : PoliceLightBar.sofarAt 28 = 15099491 / 4194304 := by
  show f32 (PoliceLightBar.sofarAt 27 + PoliceLightBar.durationAt 27) = _
  rw [sofarAt_27, durationAt_val, if_neg (by norm_num), if_neg (by norm_num)]
  have := roundBinary_eq 24 (-126) (15099491 / 4194304 + 0) 1 15099491 (by norm_num) (by norm_num)
    (by norm_num) (roundHalfEven_of_lt_half _ 15099491 (by norm_num) (by norm_num))
  rw [f32, this]
  norm_num

theorem sofarAt_29 : PoliceLightBar.sofarAt 29 = 15099491 / 4194304 := by
  show f32 (PoliceLightBar.sofarAt 28 + PoliceLightBar.durationAt 28) = _
  rw [sofarAt_28, durationAt_val, if_neg (by norm_num), if_neg (by norm_num)]
  have := roundBinary_eq 24 (-126) (15099491 / 4194304 + 0) 1 15099491 (by norm_num) (by norm_num)
    (by norm_num) (roundHalfEven_of_lt_half _ 15099491 (by norm_num) (by norm_num))
  rw [f32, this]
  norm_num

theorem sofarAt_30 : PoliceLightBar.sofarAt 30 = 15099491 / 4194304 := by
  show f32 (PoliceLightBar.sofarAt 29 + PoliceLightBar.durationAt 29) = _
  rw [sofarAt_29, durationAt_val, if_neg (by norm_num), if_neg (by norm_num)]
  have := roundBinary_eq 24 (-126) (15099491 / 4194304 + 0) 1 15099491 (by norm_num) (by norm_num)
    (by norm_num) (roundHalfEven_of_lt_half _ 15099491 (by norm_num) (by norm_num))
  rw [f32, this]
  norm_num

theorem sofarAt_31 : PoliceLightBar.sofarAt 31 = 15099491 / 4194304 := by
  show f32 (PoliceLightBar.sofarAt 30 + PoliceLightBar.durationAt 30) = _
  rw [sofarAt_30, durationAt_val, if_neg (by norm_num), if_neg (by norm_num)]
  have := roundBinary_eq 24 (-126) (15099491 / 4194304 + 0) 1 15099491 (by norm_num) (by norm_num)
    (by norm_num) (roundHalfEven_of_lt_half _ 15099491 (by norm_num) (by norm_num))
  rw [f32, this]
  norm_num

theorem sofarAt_32 : PoliceLightBar.sofarAt 32 = 15099491 / 4194304 := by
  show f32 (PoliceLightBar.sofarAt 31 + PoliceLightBar.durationAt 31) = _
  rw [sofarAt_31, durationAt_val, if_neg (by norm_num), if_neg (by norm_num)]
  have := roundBinary_eq 24 (-126) (15099491 / 4194304 + 0) 1 15099491 (by norm_num) (by norm_num)
    (by norm_num) (roundHalfEven_of_lt_half _ 15099491 (by norm_num) (by norm_num))
  rw [f32, this]
  norm_num

/-! ## The police bar -/

theorem foldl_durations (n : Nat) :
    (List.range n).foldl
      (fun (total : ℚ) (i : Nat) => f32 (total + PoliceLightBar.durationAt i)) (f32 0)
      = PoliceLightBar.sofarAt n := by
  induction n with
  | zero => rfl
  | succ n ih =>
    rw [List.range_succ, List.foldl_append, List.foldl_cons, List.foldl_nil, ih]
    rfl

theorem TotalCycleTime_eq_sofarAt :
    PoliceLightBar._TotalCycleTime = PoliceLightBar.sofarAt PoliceLightBar.ARRAYSIZE := by
  unfold PoliceLightBar._TotalCycleTime
  exact foldl_durations _

theorem TotalCycleTime_val : PoliceLightBar._TotalCycleTime = 15099491 / 4194304 := by
  rw [TotalCycleTime_eq_sofarAt]
  exact sofarAt_32

theorem durations_sum :
    ((List.range PoliceLightBar.ARRAYSIZE).map PoliceLightBar.durationAt).sum
      = 483183835 / 134217728 := by
  have h : List.range PoliceLightBar.ARRAYSIZE = List.range 32 := rfl
  rw [h]
  simp only [List.range_succ, List.range_zero, List.nil_append, List.cons_append,
    List.map_cons, List.map_nil, List.sum_cons, List.sum_nil, durationAt_val]
  norm_num [longPulse_val, shortPulse_val]

theorem fmod_zero_left (y : ℚ) : fmod 0 y = 0 := by
  unfold fmod truncInt
  simp

theorem PoliceLightBar_row_zero : PoliceLightBar.row 0 = -1 := by
  unfold PoliceLightBar.row PoliceLightBar.ARRAYSIZE
  rw [PoliceLightBar.scan, if_neg (by rw [f32_zero]; simp)]
  rfl

/-- What `PoliceLightBar::Draw` of an active effect leaves in a pixel of the strip. -/
theorem PoliceLightBar_Draw_apply (x : External) (e : LightingEvent) (now : Nat) (s : Strip)
    (j : Int) (ha : e.GetActive = true) (h0 : 0 ≤ j) (h1 : j < (NUMBER_USED_PIXELS : Int)) :
    PoliceLightBar.Draw x e now s j
      = CRGB.ofCode (PoliceLightBar.colorWord x
          (PoliceLightBar.row (PoliceLightBar.fCyclePosition e now))
          (j.toNat / PoliceLightBar.sectionSize)) := by
  unfold PoliceLightBar.Draw
  rw [if_neg (by simp [ha])]
  dsimp only
  rw [foldl_range_paint _
    (fun i => CRGB.ofCode (PoliceLightBar.colorWord x
      (PoliceLightBar.row (PoliceLightBar.fCyclePosition e now))
      (i / PoliceLightBar.sectionSize)))
    (by intro s i _; rfl) NUMBER_USED_PIXELS (by decide) s j]
  rw [if_pos ⟨h0, h1⟩]

theorem Draw_of_police (x : External) (e : LightingEvent) (now : Nat) (s : Strip)
    (hk : e.kind = Kind.Police) :
    (e.Draw x now s).2 = PoliceLightBar.Draw x e now s := by
  unfold LightingEvent.Draw
  rw [hk]

/-- C17. The `_TotalCycleTime` that the constructor of `PoliceLightBar` computes is the
running `float` total of the 32 durations of the table (ten of `0.30f`, fifteen of `0.04f`,
seven zeros), each addition rounded to `float`; its value is 15099491/4194304, which is
within one millionth of 3.6 s and of the exact sum of the durations. -/
theorem police_total_cycle_time :
    PoliceLightBar._TotalCycleTime = PoliceLightBar.sofarAt PoliceLightBar.ARRAYSIZE
    ∧ (∀ k, PoliceLightBar.durationAt k
        = if k < 10 then longPulse else if k < 25 then shortPulse else 0)
    ∧ PoliceLightBar._TotalCycleTime = 15099491 / 4194304
    ∧ |PoliceLightBar._TotalCycleTime - 36 / 10| < 1 / 1000000
    ∧ |PoliceLightBar._TotalCycleTime
        - ((List.range PoliceLightBar.ARRAYSIZE).map PoliceLightBar.durationAt).sum|
        < 1 / 1000000 := by
  refine ⟨TotalCycleTime_eq_sofarAt, durationAt_val, TotalCycleTime_val, ?_, ?_⟩
  · rw [TotalCycleTime_val, abs_lt]
    constructor <;> norm_num
  · rw [TotalCycleTime_val, durations_sum, abs_lt]
    constructor <;> norm_num

/-- C17, counterexample. The computed `_TotalCycleTime` is not 3.6, is not the `float`
nearest to 3.6, and is not the sum of the durations of the rows of the table. -/
theorem police_total_cycle_time_not_exact :
    PoliceLightBar._TotalCycleTime ≠ 36 / 10
    ∧ PoliceLightBar._TotalCycleTime ≠ f32 (36 / 10)
    ∧ PoliceLightBar._TotalCycleTime
        ≠ ((List.range PoliceLightBar.ARRAYSIZE).map PoliceLightBar.durationAt).sum := by
  have h36 : f32 (36 / 10) = 7549747 / 2097152 := by
    have := roundBinary_eq 24 (-126) (36 / 10) 1 15099494 (by norm_num) (by norm_num)
      (by norm_num) (roundHalfEven_of_lt_half _ 15099494 (by norm_num) (by norm_num))
    rw [f32, this]
    norm_num
  rw [TotalCycleTime_val, durations_sum, h36]
  refine ⟨?_, ?_, ?_⟩ <;> norm_num

/-- C14. For an active police bar whose elapsed time is 0, the cycle position is 0, the row
scan of `PoliceLightBar::Draw` does not run and the `row--` after it leaves `row = -1`;
every pixel of the strip is painted with a word read before the start of the table. -/
theorem police_row_at_elapsed_zero (x : External) (e : LightingEvent) (now : Nat) (s : Strip)
    (j : Int) (hk : e.kind = Kind.Police) (ha : e.GetActive = true)
    (h0 : e.TimeElapsedTotal now = 0) (hj0 : 0 ≤ j) (hj1 : j < (NUMBER_USED_PIXELS : Int)) :
    PoliceLightBar.fCyclePosition e now = 0
    ∧ PoliceLightBar.row (PoliceLightBar.fCyclePosition e now) = -1
    ∧ PoliceLightBar.row (PoliceLightBar.fCyclePosition e now) ≠ 0
    ∧ (e.Draw x now s).2 j
        = CRGB.ofCode (x.outsideTable (-1) (j.toNat / PoliceLightBar.sectionSize)) := by
  have hp : PoliceLightBar.fCyclePosition e now = 0 := by
    unfold PoliceLightBar.fCyclePosition
    rw [h0, fmod_zero_left]
  refine ⟨hp, ?_, ?_, ?_⟩
  · rw [hp, PoliceLightBar_row_zero]
  · rw [hp, PoliceLightBar_row_zero]
    decide
  · rw [Draw_of_police x e now s hk, PoliceLightBar_Draw_apply x e now s j ha hj0 hj1, hp,
      PoliceLightBar_row_zero]
    unfold PoliceLightBar.colorWord
    rw [if_neg (by omega)]

theorem police_row_at_elapsed_zero_witness :
    PoliceLightBar.fCyclePosition emergencyPressed 1031 = 0
    ∧ PoliceLightBar.row (PoliceLightBar.fCyclePosition emergencyPressed 1031) = -1
    ∧ PoliceLightBar.row (PoliceLightBar.fCyclePosition emergencyPressed 1031) ≠ 0
    ∧ (emergencyPressed.Draw External.zero 1031 blackStrip).2 0
        = CRGB.ofCode (External.zero.outsideTable (-1)
            ((0 : Int).toNat / PoliceLightBar.sectionSize)) :=
  police_row_at_elapsed_zero External.zero emergencyPressed 1031 blackStrip 0 (by decide)
    (by decide) (TimeElapsedTotal_of_zero _ _ (by decide)) (by decide) (by decide)

theorem sofarAt_step_mono (k : Nat) (hk : k < 32) :
    PoliceLightBar.sofarAt k ≤ PoliceLightBar.sofarAt (k + 1) := by
  interval_cases k <;>
    norm_num [sofarAt_0, sofarAt_1, sofarAt_2, sofarAt_3, sofarAt_4, sofarAt_5, sofarAt_6, sofarAt_7, sofarAt_8, sofarAt_9, sofarAt_10, sofarAt_11, sofarAt_12, sofarAt_13, sofarAt_14, sofarAt_15, sofarAt_16, sofarAt_17, sofarAt_18, sofarAt_19, sofarAt_20, sofarAt_21, sofarAt_22, sofarAt_23, sofarAt_24, sofarAt_25, sofarAt_26, sofarAt_27, sofarAt_28, sofarAt_29, sofarAt_30, sofarAt_31, sofarAt_32]

theorem sofarAt_mono (k r : Nat) (hkr : k ≤ r) (hr : r ≤ 32) :
    PoliceLightBar.sofarAt k ≤ PoliceLightBar.sofarAt r := by
  induction r with
  | zero =>
    have : k = 0 := by omega
    rw [this]
  | succ r ih =>
    by_cases h : k = r + 1
    · rw [h]
    · exact le_trans (ih (by omega) (by omega)) (sofarAt_step_mono r (by omega))

/-- The row scan started at row `k` with the running total of `k` rows stops at row `r + 1`
when the position lies above the total of `r` rows and not above that of `r + 1` rows. -/
theorem scan_reaches (p : ℚ) (r : Nat) (hr : r < 31) (h1 : PoliceLightBar.sofarAt r < p)
    (h2 : p ≤ PoliceLightBar.sofarAt (r + 1)) :
    ∀ (d k fuel : Nat), k + d = r + 1 → d < fuel →
      PoliceLightBar.scan p fuel (PoliceLightBar.sofarAt k) k = r + 1 := by
  intro d
  induction d with
  | zero =>
    intro k fuel hk hf
    obtain ⟨f, rfl⟩ : ∃ f, fuel = f + 1 := ⟨fuel - 1, by omega⟩
    have hk' : k = r + 1 := by omega
    rw [hk', PoliceLightBar.scan, if_neg]
    intro h
    exact absurd h.1 (not_lt.mpr h2)
  | succ d ih =>
    intro k fuel hk hf
    obtain ⟨f, rfl⟩ : ∃ f, fuel = f + 1 := ⟨fuel - 1, by omega⟩
    have hlt : PoliceLightBar.sofarAt k < p :=
      lt_of_le_of_lt (sofarAt_mono k r (by omega) (by omega)) h1
    have h31 : k < PoliceLightBar.ARRAYSIZE - 1 := by
      have : PoliceLightBar.ARRAYSIZE = 32 := rfl
      omega
    rw [PoliceLightBar.scan, if_pos ⟨hlt, h31⟩]
    exact ih (k + 1) f (by omega) (by omega)

theorem PoliceLightBar_row_of_window (p : ℚ) (r : Nat) (hr : r < 31)
    (h1 : PoliceLightBar.sofarAt r < p) (h2 : p ≤ PoliceLightBar.sofarAt (r + 1)) :
    PoliceLightBar.row p = r := by
  unfold PoliceLightBar.row
  have h := scan_reaches p r hr h1 h2 (r + 1) 0 PoliceLightBar.ARRAYSIZE (by omega)
    (by have : PoliceLightBar.ARRAYSIZE = 32 := rfl
        omega)
  have h0 : PoliceLightBar.sofarAt 0 = f32 0 := rfl
  rw [h0] at h
  rw [h]
  push_cast
  ring

theorem f32_three_tenths : f32 (300 / 1000) = 5033165 / 16777216 := by
  have := roundBinary_eq 24 (-126) (300 / 1000) (-2) 10066330 (by norm_num) (by norm_num)
    (by norm_num) (roundHalfEven_of_gt_half _ 10066329 (by norm_num) (by norm_num))
  rw [f32, this]
  norm_num

theorem f32_500 : f32 (500 / 1000) = 1 / 2 := by
  have h : (500 / 1000 : ℚ) = 1 / 2 := by norm_num
  rw [h, f32_half]

theorem fmod_of_lt (p y : ℚ) (h0 : 0 ≤ p) (h1 : p < y) : fmod p y = p := by
  unfold fmod
  have hy : 0 < y := lt_of_le_of_lt h0 h1
  have hq : 0 ≤ p / y := div_nonneg h0 (le_of_lt hy)
  rw [truncInt_of_nonneg _ hq]
  have : ⌊p / y⌋ = 0 := by
    rw [Int.floor_eq_iff]
    constructor
    · simpa using hq
    · simpa using (div_lt_one hy).mpr h1
  rw [this]
  simp

theorem emergencyPressed_position_300 :
    PoliceLightBar.fCyclePosition emergencyPressed 1331 = 5033165 / 16777216 := by
  have hsub : subU32 1331 emergencyPressed._eventStart = 300 := by decide
  unfold PoliceLightBar.fCyclePosition LightingEvent.TimeElapsedTotal
  rw [hsub, f32_natCast 300 (by norm_num), f32_1000]
  simp only [Nat.cast_ofNat]
  rw [f32_three_tenths, TotalCycleTime_val, fmod_of_lt _ _ (by norm_num) (by norm_num)]

theorem emergencyPressed_position_500 :
    PoliceLightBar.fCyclePosition emergencyPressed 1531 = 1 / 2 := by
  have hsub : subU32 1531 emergencyPressed._eventStart = 500 := by decide
  unfold PoliceLightBar.fCyclePosition LightingEvent.TimeElapsedTotal
  rw [hsub, f32_natCast 500 (by norm_num), f32_1000]
  simp only [Nat.cast_ofNat]
  rw [f32_500, TotalCycleTime_val, fmod_of_lt _ _ (by norm_num) (by norm_num)]

/-- C15. Writing `sofarAt r` for the running `float` total of the durations of rows
`0..r-1`, as the scan of `PoliceLightBar::Draw` accumulates it: for every listed row `r` and
every two cycle positions `p`, `q` with `sofarAt r < p, q ≤ sofarAt (r + 1)`, the scan and
the `row--` after it select row `r` for both. -/
theorem police_row_stable (r : Nat) (p q : ℚ) (hr : r < 25)
    (hp : PoliceLightBar.sofarAt r < p ∧ p ≤ PoliceLightBar.sofarAt (r + 1))
    (hq : PoliceLightBar.sofarAt r < q ∧ q ≤ PoliceLightBar.sofarAt (r + 1)) :
    PoliceLightBar.row p = r ∧ PoliceLightBar.row q = r
    ∧ PoliceLightBar.row p = PoliceLightBar.row q := by
  have h1 := PoliceLightBar_row_of_window p r (by omega) hp.1 hp.2
  have h2 := PoliceLightBar_row_of_window q r (by omega) hq.1 hq.2
  exact ⟨h1, h2, by rw [h1, h2]⟩

theorem police_row_stable_witness :
    (PoliceLightBar.sofarAt 1 < 1 / 2 ∧ (1 / 2 : ℚ) ≤ PoliceLightBar.sofarAt (1 + 1))
    ∧ (PoliceLightBar.sofarAt 1 < 6 / 10 ∧ (6 / 10 : ℚ) ≤ PoliceLightBar.sofarAt (1 + 1))
    ∧ PoliceLightBar.row (1 / 2) = (1 : Nat) ∧ PoliceLightBar.row (6 / 10) = (1 : Nat)
    ∧ PoliceLightBar.row (1 / 2) = PoliceLightBar.row (6 / 10) :=
  have hp : PoliceLightBar.sofarAt 1 < 1 / 2 ∧ (1 / 2 : ℚ) ≤ PoliceLightBar.sofarAt (1 + 1) := by
    rw [sofarAt_1, sofarAt_2]
    constructor <;> norm_num
  have hq : PoliceLightBar.sofarAt 1 < 6 / 10
      ∧ (6 / 10 : ℚ) ≤ PoliceLightBar.sofarAt (1 + 1) := by
    rw [sofarAt_1, sofarAt_2]
    constructor <;> norm_num
  ⟨hp, hq, police_row_stable 1 (1 / 2) (6 / 10) (by decide) hp hq⟩

/-- C15, counterexample. The police bar begun at clock 1031 and drawn at clocks 1331 and
1531 has cycle positions `0.3f` and `0.5f`, both in `[sofarAt 1, sofarAt 2)`, the window of
row 1; the scan selects row 0 for the first and row 1 for the second. -/
theorem police_row_differs_at_window_start :
    emergencyPressed.GetActive = true
    ∧ PoliceLightBar.sofarAt 1 ≤ PoliceLightBar.fCyclePosition emergencyPressed 1331
    ∧ PoliceLightBar.fCyclePosition emergencyPressed 1331 < PoliceLightBar.sofarAt 2
    ∧ PoliceLightBar.sofarAt 1 ≤ PoliceLightBar.fCyclePosition emergencyPressed 1531
    ∧ PoliceLightBar.fCyclePosition emergencyPressed 1531 < PoliceLightBar.sofarAt 2
    ∧ PoliceLightBar.row (PoliceLightBar.fCyclePosition emergencyPressed 1331) = 0
    ∧ PoliceLightBar.row (PoliceLightBar.fCyclePosition emergencyPressed 1531) = 1 := by
  rw [emergencyPressed_position_300, emergencyPressed_position_500, sofarAt_1, sofarAt_2]
  refine ⟨by decide, by norm_num, by norm_num, by norm_num, by norm_num, ?_, ?_⟩
  · have := PoliceLightBar_row_of_window (5033165 / 16777216) 0 (by decide)
      (by rw [sofarAt_0]; norm_num) (by rw [sofarAt_1])
    simpa using this
  · have := PoliceLightBar_row_of_window (1 / 2) 1 (by decide)
      (by rw [sofarAt_1]; norm_num) (by rw [sofarAt_2]; norm_num)
    simpa using this

/-- C16. `PoliceLightBar::Draw` uses `sectionSize = 70 / 8 = 8`: the pixels 0..63 fall into
the sections 0..7, eight pixels each, and the six pixels 64..69 get the section index 8,
outside the 8-entry array `sectionColor`; an active police bar paints each of them with the
word that lies after the array. -/
theorem police_sections (x : External) (e : LightingEvent) (now : Nat) (s : Strip) (j : Int)
    (hk : e.kind = Kind.Police) (ha : e.GetActive = true) (h0 : 64 ≤ j)
    (h1 : j < (NUMBER_USED_PIXELS : Int)) :
    PoliceLightBar.sectionSize = 8
    ∧ (∀ i, i < NUMBER_USED_PIXELS → (i / PoliceLightBar.sectionSize < 8 ↔ i < 64))
    ∧ (∀ k, k < 8 →
        ((List.range NUMBER_USED_PIXELS).filter
          (fun i => i / PoliceLightBar.sectionSize = k)).length = 8)
    ∧ ((List.range NUMBER_USED_PIXELS).filter
          (fun i => i / PoliceLightBar.sectionSize = 8)).length = 6
    ∧ j.toNat / PoliceLightBar.sectionSize = 8
    ∧ (e.Draw x now s).2 j
        = CRGB.ofCode (x.outsideTable
            (PoliceLightBar.row (PoliceLightBar.fCyclePosition e now)) 8) := by
  have hs : PoliceLightBar.sectionSize = 8 := by decide
  have hn : NUMBER_USED_PIXELS = 70 := by decide
  have hj : j.toNat / PoliceLightBar.sectionSize = 8 := by
    rw [hs]
    rw [hn] at h1
    omega
  refine ⟨hs, ?_, ?_, by decide, hj, ?_⟩
  · intro i hi
    rw [hs]
    omega
  · intro k hk8
    interval_cases k <;> decide
  · rw [Draw_of_police x e now s hk,
      PoliceLightBar_Draw_apply x e now s j ha (by omega) h1, hj]
    unfold PoliceLightBar.colorWord
    rw [if_neg (by omega)]

theorem police_sections_witness :
    PoliceLightBar.sectionSize = 8
    ∧ (∀ i, i < NUMBER_USED_PIXELS → (i / PoliceLightBar.sectionSize < 8 ↔ i < 64))
    ∧ (∀ k, k < 8 →
        ((List.range NUMBER_USED_PIXELS).filter
          (fun i => i / PoliceLightBar.sectionSize = k)).length = 8)
    ∧ ((List.range NUMBER_USED_PIXELS).filter
          (fun i => i / PoliceLightBar.sectionSize = 8)).length = 6
    ∧ (64 : Int).toNat / PoliceLightBar.sectionSize = 8
    ∧ (emergencyPressed.Draw External.zero 1531 blackStrip).2 64
        = CRGB.ofCode (External.zero.outsideTable
            (PoliceLightBar.row (PoliceLightBar.fCyclePosition emergencyPressed 1531)) 8) :=
  police_sections External.zero emergencyPressed 1531 blackStrip 64 (by decide) (by decide)
    (by decide) (by decide)

/-! ## The brake light, the pixel sink and inactive effects -/

theorem BRAKE_STROBE_DURATION_val : BrakingEvent.BRAKE_STROBE_DURATION = 1 / 2 := by
  unfold BrakingEvent.BRAKE_STROBE_DURATION
  have h : (5 / 10 : ℚ) = 1 / 2 := by norm_num
  rw [h, f32_half]

/-- From 500 ms on, `TimeElapsedTotal()` is at least `0.5f`. -/
theorem TimeElapsedTotal_ge_half (e : LightingEvent) (now : Nat)
    (h : 500 ≤ subU32 now e._eventStart) : 1 / 2 ≤ e.TimeElapsedTotal now := by
  unfold LightingEvent.TimeElapsedTotal
  rw [f32_1000]
  have h500 : (500 : ℚ) ≤ f32 ((subU32 now e._eventStart : Nat) : ℚ) := by
    have h1 : ((500 : Nat) : ℚ) ≤ ((subU32 now e._eventStart : Nat) : ℚ) := by
      exact_mod_cast h
    have h2 := f32_mono (Nat.cast_nonneg 500) h1
    rw [f32_natCast 500 (by norm_num)] at h2
    exact_mod_cast h2
  have h3 : (500 / 1000 : ℚ) ≤ f32 ((subU32 now e._eventStart : Nat) : ℚ) / 1000 := by
    apply div_le_div_of_nonneg_right h500
    norm_num
  have h4 := f32_mono (by norm_num) h3
  rw [f32_500] at h4
  exact h4

/-- A loop over `a ≤ i < a + n` that stores the colour `c` into pixel `i`. -/
theorem foldl_range'_paint (c : CRGB) (n : Nat) :
    ∀ (a : Nat) (s : Strip) (j : Int), a + n ≤ MATRIX_WIDTH * MATRIX_HEIGHT + 1 →
      ((List.range' a n).foldl
        (fun (s : Strip) (i : Nat) => LEDStripGFX.drawPixel s (i : Int) c) s) j
        = if (a : Int) ≤ j ∧ j < ((a + n : Nat) : Int) then c else s j := by
  induction n with
  | zero =>
    intro a s j _
    have : ¬ ((a : Int) ≤ j ∧ j < ((a + 0 : Nat) : Int)) := by omega
    rw [if_neg this]
    rfl
  | succ n ih =>
    intro a s j h
    have hr : List.range' a (n + 1) = a :: List.range' (a + 1) n := rfl
    rw [hr, List.foldl_cons, ih (a + 1) _ j (by omega), drawPixel_apply s a c j (by omega)]
    split_ifs <;> first | rfl | omega

/-- What `BrakingEvent::Draw` of an active effect leaves in a cell from 500 ms on. -/
theorem BrakingEvent_Draw_phase2 (e : LightingEvent) (now : Nat) (s : Strip) (j : Int)
    (ha : e.GetActive = true) (h : 500 ≤ subU32 now e._eventStart) :
    BrakingEvent.Draw e now s j
      = if 1 ≤ j ∧ j < (NUMBER_USED_PIXELS : Int) then CRGB.ofCode Red else s j := by
  unfold BrakingEvent.Draw
  rw [if_neg (by simp [ha]),
    if_neg (by rw [BRAKE_STROBE_DURATION_val]; exact not_lt.mpr (TimeElapsedTotal_ge_half e now h))]
  rw [foldl_range'_paint (CRGB.ofCode Red) (NUMBER_USED_PIXELS - 1) 1 s j (by decide)]
  rfl

/-- C21. For an active brake effect and every clock value with at least 500 ms elapsed,
`BrakingEvent::Draw` stores red into the pixels 1..69 and does not write pixel 0, which
keeps what it held: the loop of the second phase starts at `i = 1`. -/
theorem braking_phase2_skips_pixel_zero (x : External) (e : LightingEvent) (now : Nat)
    (s : Strip) (ha : e.GetActive = true) (h : 500 ≤ subU32 now e._eventStart) :
    (∀ j : Int, 1 ≤ j → j < (NUMBER_USED_PIXELS : Int) →
        BrakingEvent.Draw e now s j = CRGB.ofCode Red)
    ∧ BrakingEvent.Draw e now s 0 = s 0
    ∧ (s 0 ≠ CRGB.ofCode Red → BrakingEvent.Draw e now s 0 ≠ CRGB.ofCode Red)
    ∧ (e.kind = Kind.Braking → e.Draw x now s = (e, BrakingEvent.Draw e now s)) := by
  have h0 : BrakingEvent.Draw e now s 0 = s 0 := by
    rw [BrakingEvent_Draw_phase2 e now s 0 ha h, if_neg (by omega)]
  refine ⟨?_, h0, ?_, ?_⟩
  · intro j h1 h2
    rw [BrakingEvent_Draw_phase2 e now s j ha h, if_pos ⟨h1, h2⟩]
  · intro hne
    rw [h0]
    exact hne
  · intro hk
    unfold LightingEvent.Draw
    rw [hk]

theorem braking_phase2_skips_pixel_zero_witness :
    (∀ j : Int, 1 ≤ j → j < (NUMBER_USED_PIXELS : Int) →
        BrakingEvent.Draw brakingBegun 1531 blackStrip j = CRGB.ofCode Red)
    ∧ BrakingEvent.Draw brakingBegun 1531 blackStrip 0 = blackStrip 0
    ∧ (blackStrip 0 ≠ CRGB.ofCode Red →
        BrakingEvent.Draw brakingBegun 1531 blackStrip 0 ≠ CRGB.ofCode Red)
    ∧ (brakingBegun.kind = Kind.Braking →
        brakingBegun.Draw External.zero 1531 blackStrip
          = (brakingBegun, BrakingEvent.Draw brakingBegun 1531 blackStrip)) :=
  braking_phase2_skips_pixel_zero External.zero brakingBegun 1531 blackStrip (by decide)
    (by decide)

/-- C22. `LEDStripGFX::drawPixel(int x, CRGB color)` stores the colour exactly when
`0 ≤ x ≤ 70`: an index in `[0, 70)` is stored into its cell, an index below 0 or above 70
is ignored, and the index 70 is accepted and stored into cell 70, one past the last of the
70 cells that the constructor allocates. -/
theorem drawPixel_accepts_strip_length (s : Strip) (x : Int) (c : CRGB) :
    (LEDStripGFX.drawPixel s x c
      = if 0 ≤ x ∧ x ≤ (NUMBER_USED_PIXELS : Int) then Function.update s x c else s)
    ∧ (0 ≤ x → x < (NUMBER_USED_PIXELS : Int) →
        LEDStripGFX.drawPixel s x c x = c
          ∧ ∀ j, j ≠ x → LEDStripGFX.drawPixel s x c j = s j)
    ∧ (x < 0 ∨ (NUMBER_USED_PIXELS : Int) < x → LEDStripGFX.drawPixel s x c = s)
    ∧ LEDStripGFX.drawPixel s (NUMBER_USED_PIXELS : Int) c (NUMBER_USED_PIXELS : Int) = c
    ∧ (s (NUMBER_USED_PIXELS : Int) ≠ c →
        LEDStripGFX.drawPixel s (NUMBER_USED_PIXELS : Int) c ≠ s) := by
  have hn : ((MATRIX_WIDTH * MATRIX_HEIGHT : Nat) : Int) = (NUMBER_USED_PIXELS : Int) := rfl
  have h70 : LEDStripGFX.drawPixel s (NUMBER_USED_PIXELS : Int) c (NUMBER_USED_PIXELS : Int)
      = c := by
    unfold LEDStripGFX.drawPixel
    rw [hn, if_pos ⟨by omega, le_refl _⟩, Function.update_same]
  refine ⟨?_, ?_, ?_, h70, ?_⟩
  · unfold LEDStripGFX.drawPixel
    rw [hn]
  · intro h0 h1
    unfold LEDStripGFX.drawPixel
    rw [hn, if_pos ⟨h0, le_of_lt h1⟩]
    refine ⟨Function.update_same _ _ _, ?_⟩
    intro j hj
    exact Function.update_noteq hj _ _
  · intro h
    unfold LEDStripGFX.drawPixel
    rw [hn, if_neg (by omega)]
  · intro hne heq
    rw [heq] at h70
    exact hne h70

/-- C23. `Draw()` on an effect whose `GetActive()` is false returns at once, in each of the
four classes: every cell of the strip and the effect object are left as they were. -/
theorem inactive_draws_nothing (x : External) (e : LightingEvent) (now : Nat) (s : Strip)
    (h : e.GetActive = false) :
    e.Draw x now s = (e, s)
    ∧ BackupEvent.Draw e now s = s
    ∧ BrakingEvent.Draw e now s = s
    ∧ (∀ style, SignalEvent.Draw x style e now s = (e, s))
    ∧ PoliceLightBar.Draw x e now s = s := by
  refine ⟨Draw_of_inactive x e now s h, ?_, ?_, ?_, ?_⟩
  · unfold BackupEvent.Draw
    rw [if_pos h]
  · unfold BrakingEvent.Draw
    rw [if_pos h]
  · intro style
    unfold SignalEvent.Draw
    rw [if_pos h]
  · unfold PoliceLightBar.Draw
    rw [if_pos h]

theorem inactive_draws_nothing_witness :
    Globals.init.g_Emergency.Draw External.zero 5000 blackStrip
      = (Globals.init.g_Emergency, blackStrip)
    ∧ BackupEvent.Draw Globals.init.g_Emergency 5000 blackStrip = blackStrip
    ∧ BrakingEvent.Draw Globals.init.g_Emergency 5000 blackStrip = blackStrip
    ∧ (∀ style, SignalEvent.Draw External.zero style Globals.init.g_Emergency 5000 blackStrip
        = (Globals.init.g_Emergency, blackStrip))
    ∧ PoliceLightBar.Draw External.zero Globals.init.g_Emergency 5000 blackStrip = blackStrip :=
  inactive_draws_nothing External.zero Globals.init.g_Emergency 5000 blackStrip (by decide)

/-! ## The qualifier pin and one event per edge -/

/-- What a confirming poll does. -/
theorem CheckForButtonPress_of_confirms (e : LightingEvent) (digitalRead : Nat → Bool)
    (now nowAct : Nat) (h : confirms e digitalRead now) :
    e.CheckForButtonPress digitalRead now nowAct
      = if digitalRead e._buttonPin1 = true
            ∧ (e._buttonPin2 = 0 ∨ digitalRead e._buttonPin2 = true) then
          ((e.Begin nowAct).acknowledge, [Call.Begin])
        else if e.GetActive = true then ((e.End nowAct).acknowledge, [Call.End])
        else (e.acknowledge, []) := by
  obtain ⟨hp, hf, hl, ht⟩ := h
  have hcond : e._hasIRQHandlerFiredYet = true
      ∧ digitalRead e._buttonPin1 = decide (e._lastIRQButtonState ≠ 0)
      ∧ toUnsigned DEBOUNCETIME < subU32 now (toUnsigned e._debounceTimeout) := by
    rw [toUnsigned_DEBOUNCETIME]
    exact ⟨hf, hl, ht⟩
  unfold LightingEvent.CheckForButtonPress
  simp only [hp, if_false]
  rw [if_pos hcond]
  by_cases hc : digitalRead e._buttonPin1 = true
  · by_cases h2 : e._buttonPin2 = 0 ∨ digitalRead e._buttonPin2 = true
    · rw [if_pos hc, if_pos h2, if_pos ⟨hc, h2⟩]
      rfl
    · by_cases ha : e.GetActive = true
      · rw [if_pos hc, if_neg h2, if_pos ha, if_neg (fun h => h2 h.2), if_pos ha]
        rfl
      · rw [if_pos hc, if_neg h2, if_neg ha, if_neg (fun h => h2 h.2), if_neg ha]
        rfl
  · by_cases ha : e.GetActive = true
    · rw [if_neg hc, if_pos ha, if_neg (fun h => hc h.1), if_pos ha]
      rfl
    · rw [if_neg hc, if_neg ha, if_neg (fun h => hc h.1), if_neg ha]
      rfl

/-- The fields that `End()` leaves depend on the class and on `_active`, `_eventStart` and
`_bExitatEnd` only. -/
theorem End_congr (e₁ e₂ : LightingEvent) (now : Nat) (hk : e₁.kind = e₂.kind)
    (ha : e₁._active = e₂._active) (hs : e₁._eventStart = e₂._eventStart)
    (hx : e₁._bExitatEnd = e₂._bExitatEnd) :
    (e₁.End now)._active = (e₂.End now)._active
    ∧ (e₁.End now)._eventStart = (e₂.End now)._eventStart
    ∧ (e₁.End now)._bExitatEnd = (e₂.End now)._bExitatEnd := by
  unfold LightingEvent.End
  rw [← hk]
  cases e₁.kind <;>
    simp [SignalEvent.End, PoliceLightBar.End, LightingEvent.baseEnd, ha, hs, hx]

/-- C25. For an effect with a secondary pin configured, a confirmed poll while the
secondary pin reads LOW (a confirmed-HIGH poll of the primary pin in particular, whose
`Begin()` the qualifier refuses) does what a confirmed-LOW poll does from a
state with the same class, `_active`, `_eventStart` and `_bExitatEnd`: it calls `End()` if
the effect is active and makes no call otherwise, and the two polls leave the same
`_active`, `_eventStart` and `_bExitatEnd`.  A poll calls `Begin()` exactly when it
confirms, the primary pin reads HIGH and the secondary pin is absent or reads HIGH. -/
theorem qualifier_gating (e₁ e₂ : LightingEvent) (d₁ d₂ : Nat → Bool)
    (now₁ now₂ nowAct : Nat)
    (hc₁ : confirms e₁ d₁ now₁) (hp2 : e₁._buttonPin2 ≠ 0) (hq : d₁ e₁._buttonPin2 = false)
    (hc₂ : confirms e₂ d₂ now₂) (hlow : d₂ e₂._buttonPin1 = false)
    (hk : e₁.kind = e₂.kind) (ha : e₁._active = e₂._active)
    (hs : e₁._eventStart = e₂._eventStart) (hx : e₁._bExitatEnd = e₂._bExitatEnd) :
    e₁.CheckForButtonPress d₁ now₁ nowAct
      = (if e₁.GetActive = true then ((e₁.End nowAct).acknowledge, [Call.End])
          else (e₁.acknowledge, []))
    ∧ e₂.CheckForButtonPress d₂ now₂ nowAct
      = (if e₂.GetActive = true then ((e₂.End nowAct).acknowledge, [Call.End])
          else (e₂.acknowledge, []))
    ∧ (e₁.CheckForButtonPress d₁ now₁ nowAct).2 = (e₂.CheckForButtonPress d₂ now₂ nowAct).2
    ∧ (e₁.CheckForButtonPress d₁ now₁ nowAct).1._active
        = (e₂.CheckForButtonPress d₂ now₂ nowAct).1._active
    ∧ (e₁.CheckForButtonPress d₁ now₁ nowAct).1._eventStart
        = (e₂.CheckForButtonPress d₂ now₂ nowAct).1._eventStart
    ∧ (e₁.CheckForButtonPress d₁ now₁ nowAct).1._bExitatEnd
        = (e₂.CheckForButtonPress d₂ now₂ nowAct).1._bExitatEnd
    ∧ (∀ (e : LightingEvent) (d : Nat → Bool) (now : Nat),
        Call.Begin ∈ (e.CheckForButtonPress d now nowAct).2 ↔
          confirms e d now ∧ d e._buttonPin1 = true
            ∧ (e._buttonPin2 = 0 ∨ d e._buttonPin2 = true)) := by
  have h1 : e₁.CheckForButtonPress d₁ now₁ nowAct
      = (if e₁.GetActive = true then ((e₁.End nowAct).acknowledge, [Call.End])
          else (e₁.acknowledge, [])) := by
    rw [CheckForButtonPress_of_confirms e₁ d₁ now₁ nowAct hc₁, if_neg]
    rintro ⟨-, h | h⟩
    · exact hp2 h
    · rw [hq] at h
      exact Bool.false_ne_true h
  have h2 : e₂.CheckForButtonPress d₂ now₂ nowAct
      = (if e₂.GetActive = true then ((e₂.End nowAct).acknowledge, [Call.End])
          else (e₂.acknowledge, [])) := by
    rw [CheckForButtonPress_of_confirms e₂ d₂ now₂ nowAct hc₂, if_neg]
    rintro ⟨h, -⟩
    rw [hlow] at h
    exact Bool.false_ne_true h
  obtain ⟨hEa, hEs, hEx⟩ := End_congr e₁ e₂ nowAct hk ha hs hx
  have hg : e₁.GetActive = e₂.GetActive := ha
  refine ⟨h1, h2, ?_, ?_, ?_, ?_, ?_⟩
  · rw [h1, h2, hg]
    split_ifs <;> rfl
  · rw [h1, h2, hg]
    split_ifs
    · exact hEa
    · exact ha
  · rw [h1, h2, hg]
    split_ifs
    · exact hEs
    · exact hs
  · rw [h1, h2, hg]
    split_ifs
    · exact hEx
    · exact hx
  · intro e d now
    by_cases hc : confirms e d now
    · rw [(CheckForButtonPress_confirmed e d now nowAct hc).2.2]
      exact ⟨fun h => ⟨hc, h⟩, fun h => h.2⟩
    · rw [CheckForButtonPress_of_not_confirms e d now nowAct hc]
      constructor
      · intro h
        cases h
      · intro h
        exact absurd h.1 hc

theorem qualifier_gating_witness :
    (backupWithQualifier.IRQ true 1000).CheckForButtonPress
        (fun p => decide (p = BACKUP_PIN)) 1031 1031
      = (if (backupWithQualifier.IRQ true 1000).GetActive = true then
          (((backupWithQualifier.IRQ true 1000).End 1031).acknowledge, [Call.End])
        else ((backupWithQualifier.IRQ true 1000).acknowledge, []))
    ∧ ((backupWithQualifier.IRQ true 1000).CheckForButtonPress
        (fun p => decide (p = BACKUP_PIN)) 1031 1031).2
      = ((backupWithQualifier.IRQ false 1000).CheckForButtonPress (fun _ => false) 1031 1031).2 :=
  have h := qualifier_gating (backupWithQualifier.IRQ true 1000)
    (backupWithQualifier.IRQ false 1000) (fun p => decide (p = BACKUP_PIN)) (fun _ => false)
    1031 1031 1031 (by decide) (by decide) (by decide) (by decide) (by decide) rfl rfl rfl rfl
  ⟨h.1, h.2.2.1⟩

/-- A poll of an object whose interrupt flag is clear does not confirm. -/
theorem not_confirms_of_acknowledged (e : LightingEvent) (d : Nat → Bool) (now : Nat)
    (h : e._hasIRQHandlerFiredYet = false) : ¬ confirms e d now := by
  intro hc
  rw [hc.2.1] at h
  exact Bool.noConfusion h

theorem pollMany_of_acknowledged (polls : List ((Nat → Bool) × Nat)) :
    ∀ e : LightingEvent, e._hasIRQHandlerFiredYet = false → e.pollMany polls = (e, []) := by
  induction polls with
  | nil =>
    intro e _
    rfl
  | cons p rest ih =>
    intro e h
    unfold LightingEvent.pollMany
    rw [CheckForButtonPress_of_not_confirms e p.1 p.2 p.2
      (not_confirms_of_acknowledged e p.1 p.2 h)]
    dsimp only
    rw [ih e h]
    rfl

theorem pollMany_calls_le_one (polls : List ((Nat → Bool) × Nat)) :
    ∀ e : LightingEvent, (e.pollMany polls).2.length ≤ 1 := by
  induction polls with
  | nil =>
    intro e
    exact Nat.zero_le 1
  | cons p rest ih =>
    intro e
    unfold LightingEvent.pollMany
    dsimp only
    by_cases hc : confirms e p.1 p.2
    · have hf := (CheckForButtonPress_confirmed e p.1 p.2 p.2 hc).1
      rw [pollMany_of_acknowledged rest _ hf, List.append_nil,
        CheckForButtonPress_of_confirms e p.1 p.2 p.2 hc]
      split_ifs <;> simp
    · rw [CheckForButtonPress_of_not_confirms e p.1 p.2 p.2 hc]
      simpa using ih e

/-- Polls of a police bar whose input rose once and is held HIGH: the first poll that comes
more than 30 ms after the edge calls `Begin()`, and no other poll makes a call. -/
theorem pollMany_of_police_held (polls : List ((Nat → Bool) × Nat)) :
    ∀ e : LightingEvent, e.kind = Kind.Police → e._buttonPin1 ≠ 0 → e._buttonPin2 = 0 →
      e._hasIRQHandlerFiredYet = true → e._lastIRQButtonState ≠ 0 →
      (∀ p ∈ polls, p.1 e._buttonPin1 = true) →
      (∃ p ∈ polls, 30 < subU32 p.2 (toUnsigned e._debounceTimeout)) →
      (e.pollMany polls).2 = [Call.Begin] ∧ (e.pollMany polls).1._active = !e._active := by
  induction polls with
  | nil =>
    intro e _ _ _ _ _ _ hlate
    obtain ⟨p, hp, -⟩ := hlate
    cases hp
  | cons p rest ih =>
    intro e hk hp1 hp2 hf hl hhigh hlate
    have hd : p.1 e._buttonPin1 = true := hhigh p (List.mem_cons_self _ _)
    have hlev : p.1 e._buttonPin1 = decide (e._lastIRQButtonState ≠ 0) := by
      rw [hd]
      simp [hl]
    unfold LightingEvent.pollMany
    dsimp only
    by_cases hc : confirms e p.1 p.2
    · have hfa := (CheckForButtonPress_confirmed e p.1 p.2 p.2 hc).1
      rw [pollMany_of_acknowledged rest _ hfa, List.append_nil,
        CheckForButtonPress_of_confirms e p.1 p.2 p.2 hc, if_pos ⟨hd, Or.inl hp2⟩]
      refine ⟨rfl, ?_⟩
      show (e.Begin p.2)._active = !e._active
      unfold LightingEvent.Begin
      rw [hk]
      cases ha : e._active <;>
        simp [PoliceLightBar.Begin, ha, LightingEvent.baseBegin, LightingEvent.baseEnd]
    · rw [CheckForButtonPress_of_not_confirms e p.1 p.2 p.2 hc, List.nil_append]
      have hrest : ∃ q ∈ rest, 30 < subU32 q.2 (toUnsigned e._debounceTimeout) := by
        obtain ⟨q, hq, hq30⟩ := hlate
        rcases List.mem_cons.mp hq with rfl | hq'
        · exact absurd ⟨hp1, hf, hlev, hq30⟩ hc
        · exact ⟨q, hq', hq30⟩
      exact ih e hk hp1 hp2 hf hl (fun q hq => hhigh q (List.mem_cons_of_mem _ hq)) hrest

/-- C26. A poll that confirms clears the interrupt flag and a poll that does not confirm
returns the object unchanged; after a confirming poll no further poll makes a call until
`IRQ()` runs again, so any run of polls makes at most one call.  For the police bar whose
input rose once and is held HIGH, polls of which one comes more than 30 ms after the edge
call `Begin()` exactly once, and `_active` ends up flipped. -/
theorem one_event_per_edge (e : LightingEvent) (polls : List ((Nat → Bool) × Nat))
    (hk : e.kind = Kind.Police) (hp1 : e._buttonPin1 ≠ 0) (hp2 : e._buttonPin2 = 0)
    (hf : e._hasIRQHandlerFiredYet = true) (hl : e._lastIRQButtonState ≠ 0)
    (hhigh : ∀ p ∈ polls, p.1 e._buttonPin1 = true)
    (hlate : ∃ p ∈ polls, 30 < subU32 p.2 (toUnsigned e._debounceTimeout)) :
    (∀ (a : LightingEvent) (d : Nat → Bool) (now nowAct : Nat), confirms a d now →
        (a.CheckForButtonPress d now nowAct).1._hasIRQHandlerFiredYet = false)
    ∧ (∀ (a : LightingEvent) (d : Nat → Bool) (now nowAct : Nat), ¬ confirms a d now →
        a.CheckForButtonPress d now nowAct = (a, []))
    ∧ (∀ (a : LightingEvent) (d : Nat → Bool) (now nowAct : Nat)
        (more : List ((Nat → Bool) × Nat)), confirms a d now →
        (a.CheckForButtonPress d now nowAct).1.pollMany more
          = ((a.CheckForButtonPress d now nowAct).1, []))
    ∧ (∀ (a : LightingEvent) (more : List ((Nat → Bool) × Nat)),
        (a.pollMany more).2.length ≤ 1)
    ∧ (e.pollMany polls).2 = [Call.Begin]
    ∧ (e.pollMany polls).1._active = !e._active := by
  refine ⟨?_, ?_, ?_, ?_, pollMany_of_police_held polls e hk hp1 hp2 hf hl hhigh hlate⟩
  · intro a d now nowAct hc
    exact (CheckForButtonPress_confirmed a d now nowAct hc).1
  · intro a d now nowAct hc
    exact CheckForButtonPress_of_not_confirms a d now nowAct hc
  · intro a d now nowAct more hc
    exact pollMany_of_acknowledged more _ (CheckForButtonPress_confirmed a d now nowAct hc).1
  · intro a more
    exact pollMany_calls_le_one more a

theorem one_event_per_edge_witness :
    (emergencyEdge.pollMany heldHigh).2 = [Call.Begin]
    ∧ (emergencyEdge.pollMany heldHigh).1._active = !emergencyEdge._active :=
  (one_event_per_edge emergencyEdge heldHigh (by decide) (by decide) (by decide) (by decide)
    (by decide)
    (by
      intro p hp
      simp only [heldHigh, List.mem_cons, List.mem_singleton, List.not_mem_nil, or_false] at hp
      rcases hp with rfl | rfl | rfl | rfl | rfl <;> rfl)
    ⟨(fun _ => true, 1031), by simp [heldHigh], by decide⟩).2.2.2.2

/-! ## The hazard override persists -/

/-- A frame in which both turn signals are inactive with their interrupts acknowledged,
Braking (which has no pin) is active, and a turn pin reads HIGH, leaves the three objects
as they are. -/
theorem frame_keeps_hazard (x : External) (g : Globals) (digitalRead : Nat → Bool) (now : Nat)
    (hk : g.g_Braking.kind = Kind.Braking) (hpB : g.g_Braking._buttonPin1 = 0)
    (hL : g.g_LeftTurn.GetActive = false) (hR : g.g_RightTurn.GetActive = false)
    (hfL : g.g_LeftTurn._hasIRQHandlerFiredYet = false)
    (hfR : g.g_RightTurn._hasIRQHandlerFiredYet = false)
    (hpin : digitalRead LEFT_TURN_PIN = true ∨ digitalRead RIGHT_TURN_PIN = true) :
    (processAndDisplayInputs x g digitalRead now).g_LeftTurn = g.g_LeftTurn
    ∧ (processAndDisplayInputs x g digitalRead now).g_RightTurn = g.g_RightTurn
    ∧ (processAndDisplayInputs x g digitalRead now).g_Braking = g.g_Braking := by
  have hframe : processAndDisplayInputs x g digitalRead now
      = drawAll x (overrideStep (pollAll (clearScreen x g) digitalRead now)
          digitalRead now now now) now := rfl
  have hpL : (pollAll (clearScreen x g) digitalRead now).g_LeftTurn = g.g_LeftTurn := by
    show (g.g_LeftTurn.CheckForButtonPress digitalRead now now).1 = _
    rw [CheckForButtonPress_of_not_confirms _ _ _ _ (not_confirms_of_acknowledged _ _ _ hfL)]
  have hpR : (pollAll (clearScreen x g) digitalRead now).g_RightTurn = g.g_RightTurn := by
    show (g.g_RightTurn.CheckForButtonPress digitalRead now now).1 = _
    rw [CheckForButtonPress_of_not_confirms _ _ _ _ (not_confirms_of_acknowledged _ _ _ hfR)]
  have hpB' : (pollAll (clearScreen x g) digitalRead now).g_Braking = g.g_Braking := by
    show (g.g_Braking.CheckForButtonPress digitalRead now now).1 = _
    rw [CheckForButtonPress_of_not_confirms _ _ _ _ (fun hc => hc.1 hpB)]
  have ho : overrideStep (pollAll (clearScreen x g) digitalRead now) digitalRead now now now
      = pollAll (clearScreen x g) digitalRead now := by
    unfold overrideStep
    rw [if_neg, if_neg]
    · rintro ⟨-, h1, h2⟩
      rcases hpin with h | h
      · rw [h] at h1
        exact Bool.noConfusion h1
      · rw [h] at h2
        exact Bool.noConfusion h2
    · rintro ⟨h, -⟩
      rw [hpL, hL] at h
      exact Bool.noConfusion h
  rw [hframe, ho]
  refine ⟨?_, ?_, ?_⟩
  · rw [drawAll_left_inactive _ _ _ (by rw [hpL]; exact hL), hpL]
  · rw [drawAll_right_inactive _ _ _ (by rw [hpR]; exact hR), hpR]
  · rw [drawAll_braking _ _ _ (by rw [hpB']; exact hk), hpB']

/-- An interrupt of an input other than the two turn inputs leaves the turn signals and
Braking as they are. -/
theorem irq_keeps_hazard (g : Globals) (pin : Nat) (level : Bool) (tick : Nat)
    (h1 : pin ≠ LEFT_TURN_PIN) (h2 : pin ≠ RIGHT_TURN_PIN) :
    (g.irq pin level tick).g_LeftTurn = g.g_LeftTurn
    ∧ (g.irq pin level tick).g_RightTurn = g.g_RightTurn
    ∧ (g.irq pin level tick).g_Braking = g.g_Braking := by
  unfold Globals.irq
  rw [if_neg h1, if_neg h2]
  split_ifs <;> exact ⟨rfl, rfl, rfl⟩

theorem run_keeps_hazard (x : External) (steps : List Step) :
    ∀ g : Globals, g.g_Braking.kind = Kind.Braking → g.g_Braking._buttonPin1 = 0 →
      g.g_LeftTurn.GetActive = false → g.g_RightTurn.GetActive = false →
      g.g_LeftTurn._hasIRQHandlerFiredYet = false →
      g.g_RightTurn._hasIRQHandlerFiredYet = false →
      steps.all Step.keepsHazard = true →
      (Globals.run x g steps).g_LeftTurn = g.g_LeftTurn
      ∧ (Globals.run x g steps).g_RightTurn = g.g_RightTurn
      ∧ (Globals.run x g steps).g_Braking = g.g_Braking := by
  induction steps with
  | nil =>
    intro g _ _ _ _ _ _ _
    exact ⟨rfl, rfl, rfl⟩
  | cons st rest ih =>
    intro g hk hpB hL hR hfL hfR hall
    rw [List.all_cons, Bool.and_eq_true] at hall
    obtain ⟨hst, hrest⟩ := hall
    cases st with
    | irq pin level tick =>
      have hp : pin ≠ LEFT_TURN_PIN ∧ pin ≠ RIGHT_TURN_PIN := of_decide_eq_true hst
      obtain ⟨e1, e2, e3⟩ := irq_keeps_hazard g pin level tick hp.1 hp.2
      have h := ih (g.irq pin level tick) (by rw [e3]; exact hk) (by rw [e3]; exact hpB)
        (by rw [e1]; exact hL) (by rw [e2]; exact hR) (by rw [e1]; exact hfL)
        (by rw [e2]; exact hfR) hrest
      show (Globals.run x (g.irq pin level tick) rest).g_LeftTurn = _
        ∧ (Globals.run x (g.irq pin level tick) rest).g_RightTurn = _
        ∧ (Globals.run x (g.irq pin level tick) rest).g_Braking = _
      rw [h.1, h.2.1, h.2.2]
      exact ⟨e1, e2, e3⟩
    | frame digitalRead now =>
      have hp : digitalRead LEFT_TURN_PIN = true ∨ digitalRead RIGHT_TURN_PIN = true := by
        have : (digitalRead LEFT_TURN_PIN || digitalRead RIGHT_TURN_PIN) = true := hst
        simpa using this
      obtain ⟨e1, e2, e3⟩ := frame_keeps_hazard x g digitalRead now hk hpB hL hR hfL hfR hp
      have h := ih (processAndDisplayInputs x g digitalRead now) (by rw [e3]; exact hk)
        (by rw [e3]; exact hpB) (by rw [e1]; exact hL) (by rw [e2]; exact hR)
        (by rw [e1]; exact hfL) (by rw [e2]; exact hfR) hrest
      show (Globals.run x (processAndDisplayInputs x g digitalRead now) rest).g_LeftTurn = _
        ∧ (Globals.run x (processAndDisplayInputs x g digitalRead now) rest).g_RightTurn = _
        ∧ (Globals.run x (processAndDisplayInputs x g digitalRead now) rest).g_Braking = _
      rw [h.1, h.2.1, h.2.2]
      exact ⟨e1, e2, e3⟩

/-- C27. From a state in which both turn signals are inactive with their interrupts
acknowledged and Braking (the object without a pin) is active, every drive made of frames
in which at least one turn pin reads HIGH, and of interrupts of other inputs, leaves both
turn signals inactive and Braking active with its `_eventStart` unchanged: the three
objects are left as they are. -/
theorem hazard_override_stable (x : External) (g : Globals) (steps : List Step)
    (hk : g.g_Braking.kind = Kind.Braking) (hpB : g.g_Braking._buttonPin1 = 0)
    (hB : g.g_Braking.GetActive = true)
    (hL : g.g_LeftTurn.GetActive = false) (hR : g.g_RightTurn.GetActive = false)
    (hfL : g.g_LeftTurn._hasIRQHandlerFiredYet = false)
    (hfR : g.g_RightTurn._hasIRQHandlerFiredYet = false)
    (hsteps : steps.all Step.keepsHazard = true) :
    ((Globals.run x g steps).g_LeftTurn.GetActive = false
      ∧ (Globals.run x g steps).g_RightTurn.GetActive = false
      ∧ (Globals.run x g steps).g_Braking.GetActive = true
      ∧ (Globals.run x g steps).g_Braking._eventStart = g.g_Braking._eventStart)
    ∧ ((Globals.run x g steps).g_LeftTurn = g.g_LeftTurn
      ∧ (Globals.run x g steps).g_RightTurn = g.g_RightTurn
      ∧ (Globals.run x g steps).g_Braking = g.g_Braking) := by
  have h := run_keeps_hazard x steps g hk hpB hL hR hfL hfR hsteps
  refine ⟨?_, h⟩
  rw [h.1, h.2.1, h.2.2]
  exact ⟨hL, hR, hB, rfl⟩

theorem hazard_override_stable_witness :
    ((Globals.run External.zero (Globals.run External.zero Globals.init hazardPress)
        hazardHeld).g_LeftTurn.GetActive = false
      ∧ (Globals.run External.zero (Globals.run External.zero Globals.init hazardPress)
        hazardHeld).g_RightTurn.GetActive = false
      ∧ (Globals.run External.zero (Globals.run External.zero Globals.init hazardPress)
        hazardHeld).g_Braking.GetActive = true
      ∧ (Globals.run External.zero (Globals.run External.zero Globals.init hazardPress)
        hazardHeld).g_Braking._eventStart
          = (Globals.run External.zero Globals.init hazardPress).g_Braking._eventStart)
    ∧ (Globals.run External.zero Globals.init hazardPress).g_Braking._eventStart = 1031 := by
  have he := run_effects External.zero hazardPress Globals.init
  rw [hazardPress_state] at he
  have hBr : ∀ g : Globals, g.g_Braking = g.effects.braking := fun _ => rfl
  have hLe : ∀ g : Globals, g.g_LeftTurn = g.effects.leftTurn := fun _ => rfl
  have hRi : ∀ g : Globals, g.g_RightTurn = g.effects.rightTurn := fun _ => rfl
  refine ⟨(hazard_override_stable External.zero
    (Globals.run External.zero Globals.init hazardPress) hazardHeld ?_ ?_ ?_ ?_ ?_ ?_ ?_ ?_).1,
    ?_⟩
  · rw [hBr, he]
    rfl
  · rw [hBr, he]
    rfl
  · rw [hBr, he]
    rfl
  · rw [hLe, he]
    rfl
  · rw [hRi, he]
    rfl
  · rw [hLe, he]
    rfl
  · rw [hRi, he]
    rfl
  · rfl
  · rw [hBr, he]

/-! ## The turn pixels -/

theorem f64_3333_thousandths :
    f64 (3333 / 1000) = 1876312194753233 / 562949953421312 := by
  have := roundBinary_eq 53 (-1022) (3333 / 1000) 1 7505248779012932 (by norm_num)
    (by norm_num) (by norm_num)
    (roundHalfEven_of_gt_half _ 7505248779012931 (by norm_num) (by norm_num))
  rw [f64, this]
  norm_num

/-- The macro `NUMBER_TURN_PIXELS` is the `double` 21.0021.... -/
theorem NUMBER_TURN_PIXELS_val :
    NUMBER_TURN_PIXELS = 5911565667490525 / 281474976710656 := by
  have h70 : ((NUMBER_USED_PIXELS : Nat) : ℚ) = 70 := by
    norm_num [NUMBER_USED_PIXELS, MATRIX_WIDTH, MATRIX_HEIGHT]
  unfold NUMBER_TURN_PIXELS
  rw [h70, f64_3333_thousandths]
  have := roundBinary_eq 53 (-1022) (70 / (1876312194753233 / 562949953421312)) 4
    5911565667490525 (by norm_num) (by norm_num) (by norm_num)
    (roundHalfEven_of_gt_half _ 5911565667490524 (by norm_num) (by norm_num))
  rw [f64, this]
  norm_num

/-- The test `i < NUMBER_TURN_PIXELS` on an `int` index holds exactly for `i ≤ 21`. -/
theorem lt_NUMBER_TURN_PIXELS_iff (i : Nat) : (i : ℚ) < NUMBER_TURN_PIXELS ↔ i < 22 := by
  rw [NUMBER_TURN_PIXELS_val]
  constructor
  · intro h
    by_contra hge
    have h22 : (22 : ℚ) ≤ (i : ℚ) := by exact_mod_cast not_lt.mp hge
    have : (5911565667490525 / 281474976710656 : ℚ) < 22 := by norm_num
    linarith
  · intro h
    have h21 : (i : ℚ) ≤ 21 := by exact_mod_cast Nat.lt_succ_iff.mp h
    have : (21 : ℚ) < 5911565667490525 / 281474976710656 := by norm_num
    linarith

/-- A `for` loop whose test holds below `n` and fails at `n` runs its body for
`i, i + 1, ..., n - 1`. -/
theorem forLoop_eq_foldl {σ : Type} (cond : Nat → Bool) (body : Nat → σ → σ) (n : Nat)
    (hlt : ∀ i, i < n → cond i = true) (hn : cond n = false) :
    ∀ (fuel i : Nat) (s : σ), i ≤ n → n - i < fuel →
      forLoop cond body fuel i s
        = (List.range' i (n - i)).foldl (fun (s : σ) (i : Nat) => body i s) s := by
  intro fuel
  induction fuel with
  | zero =>
    intro i s _ h
    omega
  | succ fuel ih =>
    intro i s hi hf
    unfold forLoop
    by_cases h : i = n
    · subst h
      rw [hn, Nat.sub_self]
      rfl
    · have hi' : i < n := by omega
      rw [hlt i hi', if_pos rfl, ih (i + 1) (body i s) (by omega) (by omega)]
      have hr : n - i = (n - (i + 1)) + 1 := by omega
      rw [hr]
      rfl

theorem drawPixel_apply_int (s : Strip) (x : Int) (c : CRGB) (j : Int) (h0 : 0 ≤ x)
    (h1 : x ≤ 70) : LEDStripGFX.drawPixel s x c j = if j = x then c else s j := by
  have hn : ((MATRIX_WIDTH * MATRIX_HEIGHT : Nat) : Int) = 70 := rfl
  unfold LEDStripGFX.drawPixel
  rw [hn, if_pos ⟨h0, h1⟩, Function.update_apply]

/-- What one call of `SetTurnLED` with an index below 22 leaves in a cell. -/
theorem SetTurnLED_apply (style : SIGNAL_STYLE) (i : Nat) (c : CRGB) (s : Strip) (j : Int)
    (hi : i < 22) :
    SignalEvent.SetTurnLED style (i : Int) c s j
      = if (style = SIGNAL_STYLE.LEFT_TURN ∨ style = SIGNAL_STYLE.HAZARD) ∧ j = 69 - (i : Int)
        then c
        else if (style = SIGNAL_STYLE.RIGHT_TURN ∨ style = SIGNAL_STYLE.HAZARD) ∧ j = (i : Int)
        then c else s j := by
  have hN : ((NUMBER_USED_PIXELS : Nat) : Int) - 1 - (i : Int) = 69 - (i : Int) := by
    have : ((NUMBER_USED_PIXELS : Nat) : Int) = 70 := rfl
    rw [this]
    ring
  have hg : ¬ ((i : Int) < 0 ∨ NUMBER_TURN_PIXELS ≤ (((i : Int)) : ℚ)) := by
    rintro (h | h)
    · omega
    · have := (lt_NUMBER_TURN_PIXELS_iff i).mpr hi
      have hc : (((i : Int)) : ℚ) = (i : ℚ) := by push_cast; rfl
      rw [hc] at h
      linarith
  unfold SignalEvent.SetTurnLED
  rw [if_neg hg, hN]
  by_cases hr : style = SIGNAL_STYLE.RIGHT_TURN ∨ style = SIGNAL_STYLE.HAZARD
  · by_cases hl : style = SIGNAL_STYLE.LEFT_TURN ∨ style = SIGNAL_STYLE.HAZARD
    · simp only [hr, hl, if_true, true_and]
      rw [drawPixel_apply_int _ _ _ _ (by omega) (by omega),
        drawPixel_apply_int _ _ _ _ (by omega) (by omega)]
    · simp only [hr, hl, if_true, if_false, true_and, false_and]
      rw [drawPixel_apply_int _ _ _ _ (by omega) (by omega)]
  · by_cases hl : style = SIGNAL_STYLE.LEFT_TURN ∨ style = SIGNAL_STYLE.HAZARD
    · simp only [hr, hl, if_true, if_false, true_and, false_and]
      rw [drawPixel_apply_int _ _ _ _ (by omega) (by omega)]
    · simp only [hr, hl, if_false, false_and]

/-- A loop over `i < n ≤ 22` that calls `SetTurnLED(i, col i)`. -/
theorem foldl_SetTurnLED (style : SIGNAL_STYLE) (col : Nat → CRGB) (n : Nat) (hn : n ≤ 22)
    (s : Strip) (j : Int) :
    ((List.range n).foldl
      (fun (s : Strip) (i : Nat) => SignalEvent.SetTurnLED style (i : Int) (col i) s) s) j
      = if (style = SIGNAL_STYLE.RIGHT_TURN ∨ style = SIGNAL_STYLE.HAZARD) ∧ 0 ≤ j
            ∧ j < (n : Int) then col j.toNat
        else if (style = SIGNAL_STYLE.LEFT_TURN ∨ style = SIGNAL_STYLE.HAZARD)
            ∧ 69 - (n : Int) < j ∧ j ≤ 69 then col (69 - j).toNat
        else s j := by
  induction n with
  | zero =>
    rw [if_neg (by omega), if_neg (by omega)]
    rfl
  | succ n ih =>
    rw [List.range_succ, List.foldl_append, List.foldl_cons, List.foldl_nil,
      SetTurnLED_apply style n (col n) _ j (by omega), ih (by omega)]
    have e1 : ∀ k : Int, k = (n : Int) → col n = col k.toNat := by
      intro k hk
      rw [hk, Int.toNat_ofNat]
    by_cases hr : style = SIGNAL_STYLE.RIGHT_TURN ∨ style = SIGNAL_STYLE.HAZARD
    · by_cases hl : style = SIGNAL_STYLE.LEFT_TURN ∨ style = SIGNAL_STYLE.HAZARD
      · simp only [hr, hl, true_and]
        split_ifs <;> first | rfl | (exfalso; omega) | (apply e1; omega)
      · simp only [hr, hl, true_and, false_and, if_false]
        split_ifs <;> first | rfl | (exfalso; omega) | (apply e1; omega)
    · by_cases hl : style = SIGNAL_STYLE.LEFT_TURN ∨ style = SIGNAL_STYLE.HAZARD
      · simp only [hr, hl, true_and, false_and, if_false]
        split_ifs <;> first | rfl | (exfalso; omega) | (apply e1; omega)
      · simp only [hr, hl, false_and, if_false]

/-- What the two loops of `SignalEvent::Draw` leave in a cell: the indices 0..21 are
written for a right turn, 48..69 for a left turn, both for the hazard style. -/
theorem SignalEvent_paint_apply (x : External) (style : SIGNAL_STYLE) (p : ℚ) (s : Strip)
    (j : Int) :
    SignalEvent.paint x style p s j
      = if (style = SIGNAL_STYLE.RIGHT_TURN ∨ style = SIGNAL_STYLE.HAZARD) ∧ 0 ≤ j ∧ j < 22
        then SignalEvent.turnColor x p j.toNat
        else if (style = SIGNAL_STYLE.LEFT_TURN ∨ style = SIGNAL_STYLE.HAZARD)
            ∧ 47 < j ∧ j ≤ 69 then SignalEvent.turnColor x p (69 - j).toNat
        else s j := by
  have hlt : ∀ i : Nat, i < 22 → decide ((i : ℚ) < NUMBER_TURN_PIXELS) = true := by
    intro i hi
    exact decide_eq_true ((lt_NUMBER_TURN_PIXELS_iff i).mpr hi)
  have hn : decide (((22 : Nat) : ℚ) < NUMBER_TURN_PIXELS) = false := by
    apply decide_eq_false
    intro h
    exact absurd ((lt_NUMBER_TURN_PIXELS_iff 22).mp h) (by omega)
  have hloop : ∀ (body : Nat → Strip → Strip) (t : Strip),
      forLoop (fun (i : Nat) => decide ((i : ℚ) < NUMBER_TURN_PIXELS)) body NUMBER_USED_PIXELS 0 t
        = (List.range 22).foldl (fun (s : Strip) (i : Nat) => body i s) t := by
    intro body t
    rw [forLoop_eq_foldl (fun (i : Nat) => decide ((i : ℚ) < NUMBER_TURN_PIXELS)) body 22 hlt hn NUMBER_USED_PIXELS 0 t (by omega) (by decide),
      List.range_eq_range']
  unfold SignalEvent.paint
  dsimp only
  rw [hloop, hloop]
  have h2 := foldl_SetTurnLED style (SignalEvent.turnColor x p) 22 (le_refl _)
    ((List.range 22).foldl
      (fun (s : Strip) (i : Nat) =>
        SignalEvent.SetTurnLED style (i : Int) (CRGB.ofCode Black) s) s) j
  have h1 := foldl_SetTurnLED style (fun _ => CRGB.ofCode Black) 22 (le_refl _) s j
  have hc : ((22 : Nat) : Int) = 22 := rfl
  have hd : (69 : Int) - 22 = 47 := rfl
  rw [hc, hd] at h1 h2
  unfold SignalEvent.turnColor at h2 ⊢
  rw [h2, h1]
  split_ifs <;> rfl

/-- What `Draw()` of an active signal that is not being deactivated leaves in a cell. -/
theorem SignalEvent_Draw_apply (x : External) (style : SIGNAL_STYLE) (e : LightingEvent)
    (now : Nat) (s : Strip) (j : Int) (hk : e.kind = Kind.Signal style)
    (ha : e.GetActive = true)
    (hd : e._bExitatEnd = false ∨ subU32 now e._eventStart ≤ 1000) :
    (e.Draw x now s).2 j
      = if (style = SIGNAL_STYLE.RIGHT_TURN ∨ style = SIGNAL_STYLE.HAZARD) ∧ 0 ≤ j ∧ j < 22
        then SignalEvent.turnColor x (SignalEvent.fCyclePosition e now) j.toNat
        else if (style = SIGNAL_STYLE.LEFT_TURN ∨ style = SIGNAL_STYLE.HAZARD)
            ∧ 47 < j ∧ j ≤ 69
        then SignalEvent.turnColor x (SignalEvent.fCyclePosition e now) (69 - j).toNat
        else s j := by
  have hnot : ¬ (f32 1 < SignalEvent.elapsedCycles e now ∧ e._bExitatEnd = true) := by
    rintro ⟨h1, h2⟩
    rcases hd with h | h
    · rw [h] at h2
      exact Bool.noConfusion h2
    · exact absurd ((one_lt_elapsedCycles_iff e now).mp h1) (by omega)
  unfold LightingEvent.Draw
  rw [hk]
  dsimp only
  unfold SignalEvent.Draw
  rw [if_neg (by simp [ha]), if_neg hnot]
  exact SignalEvent_paint_apply x style _ s j

/-- C24. The macro `NUMBER_TURN_PIXELS` is the `double` 21.0021..., so the loops of
`SignalEvent::Draw` and the guard of `SetTurnLED` admit the 22 indices 0..21.  A `Draw()`
of an active signal that is not being deactivated writes the 22 pixels 0..21 for
RIGHT_TURN, the 22 pixels 48..69 for LEFT_TURN, both sets for HAZARD and no pixel for
INVALID; every other pixel keeps what it held. -/
theorem signal_turn_pixels (x : External) (style : SIGNAL_STYLE) (e : LightingEvent)
    (now : Nat) (s : Strip) (j : Int) (hk : e.kind = Kind.Signal style)
    (ha : e.GetActive = true)
    (hd : e._bExitatEnd = false ∨ subU32 now e._eventStart ≤ 1000) :
    (21 < NUMBER_TURN_PIXELS ∧ NUMBER_TURN_PIXELS < 22)
    ∧ (∀ i : Nat, (i : ℚ) < NUMBER_TURN_PIXELS ↔ i < 22)
    ∧ (e.Draw x now s).2 j
      = (if (style = SIGNAL_STYLE.RIGHT_TURN ∨ style = SIGNAL_STYLE.HAZARD) ∧ 0 ≤ j ∧ j < 22
        then SignalEvent.turnColor x (SignalEvent.fCyclePosition e now) j.toNat
        else if (style = SIGNAL_STYLE.LEFT_TURN ∨ style = SIGNAL_STYLE.HAZARD)
            ∧ 47 < j ∧ j ≤ 69
        then SignalEvent.turnColor x (SignalEvent.fCyclePosition e now) (69 - j).toNat
        else s j)
    ∧ (style = SIGNAL_STYLE.INVALID → (e.Draw x now s).2 j = s j) := by
  have hv := NUMBER_TURN_PIXELS_val
  have hD := SignalEvent_Draw_apply x style e now s j hk ha hd
  refine ⟨?_, lt_NUMBER_TURN_PIXELS_iff, hD, ?_⟩
  · rw [hv]
    constructor <;> norm_num
  · intro hs
    rw [hD, hs]
    simp

theorem signal_turn_pixels_witness :
    (rightTurnHeld.Draw External.white 1131 blackStrip).2 21
      = SignalEvent.turnColor External.white (SignalEvent.fCyclePosition rightTurnHeld 1131)
          (21 : Int).toNat := by
  have h := (signal_turn_pixels External.white SIGNAL_STYLE.RIGHT_TURN rightTurnHeld 1131
    blackStrip 21 (by decide) (by decide) (Or.inl (by decide))).2.2.1
  rw [h, if_pos ⟨Or.inl rfl, by omega, by omega⟩]

/-- C24, counterexample. With a white palette on a black strip, a `Draw()` of the active
right-turn signal writes pixel 21 and a `Draw()` of the active left-turn signal writes
pixel 48: each writes a pixel outside the 21 pixels nearest its end of the strip. -/
theorem signal_writes_22_pixels :
    rightTurnHeld.GetActive = true ∧ leftTurnHeld.GetActive = true
    ∧ blackStrip 21 = CRGB.ofCode Black ∧ blackStrip 48 = CRGB.ofCode Black
    ∧ (rightTurnHeld.Draw External.white 1131 blackStrip).2 21 = CRGB.ofCode White
    ∧ (leftTurnHeld.Draw External.white 1131 blackStrip).2 48 = CRGB.ofCode White := by
  refine ⟨by decide, by decide, rfl, rfl, ?_, ?_⟩
  · rw [SignalEvent_Draw_apply External.white SIGNAL_STYLE.RIGHT_TURN rightTurnHeld 1131
      blackStrip 21 (by decide) (by decide) (Or.inl (by decide)),
      if_pos ⟨Or.inl rfl, by omega, by omega⟩]
    rfl
  · rw [SignalEvent_Draw_apply External.white SIGNAL_STYLE.LEFT_TURN leftTurnHeld 1131
      blackStrip 48 (by decide) (by decide) (Or.inl (by decide)),
      if_neg (by simp), if_pos ⟨Or.inl rfl, by omega, by omega⟩]
    rfl

/-! ## The debounce monitor over a schedule -/

theorem raiseEvent_sameSample (e : LightingEvent) (b : Bool) (d : Nat → Bool) (nowAct : Nat) :
    sameSample (e.raiseEvent b d nowAct).1 e := by
  unfold LightingEvent.raiseEvent
  split_ifs
  · exact Begin_sameSample e nowAct
  · exact End_sameSample e nowAct
  · exact ⟨rfl, rfl, rfl, rfl, rfl⟩
  · exact End_sameSample e nowAct
  · exact ⟨rfl, rfl, rfl, rfl, rfl⟩

/-- `CheckForButtonPress` is the debounce test, the call and the acknowledgement. -/
theorem CheckForButtonPress_eq_raiseEvent (e : LightingEvent) (d : Nat → Bool)
    (now nowAct : Nat) :
    e.CheckForButtonPress d now nowAct
      = if e._buttonPin1 = 0 then (e, [])
        else if e._hasIRQHandlerFiredYet = true
            ∧ d e._buttonPin1 = decide (e._lastIRQButtonState ≠ 0)
            ∧ toUnsigned DEBOUNCETIME < subU32 now (toUnsigned e._debounceTimeout) then
          ((e.raiseEvent (d e._buttonPin1) d nowAct).1.acknowledge,
            (e.raiseEvent (d e._buttonPin1) d nowAct).2)
        else (e, []) := by
  unfold LightingEvent.CheckForButtonPress LightingEvent.raiseEvent LightingEvent.acknowledge
  rfl

/-- The four steps of a poll that no level change interrupts do what `CheckForButtonPress`
computes: the debounce step makes its calls and the state after the acknowledgement holds
its object. -/
theorem poll_uninterrupted (w : Monitor) (t : Nat) (q : Bool) (nowAct : Nat)
    (hpc : w.pc = PollState.idle) :
    ((((w.step SchedEvent.pollRead).1.step SchedEvent.pollSnapshot).1.step
        (SchedEvent.pollAct t q nowAct)).2
      = (w.effect.CheckForButtonPress (pinReader w.effect._buttonPin1 w.raw q) t nowAct).2)
    ∧ ((((w.step SchedEvent.pollRead).1.step SchedEvent.pollSnapshot).1.step
        (SchedEvent.pollAct t q nowAct)).1.step SchedEvent.pollAck).1
      = { raw := w.raw
          effect := (w.effect.CheckForButtonPress
            (pinReader w.effect._buttonPin1 w.raw q) t nowAct).1
          pc := PollState.idle } := by
  obtain ⟨raw, e, pc⟩ := w
  simp only at hpc
  subst hpc
  have hread : pinReader e._buttonPin1 raw q e._buttonPin1 = raw := by simp [pinReader]
  rw [CheckForButtonPress_eq_raiseEvent, hread]
  by_cases hp : e._buttonPin1 = 0
  · simp [Monitor.step, hp]
  · by_cases hc : e._hasIRQHandlerFiredYet = true
        ∧ raw = decide (e._lastIRQButtonState ≠ 0)
        ∧ toUnsigned DEBOUNCETIME < subU32 t (toUnsigned e._debounceTimeout)
    · simp only [Monitor.step, hp, if_false, if_pos hc]
      exact ⟨trivial, trivial⟩
    · simp only [Monitor.step, hp, if_false, if_neg hc]
      exact ⟨trivial, trivial⟩

theorem run_poll_uninterrupted (w0 : Monitor) (older : List InputEvent) (t : Nat) (q : Bool)
    (hpc : (Monitor.run w0 (uninterrupted older)).pc = PollState.idle) :
    Monitor.run w0 (uninterrupted (InputEvent.poll t q :: older))
      = { raw := (Monitor.run w0 (uninterrupted older)).raw
          effect := ((Monitor.run w0 (uninterrupted older)).effect.CheckForButtonPress
            (pinReader (Monitor.run w0 (uninterrupted older)).effect._buttonPin1
              (Monitor.run w0 (uninterrupted older)).raw q) t t).1
          pc := PollState.idle } :=
  (poll_uninterrupted (Monitor.run w0 (uninterrupted older)) t q t hpc).2

theorem chronological_cons (ev : InputEvent) (older : List InputEvent)
    (h : chronological (ev :: older) = true) :
    ev.time < WORD ∧ (∀ o ∈ older, o.time ≤ ev.time) ∧ chronological older = true := by
  simp only [chronological, Bool.and_eq_true, decide_eq_true_eq, List.all_eq_true] at h
  exact ⟨h.1.1, h.1.2, h.2⟩

/-- The last level change of a history is one of its events. -/
theorem lastChange_mem (hist : List InputEvent) (c : Nat)
    (h : lastChange (uninterrupted hist) = some c) : ∃ ev ∈ hist, ev.time = c := by
  induction hist with
  | nil => simp [uninterrupted, lastChange] at h
  | cons ev older ih =>
    cases ev with
    | change t =>
      simp only [uninterrupted, lastChange, Option.some.injEq] at h
      exact ⟨InputEvent.change t, List.mem_cons_self _ _, by simpa [InputEvent.time] using h⟩
    | poll t q =>
      simp only [uninterrupted, lastChange] at h
      obtain ⟨ev, hev, hc⟩ := ih h
      exact ⟨ev, List.mem_cons_of_mem _ hev, hc⟩

/-- Along a history whose polls are not interrupted, the object holds the level and the
clock value of the last level change, and its interrupt flag is set exactly while no
debounce test has come more than 30 ms after that change. -/
theorem run_tracks (kind : Kind) (pin1 pin2 : Nat) (raw0 : Bool) (hpin : pin1 ≠ 0)
    (hist : List InputEvent) (hchr : chronological hist = true) :
    tracks raw0 pin1 pin2 (uninterrupted hist)
      (Monitor.run (Monitor.init kind pin1 pin2 raw0) (uninterrupted hist)) := by
  induction hist with
  | nil =>
    refine ⟨rfl, rfl, rfl, rfl, fun _ => rfl, ?_⟩
    intro c hc
    simp [uninterrupted, lastChange] at hc
  | cons ev older ih =>
    obtain ⟨hW, hle, hold⟩ := chronological_cons ev older hchr
    obtain ⟨hraw, hidle, hp1, hp2, hnone, hsome⟩ := ih hold
    cases ev with
    | change t =>
      have hstep : Monitor.run (Monitor.init kind pin1 pin2 raw0)
          (uninterrupted (InputEvent.change t :: older))
          = { Monitor.run (Monitor.init kind pin1 pin2 raw0) (uninterrupted older) with
              raw := !(Monitor.run (Monitor.init kind pin1 pin2 raw0) (uninterrupted older)).raw
              effect := (Monitor.run (Monitor.init kind pin1 pin2 raw0)
                (uninterrupted older)).effect.IRQ
                  (!(Monitor.run (Monitor.init kind pin1 pin2 raw0) (uninterrupted older)).raw)
                  t } := rfl
      rw [hstep]
      refine ⟨?_, hidle, hp1, hp2, ?_, ?_⟩
      · show (!(Monitor.run _ (uninterrupted older)).raw) = !rawLevel raw0 (uninterrupted older)
        rw [hraw]
      · intro hc
        simp [uninterrupted, lastChange] at hc
      · intro c hc
        simp only [uninterrupted, lastChange, Option.some.injEq] at hc
        subst hc
        refine ⟨?_, ?_, ?_⟩
        · show toUnsigned (toInt t) = t
          rw [toUnsigned_toInt]
          exact Nat.mod_eq_of_lt hW
        · show decide ((if (!(Monitor.run _ (uninterrupted older)).raw) = true
              then (1 : Int) else 0) ≠ 0) = !(Monitor.run _ (uninterrupted older)).raw
          cases (Monitor.run _ (uninterrupted older)).raw <;> simp
        · simp [unacknowledged, uninterrupted, lastChange, pollsSinceChange, LightingEvent.IRQ]
    | poll p q =>
      simp only [InputEvent.time] at hW hle
      rw [run_poll_uninterrupted _ older p q hidle]
      set w := Monitor.run (Monitor.init kind pin1 pin2 raw0) (uninterrupted older) with hw
      have hlast : lastChange (uninterrupted (InputEvent.poll p q :: older))
          = lastChange (uninterrupted older) := rfl
      have hlevel : rawLevel raw0 (uninterrupted (InputEvent.poll p q :: older))
          = rawLevel raw0 (uninterrupted older) := rfl
      have hpolls : pollsSinceChange (uninterrupted (InputEvent.poll p q :: older))
          = p :: pollsSinceChange (uninterrupted older) := rfl
      have hread : pinReader w.effect._buttonPin1 w.raw q w.effect._buttonPin1 = w.raw := by
        simp [pinReader]
      by_cases hc : confirms w.effect (pinReader w.effect._buttonPin1 w.raw q) p
      · obtain ⟨hflag, hsame, -⟩ :=
          CheckForButtonPress_confirmed w.effect _ p p hc
        obtain ⟨hs1, hs2, hs3, hs4, -⟩ := hsame
        have hdirty : w.effect._hasIRQHandlerFiredYet = true := hc.2.1
        refine ⟨by rw [hlevel]; exact hraw, rfl, hs3.trans hp1, hs4.trans hp2,
          fun _ => hflag, ?_⟩
        intro c hlc
        rw [hlast] at hlc
        obtain ⟨h1, h2, h3⟩ := hsome c hlc
        obtain ⟨ev, hev, htime⟩ := lastChange_mem older c hlc
        have hcp : c ≤ p := htime ▸ hle ev hev
        have h30 : 30 < p - c := by
          have := hc.2.2.2
          rwa [h1, subU32_of_le p c hcp hW] at this
        refine ⟨?_, ?_, ?_⟩
        · show toUnsigned (w.effect.CheckForButtonPress _ p p).1._debounceTimeout = c
          rw [hs2]
          exact h1
        · show decide ((w.effect.CheckForButtonPress _ p p).1._lastIRQButtonState ≠ 0) = w.raw
          rw [hs1]
          exact h2
        · show (w.effect.CheckForButtonPress _ p p).1._hasIRQHandlerFiredYet = _
          rw [hflag]
          simp only [unacknowledged, hlast, hlc, hpolls, List.all_cons]
          have : decide (p - c ≤ 30) = false := by simp; omega
          rw [this, Bool.false_and]
      · have hsame : (w.effect.CheckForButtonPress
            (pinReader w.effect._buttonPin1 w.raw q) p p).1 = w.effect := by
          rw [CheckForButtonPress_of_not_confirms w.effect _ p p hc]
        rw [hsame]
        refine ⟨by rw [hlevel]; exact hraw, rfl, hp1, hp2, by rw [hlast]; exact hnone, ?_⟩
        intro c hlc
        rw [hlast] at hlc
        obtain ⟨h1, h2, h3⟩ := hsome c hlc
        refine ⟨h1, h2, ?_⟩
        obtain ⟨ev, hev, htime⟩ := lastChange_mem older c hlc
        have hcp : c ≤ p := htime ▸ hle ev hev
        simp only [unacknowledged, hlast, hlc, hpolls, List.all_cons]
        have hun : unacknowledged (uninterrupted older)
            = (pollsSinceChange (uninterrupted older)).all (fun p => decide (p - c ≤ 30)) := by
          simp only [unacknowledged, hlc]
        show w.effect._hasIRQHandlerFiredYet = _
        rw [← hun, ← h3]
        cases hflag : w.effect._hasIRQHandlerFiredYet with
        | false => simp
        | true =>
          have : ¬ 30 < p - c := by
            intro h30
            apply hc
            refine ⟨hp1 ▸ hpin, hflag, ?_, ?_⟩
            · rw [hread, h2]
            · rwa [h1, subU32_of_le p c hcp hW]
          simp
          omega

/-- A step of the poll leaves the level of the pin and the captured sample as they are. -/
theorem step_keeps_sample (w : Monitor) (ev : SchedEvent)
    (h : ∀ t, ev ≠ SchedEvent.change t) :
    (w.step ev).1.raw = w.raw
    ∧ (w.step ev).1.effect._lastIRQButtonState = w.effect._lastIRQButtonState
    ∧ (w.step ev).1.effect._debounceTimeout = w.effect._debounceTimeout := by
  cases ev with
  | change t => exact absurd rfl (h t)
  | pollRead =>
    simp only [Monitor.step]
    split
    · split <;> exact ⟨rfl, rfl, rfl⟩
    · exact ⟨rfl, rfl, rfl⟩
  | pollSnapshot =>
    simp only [Monitor.step]
    split <;> exact ⟨rfl, rfl, rfl⟩
  | pollAct t q nowAct =>
    simp only [Monitor.step]
    split
    · rename_i b0 sv tmo lv hpc
      split
      · obtain ⟨h1, h2, -⟩ := raiseEvent_sameSample w.effect b0
          (pinReader w.effect._buttonPin1 w.raw q) nowAct
        exact ⟨rfl, h1, h2⟩
      · exact ⟨rfl, rfl, rfl⟩
    · exact ⟨rfl, rfl, rfl⟩
  | pollAck =>
    simp only [Monitor.step]
    split <;> exact ⟨rfl, rfl, rfl⟩

/-- In every schedule, with or without level changes inside the polls, the object holds the
clock value and the level of the last level change. -/
theorem run_captures_last_change (kind : Kind) (pin1 pin2 : Nat) (raw0 : Bool)
    (sched : List SchedEvent) :
    (Monitor.run (Monitor.init kind pin1 pin2 raw0) sched).raw = rawLevel raw0 sched
    ∧ ∀ c, lastChange sched = some c →
        toUnsigned (Monitor.run (Monitor.init kind pin1 pin2 raw0) sched).effect._debounceTimeout
          = c % WORD
        ∧ decide ((Monitor.run (Monitor.init kind pin1 pin2 raw0)
            sched).effect._lastIRQButtonState ≠ 0) = rawLevel raw0 sched := by
  induction sched with
  | nil =>
    refine ⟨rfl, ?_⟩
    intro c hc
    simp [lastChange] at hc
  | cons ev older ih =>
    obtain ⟨hraw, hsome⟩ := ih
    have hrun : Monitor.run (Monitor.init kind pin1 pin2 raw0) (ev :: older)
        = ((Monitor.run (Monitor.init kind pin1 pin2 raw0) older).step ev).1 := rfl
    by_cases hch : ∃ t, ev = SchedEvent.change t
    · obtain ⟨t, rfl⟩ := hch
      refine ⟨?_, ?_⟩
      · show (!(Monitor.run _ older).raw) = !rawLevel raw0 older
        rw [hraw]
      · intro c hc
        simp only [lastChange, Option.some.injEq] at hc
        subst hc
        refine ⟨?_, ?_⟩
        · show toUnsigned (toInt t) = t % WORD
          exact toUnsigned_toInt t
        · show decide ((if (!(Monitor.run _ older).raw) = true then (1 : Int) else 0) ≠ 0)
            = !rawLevel raw0 older
          rw [hraw]
          cases rawLevel raw0 older <;> simp
    · have hne : ∀ t, ev ≠ SchedEvent.change t := fun t h => hch ⟨t, h⟩
      obtain ⟨k1, k2, k3⟩ := step_keeps_sample
        (Monitor.run (Monitor.init kind pin1 pin2 raw0) older) ev hne
      have hlevel : rawLevel raw0 (ev :: older) = rawLevel raw0 older := by
        cases ev with
        | change t => exact absurd rfl (hne t)
        | pollRead => rfl
        | pollSnapshot => rfl
        | pollAct t q nowAct => rfl
        | pollAck => rfl
      have hlast : lastChange (ev :: older) = lastChange older := by
        cases ev with
        | change t => exact absurd rfl (hne t)
        | pollRead => rfl
        | pollSnapshot => rfl
        | pollAct t q nowAct => rfl
        | pollAck => rfl
      rw [hrun, hlevel, hlast, k1, k2, k3]
      exact ⟨hraw, hsome⟩

/-- C2, as the code has it.  For an effect constructed on a configured primary pin and any
chronological history of level changes and polls in which no level change falls inside a
poll, the debounce test of a further poll at clock `t` calls `Begin()` if and only if the
level has changed at least once, the raw level is HIGH and has not changed for strictly
more than 30 ms at `t`, no earlier debounce test since that last level change came more
than 30 ms after it (the edge is still unacknowledged) and the qualifier pin, when one is
configured, reads HIGH.  In every schedule, level changes inside polls included, the
captured timestamp and level are those of the last level change. -/
theorem press_iff_stable_unacknowledged (kind : Kind) (pin1 pin2 : Nat) (raw0 : Bool)
    (hist : List InputEvent) (t : Nat) (q : Bool) (nowAct : Nat) (hpin : pin1 ≠ 0)
    (hchr : chronological (InputEvent.poll t q :: hist) = true) :
    (Call.Begin ∈
        ((Monitor.run (Monitor.init kind pin1 pin2 raw0)
            (SchedEvent.pollSnapshot :: SchedEvent.pollRead :: uninterrupted hist)).step
          (SchedEvent.pollAct t q nowAct)).2
      ↔ ((lastChange (uninterrupted hist)).isSome = true
          ∧ stableHigh raw0 (uninterrupted hist) t = true
          ∧ unacknowledged (uninterrupted hist) = true
          ∧ (pin2 = 0 ∨ pinReader pin1 (rawLevel raw0 (uninterrupted hist)) q pin2 = true)))
    ∧ ∀ (sched : List SchedEvent),
        (Monitor.run (Monitor.init kind pin1 pin2 raw0) sched).raw = rawLevel raw0 sched
        ∧ ∀ c, lastChange sched = some c →
          toUnsigned (Monitor.run (Monitor.init kind pin1 pin2 raw0)
            sched).effect._debounceTimeout = c % WORD
          ∧ decide ((Monitor.run (Monitor.init kind pin1 pin2 raw0)
              sched).effect._lastIRQButtonState ≠ 0) = rawLevel raw0 sched := by
  refine ⟨?_, run_captures_last_change kind pin1 pin2 raw0⟩
  obtain ⟨hW, hle, hold⟩ := chronological_cons _ hist hchr
  simp only [InputEvent.time] at hW hle
  obtain ⟨hraw, hidle, hp1, hp2, hnone, hsome⟩ := run_tracks kind pin1 pin2 raw0 hpin hist hold
  set w := Monitor.run (Monitor.init kind pin1 pin2 raw0) (uninterrupted hist) with hw
  have hrun : Monitor.run (Monitor.init kind pin1 pin2 raw0)
      (SchedEvent.pollSnapshot :: SchedEvent.pollRead :: uninterrupted hist)
      = ((w.step SchedEvent.pollRead).1.step SchedEvent.pollSnapshot).1 := rfl
  rw [hrun, (poll_uninterrupted w t q nowAct hidle).1, hp1, hraw]
  have hread : pinReader pin1 (rawLevel raw0 (uninterrupted hist)) q w.effect._buttonPin1
      = w.raw := by
    simp [pinReader, hp1, hraw]
  by_cases hc : confirms w.effect (pinReader pin1 (rawLevel raw0 (uninterrupted hist)) q) t
  · rw [(CheckForButtonPress_confirmed w.effect _ t nowAct hc).2.2, hread, hp2, hraw]
    have hdirty : w.effect._hasIRQHandlerFiredYet = true := hc.2.1
    cases hlc : lastChange (uninterrupted hist) with
    | none => rw [hnone hlc] at hdirty; exact absurd hdirty (by simp)
    | some c =>
      obtain ⟨h1, h2, h3⟩ := hsome c hlc
      obtain ⟨ev, hev, htime⟩ := lastChange_mem hist c hlc
      have hcp : c ≤ t := htime ▸ hle ev hev
      have h30 : 30 < t - c := by
        have := hc.2.2.2
        rwa [h1, subU32_of_le t c hcp hW] at this
      have hst : stableHigh raw0 (uninterrupted hist) t = rawLevel raw0 (uninterrupted hist) := by
        simp [stableHigh, hlc, h30]
      rw [hst, ← h3, hdirty]
      simp
  · rw [CheckForButtonPress_of_not_confirms w.effect _ t nowAct hc]
    constructor
    · intro h
      simp at h
    · rintro ⟨hsm, hst, hun, -⟩
      exfalso
      apply hc
      cases hlc : lastChange (uninterrupted hist) with
      | none =>
        rw [hlc] at hsm
        simp at hsm
      | some c =>
        obtain ⟨h1, h2, h3⟩ := hsome c hlc
        obtain ⟨ev, hev, htime⟩ := lastChange_mem hist c hlc
        have hcp : c ≤ t := htime ▸ hle ev hev
        simp only [stableHigh, hlc, Bool.and_eq_true, decide_eq_true_eq] at hst
        refine ⟨hp1 ▸ hpin, h3.trans hun, ?_, ?_⟩
        · rw [hread, h2]
        · rw [h1, subU32_of_le t c hcp hW]
          exact hst.2

theorem press_iff_stable_unacknowledged_witness :
    Call.Begin ∈
        ((Monitor.run (Monitor.init (Kind.Signal SIGNAL_STYLE.LEFT_TURN) 36 0 false)
            (SchedEvent.pollSnapshot :: SchedEvent.pollRead
              :: uninterrupted [InputEvent.poll 120 false, InputEvent.change 100])).step
          (SchedEvent.pollAct 131 false 131)).2
      ↔ ((lastChange (uninterrupted [InputEvent.poll 120 false, InputEvent.change 100])).isSome
            = true
          ∧ stableHigh false (uninterrupted [InputEvent.poll 120 false, InputEvent.change 100])
            131 = true
          ∧ unacknowledged (uninterrupted [InputEvent.poll 120 false, InputEvent.change 100])
            = true
          ∧ ((0 : Nat) = 0
              ∨ pinReader 36
                (rawLevel false (uninterrupted [InputEvent.poll 120 false, InputEvent.change 100]))
                false 0 = true)) :=
  (press_iff_stable_unacknowledged (Kind.Signal SIGNAL_STYLE.LEFT_TURN) 36 0 false
    [InputEvent.poll 120 false, InputEvent.change 100] 131 false 131 (by decide) (by decide)).1

/-- C2 as stated fails in four ways.  The level rises at clock 0, the poll at clock 31 calls
`Begin()` and acknowledges the edge, and the poll at clock 32 does not call `Begin()`
although the level has been HIGH and unchanged for 32 ms.  A level that is HIGH from the
construction of the object on never changes, no interrupt runs, and the poll at clock 1000
does not call `Begin()`.  In the schedule `racingRise` the rising edge of clock 140 falls
between the copy of the sample and the acknowledgement of a poll that passes its test: the
flag it set is cleared, and the poll at clock 200 does not call `Begin()` although the level
has been HIGH and unchanged for 60 ms and no debounce test came more than 30 ms after the
edge.  In the schedule `racingFall` the level falls at clock 40, after the poll has copied
the sample, and the debounce test at clock 41 calls `Begin()` although the level is LOW. -/
theorem press_differs_from_stable_high :
    (stableHigh false (uninterrupted pressConfirmed) 32 = true
      ∧ Call.Begin ∈
          ((Monitor.run (Monitor.init (Kind.Signal SIGNAL_STYLE.LEFT_TURN) 36 0 false)
              (SchedEvent.pollSnapshot :: SchedEvent.pollRead
                :: uninterrupted [InputEvent.change 0])).step
            (SchedEvent.pollAct 31 false 31)).2
      ∧ Call.Begin ∉
          ((Monitor.run (Monitor.init (Kind.Signal SIGNAL_STYLE.LEFT_TURN) 36 0 false)
              (SchedEvent.pollSnapshot :: SchedEvent.pollRead
                :: uninterrupted pressConfirmed)).step
            (SchedEvent.pollAct 32 false 32)).2)
    ∧ (stableHigh true [] 1000 = true
      ∧ Call.Begin ∉
          ((Monitor.run (Monitor.init (Kind.Signal SIGNAL_STYLE.LEFT_TURN) 36 0 true)
              [SchedEvent.pollSnapshot, SchedEvent.pollRead]).step
            (SchedEvent.pollAct 1000 false 1000)).2)
    ∧ (lastChange racingRise = some 140
      ∧ stableHigh false racingRise 200 = true
      ∧ unacknowledged racingRise = true
      ∧ (Monitor.run (Monitor.init (Kind.Signal SIGNAL_STYLE.LEFT_TURN) 36 0 false)
          racingRise).effect._hasIRQHandlerFiredYet = false
      ∧ Call.Begin ∉
          ((Monitor.run (Monitor.init (Kind.Signal SIGNAL_STYLE.LEFT_TURN) 36 0 false)
              (SchedEvent.pollSnapshot :: SchedEvent.pollRead :: racingRise)).step
            (SchedEvent.pollAct 200 false 200)).2)
    ∧ (rawLevel false racingFall = false
      ∧ stableHigh false racingFall 41 = false
      ∧ Call.Begin ∈
          ((Monitor.run (Monitor.init (Kind.Signal SIGNAL_STYLE.LEFT_TURN) 36 0 false)
              racingFall).step (SchedEvent.pollAct 41 false 41)).2) := by
  decide

end ThirdBrakeLight
